import Mathlib

/-!
# xGPU CPU-side utilities (`src/cpu_util.c`): a shallow embedding

The C functions of `cpu_util.c` are embedded as Lean functions.

* Buffers are total maps from an element offset to a value (`Nat → _`); the
  bounds of the offsets a function uses are stated as separate theorems.
* C `for (i = 0; i < n; i++)` loops are `forLoop n body`, run in the order of the
  source; loop counters and index arithmetic are natural numbers (the C code
  uses `int`, whose overflow is undefined behaviour: the model covers the
  geometries whose offsets fit that type).
* The compile-time constants of `xgpu_info.h` (`NSTATION`, `NFREQUENCY`, `NPOL`,
  `NPULSAR`, `NTIME`, `NTIME_PIPE`) are the fields of `Geometry`; the
  preprocessor switches (`FIXED_POINT`, `DP4A`, `MATRIX_ORDER`) are the fields
  of `Mode`.
* `printf` output is not modelled, except that the validator counts its
  `printf` calls.
* The copying functions are generic in the scalar type.
* The arithmetic of the validator is a parameter. `xgpuCheckResultA` takes every
  operation of the component type (`float`, or `int` under `DP4A`) and of
  `double` as a field of `CheckArith` and assumes nothing of them, so what is
  proved of it holds whatever the machine operations return (rounded,
  underflowed or wrapped results among them). `xgpuCheckResult` is the same code
  over an ordered field with a square-root function, in exact arithmetic; it is
  `xgpuCheckResultA` at `exactArith` (`checkResultA_exact`).
* `xgpuRandomComplex` takes the results of the successive calls of `rand()` as a
  function of the call number, and the C math library (`sqrt`, `log`, `cos`,
  `sin`, `M_PI`) and `RAND_MAX` as parameters.
-/

set_option autoImplicit false

namespace XGPU

/-! ## Data model -/

/-- Modelled from the spec: the element type `Complex` declared in `xgpu.h`
(not among the sources), a pair of scalar components with `real` stored
before `imag`. The scalar type is `float` (or `int` under `DP4A`); it is a
parameter here. -/
structure Complex (α : Type) where
  real : α
  imag : α
deriving DecidableEq, Repr

/-- Complex conjugate: same real part, negated imaginary part. -/
def Complex.conj {α : Type} [Neg α] (z : Complex α) : Complex α :=
  ⟨z.real, -z.imag⟩

/-- The compile-time geometry constants of `xgpu_info.h`. -/
structure Geometry where
  NSTATION : Nat
  NFREQUENCY : Nat
  NPOL : Nat
  NPULSAR : Nat
  NTIME : Nat
  NTIME_PIPE : Nat
deriving DecidableEq, Repr

/-- The three values `MATRIX_ORDER` can take. -/
inductive MatrixOrder where
  | TRIANGULAR_ORDER
  | REAL_IMAG_TRIANGULAR_ORDER
  | REGISTER_TILE_TRIANGULAR_ORDER
deriving DecidableEq, Repr

/-- The preprocessor switches the functions branch on. -/
structure Mode where
  FIXED_POINT : Bool
  DP4A : Bool
  MATRIX_ORDER : MatrixOrder
deriving DecidableEq, Repr

/-- The C loop `for (i = 0; i < n; i++) s = body i s`. -/
def forLoop {σ : Type} : Nat → (Nat → σ → σ) → σ → σ
  | 0, _, s => s
  | n + 1, body, s => body n (forLoop n body s)

/-- The assignment `m[i] = v`. -/
def write {β : Type} (m : Nat → β) (i : Nat) (v : β) : Nat → β :=
  fun x => if x = i then v else m x

/-- The assignment `m[i].real = v`. -/
def setReal {α : Type} (m : Nat → Complex α) (i : Nat) (v : α) : Nat → Complex α :=
  fun x => if x = i then ⟨v, (m x).imag⟩ else m x

/-- The assignment `m[i].imag = v`. -/
def setImag {α : Type} (m : Nat → Complex α) (i : Nat) (v : α) : Nat → Complex α :=
  fun x => if x = i then ⟨(m x).real, v⟩ else m x

/-! ## Index maps -/

/-- The baseline slot `k = f*(NSTATION+1)*(NSTATION/2) + i*(i+1)/2 + j`. -/
def baselineIndex (g : Geometry) (f i j : Nat) : Nat :=
  f * (g.NSTATION + 1) * (g.NSTATION / 2) + i * (i + 1) / 2 + j

/-- The canonical (triangular) element offset `(k*NPOL+pol1)*NPOL+pol2`. -/
def triIndex (g : Geometry) (f i j pol1 pol2 : Nat) : Nat :=
  (baselineIndex g f i j * g.NPOL + pol1) * g.NPOL + pol2

/-- The dense element offset `(((f*NSTATION + i)*NSTATION + j)*NPOL + pol1)*NPOL+pol2`. -/
def denseIndex (g : Geometry) (f i j pol1 pol2 : Nat) : Nat :=
  (((f * g.NSTATION + i) * g.NSTATION + j) * g.NPOL + pol1) * g.NPOL + pol2

/-! ## `xgpuExtractMatrix` -/

/-- The body of the innermost loop of `xgpuExtractMatrix`: four component
assignments, in the order of the source. -/
def extractStep {α : Type} [Neg α] (g : Geometry) (packed : Nat → Complex α)
    (f i j pol1 pol2 : Nat) (matrix : Nat → Complex α) : Nat → Complex α :=
  let k := f * (g.NSTATION + 1) * (g.NSTATION / 2) + i * (i + 1) / 2 + j
  let index := (k * g.NPOL + pol1) * g.NPOL + pol2
  let m1 := setReal matrix
    ((((f * g.NSTATION + i) * g.NSTATION + j) * g.NPOL + pol1) * g.NPOL + pol2) (packed index).real
  let m2 := setImag m1
    ((((f * g.NSTATION + i) * g.NSTATION + j) * g.NPOL + pol1) * g.NPOL + pol2) (packed index).imag
  let m3 := setReal m2
    ((((f * g.NSTATION + j) * g.NSTATION + i) * g.NPOL + pol2) * g.NPOL + pol1) (packed index).real
  setImag m3
    ((((f * g.NSTATION + j) * g.NSTATION + i) * g.NPOL + pol2) * g.NPOL + pol1) (-(packed index).imag)

/-- `xgpuExtractMatrix(matrix, packed)`: the dense buffer after the call, given
its contents before the call and the packed buffer. -/
def xgpuExtractMatrix {α : Type} [Neg α] (g : Geometry) (matrix packed : Nat → Complex α) :
    Nat → Complex α :=
  forLoop g.NFREQUENCY (fun f =>
    forLoop g.NSTATION (fun i =>
      forLoop (i + 1) (fun j =>
        forLoop g.NPOL (fun pol1 =>
          forLoop g.NPOL (fun pol2 => extractStep g packed f i j pol1 pol2))))) matrix

/-! ## `xgpuReorderMatrix` -/

/-- The element count `matLength` of the register-tile branch. -/
def tileMatLength (g : Geometry) : Nat :=
  g.NFREQUENCY * ((g.NSTATION / 2 + 1) * (g.NSTATION / 4) * g.NPOL * g.NPOL * 4) * (g.NPULSAR + 1)

/-- The element count `matLength` of the split real/imag branch. -/
def splitMatLength (g : Geometry) : Nat :=
  g.NFREQUENCY * ((g.NSTATION + 1) * (g.NSTATION / 2) * g.NPOL * g.NPOL) * (g.NPULSAR + 1)

/-- The `Complex` element at offset `idx` of a buffer given as its scalars
(`real` at scalar `2*idx`, `imag` at scalar `2*idx+1`). -/
def complexAt {α : Type} (mem : Nat → α) (idx : Nat) : Complex α :=
  ⟨mem (2 * idx), mem (2 * idx + 1)⟩

/-- The call `memcpy(matrix, tmp, matLength*sizeof(Complex))`, on the scalars of
`matrix`. -/
def copyBack {α : Type} (matLength : Nat) (tmp : Nat → Complex α) (matrix : Nat → α) : Nat → α :=
  fun s =>
    if s < 2 * matLength then
      if s % 2 = 0 then (tmp (s / 2)).real else (tmp (s / 2)).imag
    else matrix s

/-- The body of the innermost loop of the register-tile branch. `matrix` is the
buffer read through the scalar pointer `(float*)matrix` (`(int*)matrix` under
`DP4A`). -/
def tileStep {α : Type} (g : Geometry) (matrix : Nat → α)
    (f i rx j ry pol1 pol2 : Nat) (tmp : Nat → Complex α) : Nat → Complex α :=
  let matLength := tileMatLength g
  let k := f * (g.NSTATION + 1) * (g.NSTATION / 2) + (2 * i + rx) * (2 * i + rx + 1) / 2 + 2 * j + ry
  let l := f * 4 * (g.NSTATION / 2 + 1) * (g.NSTATION / 4)
    + (2 * ry + rx) * (g.NSTATION / 2 + 1) * (g.NSTATION / 4) + i * (i + 1) / 2 + j
  let tri_index := (k * g.NPOL + pol1) * g.NPOL + pol2
  let reg_index := (l * g.NPOL + pol1) * g.NPOL + pol2
  setImag (setReal tmp tri_index (matrix reg_index)) tri_index (matrix (reg_index + matLength))

/-- The loop nest of the register-tile branch, acting on the scratch buffer. -/
def tileLoops {α : Type} (g : Geometry) (matrix : Nat → α) (tmp : Nat → Complex α) :
    Nat → Complex α :=
  forLoop g.NFREQUENCY (fun f =>
    forLoop (g.NSTATION / 2) (fun i =>
      forLoop 2 (fun rx =>
        forLoop (i + 1) (fun j =>
          forLoop 2 (fun ry =>
            forLoop g.NPOL (fun pol1 =>
              forLoop g.NPOL (fun pol2 => tileStep g matrix f i rx j ry pol1 pol2))))))) tmp

/-- The body of the innermost loop of the split real/imag branch. -/
def splitStep {α : Type} (g : Geometry) (matrix : Nat → α)
    (f i j pol1 pol2 : Nat) (tmp : Nat → Complex α) : Nat → Complex α :=
  let matLength := splitMatLength g
  let k := f * (g.NSTATION + 1) * (g.NSTATION / 2) + i * (i + 1) / 2 + j
  let index := (k * g.NPOL + pol1) * g.NPOL + pol2
  setImag (setReal tmp index (matrix index)) index (matrix (index + matLength))

/-- The loop nest of the split real/imag branch, acting on the scratch buffer. -/
def splitLoops {α : Type} (g : Geometry) (matrix : Nat → α) (tmp : Nat → Complex α) :
    Nat → Complex α :=
  forLoop g.NFREQUENCY (fun f =>
    forLoop g.NSTATION (fun i =>
      forLoop (i + 1) (fun j =>
        forLoop g.NPOL (fun pol1 =>
          forLoop g.NPOL (fun pol2 => splitStep g matrix f i j pol1 pol2))))) tmp

/-- `xgpuReorderMatrix(matrix)`: the scalars of the buffer after the call, given
its scalars before the call. `scratch` is the content of the temporary buffer
`tmp` when the loops start: `malloc` leaves it indeterminate, and the
`memset(tmp, '0', matLength)` of the register-tile branch fills only its first
`matLength` bytes. -/
def xgpuReorderMatrix {α : Type} (m : Mode) (g : Geometry) (scratch : Nat → Complex α)
    (matrix : Nat → α) : Nat → α :=
  match m.MATRIX_ORDER with
  | MatrixOrder.REGISTER_TILE_TRIANGULAR_ORDER =>
    copyBack (tileMatLength g) (tileLoops g matrix scratch) matrix
  | MatrixOrder.REAL_IMAG_TRIANGULAR_ORDER =>
    copyBack (splitMatLength g) (splitLoops g matrix scratch) matrix
  | MatrixOrder.TRIANGULAR_ORDER => matrix

/-! ## `xgpuCheckResult` over an ordered field -/

/-- The macro `zabs(z)`, `sqrt(z.real*z.real+z.imag*z.imag)`, in the exact
arithmetic of an ordered field; the square root is a parameter. The macro in
the arithmetic of the code is `zabsA`. -/
def zabs {R : Type} [LinearOrderedField R] (sqrt : R → R) (z : Complex R) : R :=
  sqrt (z.real * z.real + z.imag * z.imag)

/-- The macro `TOL`: `1e-12`, or `1e-5` when `FIXED_POINT` is defined. -/
def TOL {R : Type} [LinearOrderedField R] (m : Mode) : R :=
  if m.FIXED_POINT then 1 / 10 ^ 5 else 1 / 10 ^ 12

/-- The C library function `round`: nearest integer, halfway cases away from zero. -/
def cround {R : Type} [LinearOrderedField R] [FloorRing R] (x : R) : R :=
  if 0 ≤ x then ((⌊x + 1 / 2⌋ : Int) : R) else ((⌈x - 1 / 2⌉ : Int) : R)

/-- Modelled from the spec: the input sample type `ComplexInput` declared in
`xgpu.h` (not among the sources): a complex value whose components are
integers in a small range. -/
abbrev ComplexInput := Complex Int

/-- The variables of `xgpuCheckResult` that its loop updates: the computed
matrix `gpu`, `errorCount`, `maxError`, and the number of `printf` calls made. -/
structure CheckState (R : Type) where
  gpu : Nat → Complex R
  errorCount : Nat
  maxError : R
  printed : Nat

/-- The body of the innermost loop of `xgpuCheckResult`. -/
def checkStep {R : Type} [LinearOrderedField R] [FloorRing R] (m : Mode) (g : Geometry)
    (sqrt : R → R) (cpu : Nat → Complex R) (verbose : Int) (array_h : Option (Nat → ComplexInput))
    (i j pol1 pol2 f : Nat) (s : CheckState R) : CheckState R :=
  let k := f * (g.NSTATION + 1) * (g.NSTATION / 2) + i * (i + 1) / 2 + j
  let index := (k * g.NPOL + pol1) * g.NPOL + pol2
  let gpu :=
    if m.FIXED_POINT = true ∧ m.DP4A = false then
      let gpu1 := setReal s.gpu index (cround (s.gpu index).real)
      setImag gpu1 index (cround (gpu1 index).imag)
    else s.gpu
  let error :=
    if zabs sqrt (cpu index) = 0 then zabs sqrt (gpu index)
    else
      zabs sqrt ⟨(cpu index).real - (gpu index).real, (cpu index).imag - (gpu index).imag⟩
        / zabs sqrt (cpu index)
  let maxError := if error > s.maxError then error else s.maxError
  if error > TOL m then
    let printed :=
      if verbose > 0 then
        if verbose > 1 ∧ array_h.isSome = true then s.printed + 1 + g.NTIME + 1
        else s.printed + 1
      else s.printed
    ⟨gpu, s.errorCount + 1, maxError, printed⟩
  else ⟨gpu, s.errorCount, maxError, s.printed⟩

/-- `xgpuCheckResult(gpu, cpu, verbose, array_h)`: the computed matrix after the
call, the `errorCount` and `maxError` that the summary line reports, and the
number of `printf` calls. -/
def xgpuCheckResult {R : Type} [LinearOrderedField R] [FloorRing R] (m : Mode) (g : Geometry)
    (sqrt : R → R) (gpu cpu : Nat → Complex R) (verbose : Int)
    (array_h : Option (Nat → ComplexInput)) : CheckState R :=
  let s := forLoop g.NSTATION (fun i =>
    forLoop (i + 1) (fun j =>
      forLoop g.NPOL (fun pol1 =>
        forLoop g.NPOL (fun pol2 =>
          forLoop g.NFREQUENCY (fun f =>
            checkStep m g sqrt cpu verbose array_h i j pol1 pol2 f)))))
    (⟨gpu, 0, 0, 1⟩ : CheckState R)
  ⟨s.gpu, s.errorCount, s.maxError, s.printed + 1⟩

/-! ## Predicates used in the statements -/

/-- A buffer transformer leaves offset `x` as it was. -/
def Keeps {β : Type} (T : (Nat → β) → (Nat → β)) (x : Nat) : Prop :=
  ∀ s, T s x = s x

/-- A buffer transformer leaves the value `v` at offset `x`, whatever was there. -/
def Sets {β : Type} (T : (Nat → β) → (Nat → β)) (x : Nat) (v : β) : Prop :=
  ∀ s, T s x = v

/-! ## Concrete inputs used in the examples -/

/-- A geometry with 2 stations, 1 frequency channel and 1 polarization. -/
def geom2 : Geometry := ⟨2, 1, 1, 0, 1, 4⟩

/-- The packed matrix `(1+0i, 2+1i, 3+0i)` of the spec's expansion scenario. -/
def packedScenario : Nat → Complex Int :=
  fun idx => if idx = 0 then ⟨1, 0⟩ else if idx = 1 then ⟨2, 1⟩ else if idx = 2 then ⟨3, 0⟩ else ⟨0, 0⟩

/-- A packed matrix whose elements all are `1+1i`. -/
def packedOnePlusI : Nat → Complex Int := fun _ => ⟨1, 1⟩

/-- A buffer of zeros. -/
def zeroBuffer : Nat → Complex Int := fun _ => ⟨0, 0⟩

/-- The triangular number `n*(n+1)/2`, the slot where row `n` of the
canonical layout starts. -/
def tri (n : Nat) : Nat := n * (n + 1) / 2

/-- A geometry with 3 stations (an odd count), 2 frequency channels and 1 polarization. -/
def geom3 : Geometry := ⟨3, 2, 1, 0, 1, 4⟩

/-- A geometry with 4 stations, 1 frequency channel and 1 polarization. -/
def geom4 : Geometry := ⟨4, 1, 1, 0, 1, 4⟩

/-- The floating-point build with the split real/imag matrix order. -/
def modeSplit : Mode := ⟨false, false, MatrixOrder.REAL_IMAG_TRIANGULAR_ORDER⟩

/-- The floating-point build with the register-tile matrix order. -/
def modeTile : Mode := ⟨false, false, MatrixOrder.REGISTER_TILE_TRIANGULAR_ORDER⟩

/-- A scalar buffer holding the value `s` at offset `s`. -/
def rampBuffer : Nat → Int := fun s => (s : Int)

/-- The offset `tri_index` that the register-tile loop writes at the iteration
`(f,i,rx,j,ry,pol1,pol2)`. -/
def tileDest (g : Geometry) (f i rx j ry pol1 pol2 : Nat) : Nat :=
  ((f * (g.NSTATION + 1) * (g.NSTATION / 2) + (2 * i + rx) * (2 * i + rx + 1) / 2 + 2 * j + ry)
    * g.NPOL + pol1) * g.NPOL + pol2

/-- The offset `reg_index` that the register-tile loop reads at the iteration
`(f,i,rx,j,ry,pol1,pol2)`. -/
def tileSrc (g : Geometry) (f i rx j ry pol1 pol2 : Nat) : Nat :=
  ((f * 4 * (g.NSTATION / 2 + 1) * (g.NSTATION / 4)
      + (2 * ry + rx) * (g.NSTATION / 2 + 1) * (g.NSTATION / 4) + i * (i + 1) / 2 + j)
    * g.NPOL + pol1) * g.NPOL + pol2

/-- The documented tiled index of the station pair `(a,b)`:
`reg_index = (l*NPOL+pol1)*NPOL+pol2` with
`l = f*4*(NSTATION/2+1)*(NSTATION/4) + (2*(b mod 2) + (a mod 2))*(NSTATION/2+1)*(NSTATION/4)
  + (a/2)*(a/2+1)/2 + b/2`. -/
def tiledIndex (g : Geometry) (f a b pol1 pol2 : Nat) : Nat :=
  ((f * 4 * (g.NSTATION / 2 + 1) * (g.NSTATION / 4)
      + (2 * (b % 2) + (a % 2)) * (g.NSTATION / 2 + 1) * (g.NSTATION / 4)
      + (a / 2) * (a / 2 + 1) / 2 + b / 2)
    * g.NPOL + pol1) * g.NPOL + pol2

/-- The iterations `(f,i,rx,j,ry,pol1,pol2)` of the register-tile loop whose
station pair `(2i+rx, 2j+ry)` is in the lower triangle (`2j+ry ≤ 2i+rx`), that
is, all iterations but the upper entry `(rx,ry) = (0,1)` of each diagonal tile. -/
def tileTuples (g : Geometry) : Finset (Nat × Nat × Nat × Nat × Nat × Nat × Nat) :=
  (Finset.range g.NFREQUENCY ×ˢ Finset.range (g.NSTATION / 2) ×ˢ Finset.range 2 ×ˢ
    Finset.range (g.NSTATION / 2) ×ˢ Finset.range 2 ×ˢ Finset.range g.NPOL ×ˢ
    Finset.range g.NPOL).filter
    (fun t => 2 * t.2.2.2.1 + t.2.2.2.2.1 ≤ 2 * t.2.1 + t.2.2.1)

/-- The map `tileDest` on a tuple. -/
def tileDestT (g : Geometry) (t : Nat × Nat × Nat × Nat × Nat × Nat × Nat) : Nat :=
  tileDest g t.1 t.2.1 t.2.2.1 t.2.2.2.1 t.2.2.2.2.1 t.2.2.2.2.2.1 t.2.2.2.2.2.2

/-- The map `tileSrc` on a tuple. -/
def tileSrcT (g : Geometry) (t : Nat × Nat × Nat × Nat × Nat × Nat × Nat) : Nat :=
  tileSrc g t.1 t.2.1 t.2.2.1 t.2.2.2.1 t.2.2.2.2.1 t.2.2.2.2.2.1 t.2.2.2.2.2.2

/-! ## Specification-side definitions for the validator -/

/-- The mode-dependent pre-processing of a computed element: both components
are rounded when `FIXED_POINT` is defined and `DP4A` is not; otherwise the
element is used as it is. -/
def preRound {R : Type} [LinearOrderedField R] [FloorRing R] (m : Mode) (z : Complex R) :
    Complex R :=
  if m.FIXED_POINT = true ∧ m.DP4A = false then ⟨cround z.real, cround z.imag⟩ else z

/-- The per-element error as the spec words it: the magnitude of the computed
element when the magnitude of the reference element is exactly zero, and
`|computed - reference| / |reference|` otherwise. -/
def elemError {R : Type} [LinearOrderedField R] (sqrt : R → R) (computed reference : Complex R) :
    R :=
  if zabs sqrt reference = 0 then zabs sqrt computed
  else
    zabs sqrt ⟨computed.real - reference.real, computed.imag - reference.imag⟩
      / zabs sqrt reference

/-- The canonical index tuples the validator visits, as `(i, j, pol1, pol2, f)`
with `j ≤ i`. -/
def checkTuples (g : Geometry) : Finset (Nat × Nat × Nat × Nat × Nat) :=
  (Finset.range g.NSTATION ×ˢ Finset.range g.NSTATION ×ˢ Finset.range g.NPOL ×ˢ
    Finset.range g.NPOL ×ˢ Finset.range g.NFREQUENCY).filter (fun t => t.2.1 ≤ t.1)

/-- The canonical element offset of a tuple `(i, j, pol1, pol2, f)`. -/
def checkIndex (g : Geometry) (t : Nat × Nat × Nat × Nat × Nat) : Nat :=
  triIndex g t.2.2.2.2 t.1 t.2.1 t.2.2.1 t.2.2.2.1

/-- The error the validator attributes to a tuple: `elemError` of the
pre-processed computed element against the reference element. -/
def tupleError {R : Type} [LinearOrderedField R] [FloorRing R] (m : Mode) (g : Geometry)
    (sqrt : R → R) (gpu cpu : Nat → Complex R) (t : Nat × Nat × Nat × Nat × Nat) : R :=
  elemError sqrt (preRound m (gpu (checkIndex g t))) (cpu (checkIndex g t))

/-- Loop invariant of the validator: every computed element is the original
one or its pre-processed form. -/
def CheckInv {R : Type} [LinearOrderedField R] [FloorRing R] (m : Mode)
    (gpu0 : Nat → Complex R) (s : CheckState R) : Prop :=
  ∀ x, s.gpu x = gpu0 x ∨ s.gpu x = preRound m (gpu0 x)

/-- Summary of a block of validator iterations: it keeps the invariant, adds `c`
to `errorCount`, and raises `maxError` to the largest error among the tuples
of the block `B` (if that exceeds the previous `maxError`). -/
def CheckSpec {R : Type} [LinearOrderedField R] {T : Type} (Inv : CheckState R → Prop)
    (e : T → R) (c : Nat) (B : T → Prop) (F : CheckState R → CheckState R) : Prop :=
  ∀ s, Inv s →
    Inv (F s) ∧ (F s).errorCount = s.errorCount + c ∧ s.maxError ≤ (F s).maxError ∧
      (∀ t, B t → e t ≤ (F s).maxError) ∧
      ((F s).maxError = s.maxError ∨ ∃ t, B t ∧ (F s).maxError = e t)

/-- The computed buffer after the two rounding statements of an iteration of
`xgpuCheckResult` at offset `index` (unchanged when they are compiled out). -/
def checkGpu {R : Type} [LinearOrderedField R] [FloorRing R] (m : Mode) (index : Nat)
    (gpu : Nat → Complex R) : Nat → Complex R :=
  if m.FIXED_POINT = true ∧ m.DP4A = false then
    let gpu1 := setReal gpu index (cround (gpu index).real)
    setImag gpu1 index (cround (gpu1 index).imag)
  else gpu

/-- The part of an iteration of `xgpuCheckResult` that follows the rounding
statements, with the error of the element already computed. -/
def checkTail {R : Type} [LinearOrderedField R] (m : Mode) (g : Geometry) (verbose : Int)
    (array_h : Option (Nat → ComplexInput)) (gpu : Nat → Complex R) (error : R)
    (s : CheckState R) : CheckState R :=
  let maxError := if error > s.maxError then error else s.maxError
  if error > TOL m then
    let printed :=
      if verbose > 0 then
        if verbose > 1 ∧ array_h.isSome = true then s.printed + 1 + g.NTIME + 1
        else s.printed + 1
      else s.printed
    ⟨gpu, s.errorCount + 1, maxError, printed⟩
  else ⟨gpu, s.errorCount, maxError, s.printed⟩

/-- The floating-point build (`FIXED_POINT` and `DP4A` undefined). -/
def modeFloat : Mode := ⟨false, false, MatrixOrder.TRIANGULAR_ORDER⟩

/-- The fixed-point build without extended accumulation (`FIXED_POINT` defined,
`DP4A` undefined). -/
def modeFixed : Mode := ⟨true, false, MatrixOrder.TRIANGULAR_ORDER⟩

/-! ## `xgpuSwizzleInput` -/

/-- The output offset of the byte `(t,f,s,p,c)`:
`((((t/4*NFREQUENCY+f)*NSTATION+s)*NPOL+p)*2+c)*4+t%4`. -/
def swizzleDest (g : Geometry) (t f s p c : Nat) : Nat :=
  ((((t / 4 * g.NFREQUENCY + f) * g.NSTATION + s) * g.NPOL + p) * 2 + c) * 4 + t % 4

/-- The input offset of the byte `(t,f,s,p,c)`:
`(((t*NFREQUENCY+f)*NSTATION+s)*NPOL+p)*2 + c`. -/
def swizzleSrc (g : Geometry) (t f s p c : Nat) : Nat :=
  (((t * g.NFREQUENCY + f) * g.NSTATION + s) * g.NPOL + p) * 2 + c

/-- The body of the innermost loop of `xgpuSwizzleInput`, on the bytes `o` of
the output buffer and the bytes `i` of the input buffer. -/
def swizzleStep {α : Type} (g : Geometry) (i : Nat → α) (t f s p c : Nat) (o : Nat → α) :
    Nat → α :=
  write o (((((t / 4 * g.NFREQUENCY + f) * g.NSTATION + s) * g.NPOL + p) * 2 + c) * 4 + t % 4)
    (i ((((t * g.NFREQUENCY + f) * g.NSTATION + s) * g.NPOL + p) * 2 + c))

/-- `xgpuSwizzleInput(out, in)`: the bytes of `out` after the call, given its
bytes before the call and the bytes of `in`. -/
def xgpuSwizzleInput {α : Type} (g : Geometry) (out inp : Nat → α) : Nat → α :=
  forLoop g.NTIME_PIPE (fun t =>
    forLoop g.NFREQUENCY (fun f =>
      forLoop g.NSTATION (fun s =>
        forLoop g.NPOL (fun p =>
          forLoop 2 (fun c => swizzleStep g inp t f s p c))))) out

/-- The tuples `(t,f,s,p,c)` that `xgpuSwizzleInput` visits. -/
def swizzleTuples (g : Geometry) : Finset (Nat × Nat × Nat × Nat × Nat) :=
  Finset.range g.NTIME_PIPE ×ˢ Finset.range g.NFREQUENCY ×ˢ Finset.range g.NSTATION ×ˢ
    Finset.range g.NPOL ×ˢ Finset.range 2

/-- A geometry with 2 stations, 1 frequency channel, 1 polarization and 8 time
samples per pipeline block. -/
def geomPipe8 : Geometry := ⟨2, 1, 1, 0, 8, 8⟩

/-- A geometry with 2 stations, 1 frequency channel, 1 polarization and 1 pulsar bin
beyond the first. -/
def geomPulsar : Geometry := ⟨2, 1, 1, 1, 1, 4⟩

/-! ## `xgpuRandomComplex` -/

/-- The functions and the constant of the C math library that
`xgpuRandomComplex` calls (`sqrt`, `log`, `cos`, `sin`, `M_PI`); they are
parameters of the model. -/
structure MathLib (R : Type) where
  sqrt : R → R
  log : R → R
  cos : R → R
  sin : R → R
  M_PI : R

/-- The conversion `(int)a` of a `double`: truncation toward zero. -/
def ctrunc {R : Type} [LinearOrderedField R] [FloorRing R] (x : R) : Int :=
  if 0 ≤ x then ⌊x⌋ else ⌈x⌉

/-- The conversion of an `int` to `signed char` (the component type of
`ComplexInput` in fixed-point mode, as the comment above `xgpuRandomComplex`
says): the value modulo 256, in `[-128, 127]`. -/
def toSignedChar (n : Int) : Int :=
  (n + 128) % 256 - 128

/-- Lines 26-34 of `xgpuRandomComplex`: two uniform variates from the draws
`r1`, `r2` of `rand()`, the replacement of a zero variate, and the Box-Muller
transform; the result is the pair `(a, b)`. -/
def boxMuller {R : Type} [LinearOrderedField R] (lib : MathLib R) (RAND_MAX : Nat)
    (r1 r2 : Nat) : R × R :=
  let stddev : R := 5 / 2
  let u1 : R := (r1 : R) / (RAND_MAX : R)
  let u2 : R := (r2 : R) / (RAND_MAX : R)
  let u1 := if u1 = 0 then (1 / 2) / (RAND_MAX : R) else u1
  let u2 := if u2 = 0 then (1 / 2) / (RAND_MAX : R) else u2
  let r := stddev * lib.sqrt (-2 * lib.log u1)
  let theta := 2 * lib.M_PI * u2
  (r * lib.cos theta, r * lib.sin theta)

/-- Lines 36-56 of `xgpuRandomComplex`: quantize, saturate, and the value of the
two components stored (`a` and `b` themselves, or `((int)a) << 4` and
`((int)b) << 4` converted to `signed char` in fixed-point mode; the shift is
a multiplication by 16). -/
def quantizeStore {R : Type} [LinearOrderedField R] [FloorRing R] (m : Mode) (a b : R) :
    Complex R :=
  let a := cround a
  let b := cround b
  let a := if a > 7 then 7 else a
  let a := if a < -7 then -7 else a
  let b := if b > 7 then 7 else b
  let b := if b < -7 then -7 else b
  if m.FIXED_POINT = true then
    ⟨((toSignedChar (ctrunc a * 16) : Int) : R), ((toSignedChar (ctrunc b * 16) : Int) : R)⟩
  else ⟨a, b⟩

/-- The variables of the first loop of `xgpuRandomComplex`: the destination
buffer and the number of calls of `rand()` made so far. -/
structure RandState (R : Type) where
  random_num : Nat → Complex R
  calls : Nat

/-- The body of the first loop of `xgpuRandomComplex`; `rand n` is the result of
the call number `n` of `rand()`. -/
def randomStep {R : Type} [LinearOrderedField R] [FloorRing R] (m : Mode) (lib : MathLib R)
    (RAND_MAX : Nat) (rand : Nat → Nat) (i : Nat) (s : RandState R) : RandState R :=
  let ab := boxMuller lib RAND_MAX (rand s.calls) (rand (s.calls + 1))
  let z := quantizeStore m ab.1 ab.2
  ⟨setImag (setReal s.random_num i z.real) i z.imag, s.calls + 2⟩

/-- The call `memcpy(buf + dst, buf + src, sizeof(ComplexInput) * n)` on the
elements of `buf`. -/
def memcpyElems {β : Type} (dst src n : Nat) (buf : Nat → β) : Nat → β :=
  fun x => if dst ≤ x ∧ x < dst + n then buf (src + (x - dst)) else buf x

/-- `xgpuRandomComplex(random_num, length)`: the buffer after the call.
`BENCHMARK` says whether `BENCHMARK` or `POWER_LOOP` is defined. -/
def xgpuRandomComplex {R : Type} [LinearOrderedField R] [FloorRing R] (m : Mode)
    (BENCHMARK : Bool) (g : Geometry) (lib : MathLib R) (RAND_MAX : Nat) (rand : Nat → Nat)
    (random_num : Nat → Complex R) (length : Nat) : Nat → Complex R :=
  let stride := if BENCHMARK = true then g.NFREQUENCY * g.NTIME else 1
  let mini_length := length / stride
  let s := forLoop mini_length (randomStep m lib RAND_MAX rand) ⟨random_num, 0⟩
  forLoop (stride - 1) (fun j => memcpyElems ((j + 1) * mini_length) 0 mini_length) s.random_num

/-- The sample number `i` that the generator produces: the draws `2i` and `2i+1`
of `rand()`, transformed, quantized and saturated. -/
def sampleAt {R : Type} [LinearOrderedField R] [FloorRing R] (m : Mode) (lib : MathLib R)
    (RAND_MAX : Nat) (rand : Nat → Nat) (i : Nat) : Complex R :=
  quantizeStore m (boxMuller lib RAND_MAX (rand (2 * i)) (rand (2 * i + 1))).1
    (boxMuller lib RAND_MAX (rand (2 * i)) (rand (2 * i + 1))).2

/-- The value `clamp(x, -7, 7)`. -/
def clamp7 {R : Type} [LinearOrderedField R] (x : R) : R :=
  max (-7) (min 7 x)

/-- A geometry with 2 frequency channels and 2 time samples (`NFREQUENCY*NTIME = 4`). -/
def geomStride4 : Geometry := ⟨2, 2, 1, 0, 2, 4⟩

/-- The value of `stride` in `xgpuRandomComplex`: `NFREQUENCY*NTIME` when
`BENCHMARK` or `POWER_LOOP` is defined, `1` otherwise. -/
def randomStride (BENCHMARK : Bool) (g : Geometry) : Nat :=
  if BENCHMARK = true then g.NFREQUENCY * g.NTIME else 1

/-- The two summary lines of `xgpuCheckResult`. -/
inductive Summary where
  | failed
  | successful
deriving DecidableEq, Repr

/-- The branch `if (errorCount) ... else ...` that ends `xgpuCheckResult`:
"Outer product summation failed with N deviations" when `errorCount` is not
zero, "Outer product summation successful" otherwise. -/
def checkSummary {R : Type} (s : CheckState R) : Summary :=
  if s.errorCount ≠ 0 then Summary.failed else Summary.successful

/-- The offsets `index` that the loop of `xgpuCheckResult` visits. -/
def Visited (g : Geometry) (x : Nat) : Prop :=
  ∃ t, t ∈ checkTuples g ∧ checkIndex g t = x

/-! ## `xgpuCheckResult` on one memory

The same function with both matrices in one memory of `Complex` elements:
`gpu` and `cpu` are the offsets at which the two buffers start, as the two
pointer arguments of the C function. This form states what the function
writes and what it leaves alone. -/

/-- The variables of `xgpuCheckResult` that its loop updates, with the memory
holding both matrices. -/
structure HeapCheckState (R : Type) where
  mem : Nat → Complex R
  errorCount : Nat
  maxError : R
  printed : Nat

/-- The body of the innermost loop of `xgpuCheckResult`, on one memory. -/
def checkStepHeap {R : Type} [LinearOrderedField R] [FloorRing R] (m : Mode) (g : Geometry)
    (sqrt : R → R) (gpu cpu : Nat) (verbose : Int) (array_h : Option (Nat → ComplexInput))
    (i j pol1 pol2 f : Nat) (s : HeapCheckState R) : HeapCheckState R :=
  let k := f * (g.NSTATION + 1) * (g.NSTATION / 2) + i * (i + 1) / 2 + j
  let index := (k * g.NPOL + pol1) * g.NPOL + pol2
  let mem :=
    if m.FIXED_POINT = true ∧ m.DP4A = false then
      let mem1 := setReal s.mem (gpu + index) (cround (s.mem (gpu + index)).real)
      setImag mem1 (gpu + index) (cround (mem1 (gpu + index)).imag)
    else s.mem
  let error :=
    if zabs sqrt (mem (cpu + index)) = 0 then zabs sqrt (mem (gpu + index))
    else
      zabs sqrt ⟨(mem (cpu + index)).real - (mem (gpu + index)).real,
          (mem (cpu + index)).imag - (mem (gpu + index)).imag⟩
        / zabs sqrt (mem (cpu + index))
  let maxError := if error > s.maxError then error else s.maxError
  if error > TOL m then
    let printed :=
      if verbose > 0 then
        if verbose > 1 ∧ array_h.isSome = true then s.printed + 1 + g.NTIME + 1
        else s.printed + 1
      else s.printed
    ⟨mem, s.errorCount + 1, maxError, printed⟩
  else ⟨mem, s.errorCount, maxError, s.printed⟩

/-- `xgpuCheckResult(gpu, cpu, verbose, array_h)` on one memory: the memory
after the call, `errorCount`, `maxError` and the number of `printf` calls. -/
def xgpuCheckResultHeap {R : Type} [LinearOrderedField R] [FloorRing R] (m : Mode)
    (g : Geometry) (sqrt : R → R) (gpu cpu : Nat) (mem : Nat → Complex R) (verbose : Int)
    (array_h : Option (Nat → ComplexInput)) : HeapCheckState R :=
  let s := forLoop g.NSTATION (fun i =>
    forLoop (i + 1) (fun j =>
      forLoop g.NPOL (fun pol1 =>
        forLoop g.NPOL (fun pol2 =>
          forLoop g.NFREQUENCY (fun f =>
            checkStepHeap m g sqrt gpu cpu verbose array_h i j pol1 pol2 f)))))
    (⟨mem, 0, 0, 1⟩ : HeapCheckState R)
  ⟨s.mem, s.errorCount, s.maxError, s.printed + 1⟩

/-- The variables of the separate-buffers form that correspond to a state of the
one-memory form: the computed buffer is the memory read from offset `gpu` on. -/
def HeapCheckState.toCheck {R : Type} (s : HeapCheckState R) (gpu : Nat) : CheckState R :=
  ⟨fun x => s.mem (gpu + x), s.errorCount, s.maxError, s.printed⟩

/-! ## `xgpuCheckResult` in the arithmetic of the code

The validator once more, with every arithmetic operation of the source a
parameter: `C` is the type of the matrix components (`float`, or `int` under
`DP4A`) and `D` the type `double` of `error`, `maxError` and `TOL`. Nothing is
assumed of the operations, so products that round, underflow or wrap are
covered; statements about this form hold of the code whatever its arithmetic
does. -/

/-- The arithmetic that `xgpuCheckResult` uses: the product, sum and difference
of two components, the C function `round` on a component, `sqrt` of a component
expression (with its conversion to `double`), the quotient of two `double`s,
the comparisons `>` and `==` on `double`s, and the `double` that a numeric
literal (`0`, `0.0`, `1e-12`, `1e-5`) denotes. -/
structure CheckArith (C D : Type) where
  mul : C → C → C
  add : C → C → C
  sub : C → C → C
  round : C → C
  sqrt : C → D
  div : D → D → D
  gt : D → D → Bool
  eq : D → D → Bool
  literal : ℚ → D

/-- The macro `zabs(z)`, `sqrt(z.real*z.real+z.imag*z.imag)`, in the arithmetic
of the code. -/
def zabsA {C D : Type} (A : CheckArith C D) (z : Complex C) : D :=
  A.sqrt (A.add (A.mul z.real z.real) (A.mul z.imag z.imag))

/-- The macro `TOL`: the literal `1e-12`, or `1e-5` when `FIXED_POINT` is defined. -/
def TOLA {C D : Type} (A : CheckArith C D) (m : Mode) : D :=
  if m.FIXED_POINT = true then A.literal (1 / 10 ^ 5) else A.literal (1 / 10 ^ 12)

/-- The variables of `xgpuCheckResult` that its loop updates. -/
structure CheckStateA (C D : Type) where
  gpu : Nat → Complex C
  errorCount : Nat
  maxError : D
  printed : Nat

/-- The body of the innermost loop of `xgpuCheckResult`, in the arithmetic of
the code. -/
def checkStepA {C D : Type} (A : CheckArith C D) (m : Mode) (g : Geometry)
    (cpu : Nat → Complex C) (verbose : Int) (array_h : Option (Nat → ComplexInput))
    (i j pol1 pol2 f : Nat) (s : CheckStateA C D) : CheckStateA C D :=
  let k := f * (g.NSTATION + 1) * (g.NSTATION / 2) + i * (i + 1) / 2 + j
  let index := (k * g.NPOL + pol1) * g.NPOL + pol2
  let gpu :=
    if m.FIXED_POINT = true ∧ m.DP4A = false then
      let gpu1 := setReal s.gpu index (A.round (s.gpu index).real)
      setImag gpu1 index (A.round (gpu1 index).imag)
    else s.gpu
  let error :=
    if A.eq (zabsA A (cpu index)) (A.literal 0) = true then zabsA A (gpu index)
    else
      A.div
        (zabsA A ⟨A.sub (cpu index).real (gpu index).real,
          A.sub (cpu index).imag (gpu index).imag⟩)
        (zabsA A (cpu index))
  let maxError := if A.gt error s.maxError = true then error else s.maxError
  if A.gt error (TOLA A m) = true then
    let printed :=
      if verbose > 0 then
        if verbose > 1 ∧ array_h.isSome = true then s.printed + 1 + g.NTIME + 1
        else s.printed + 1
      else s.printed
    ⟨gpu, s.errorCount + 1, maxError, printed⟩
  else ⟨gpu, s.errorCount, maxError, s.printed⟩

/-- `xgpuCheckResult(gpu, cpu, verbose, array_h)` in the arithmetic of the code:
the computed matrix after the call, the `errorCount` and `maxError` that the
summary line reports, and the number of `printf` calls. -/
def xgpuCheckResultA {C D : Type} (A : CheckArith C D) (m : Mode) (g : Geometry)
    (gpu cpu : Nat → Complex C) (verbose : Int) (array_h : Option (Nat → ComplexInput)) :
    CheckStateA C D :=
  let s := forLoop g.NSTATION (fun i =>
    forLoop (i + 1) (fun j =>
      forLoop g.NPOL (fun pol1 =>
        forLoop g.NPOL (fun pol2 =>
          forLoop g.NFREQUENCY (fun f =>
            checkStepA A m g cpu verbose array_h i j pol1 pol2 f)))))
    (⟨gpu, 0, A.literal 0, 1⟩ : CheckStateA C D)
  ⟨s.gpu, s.errorCount, s.maxError, s.printed + 1⟩

/-- The exact arithmetic of an ordered field with a square-root function, as an
instance of `CheckArith`. -/
def exactArith {R : Type} [LinearOrderedField R] [FloorRing R] (sqrt : R → R) :
    CheckArith R R where
  mul := fun x y => x * y
  add := fun x y => x + y
  sub := fun x y => x - y
  round := cround
  sqrt := sqrt
  div := fun x y => x / y
  gt := fun x y => decide (x > y)
  eq := fun x y => decide (x = y)
  literal := fun q => (q : R)

/-- The element with both components rounded by the `round` of the arithmetic. -/
def roundComplexA {C D : Type} (A : CheckArith C D) (z : Complex C) : Complex C :=
  ⟨A.round z.real, A.round z.imag⟩

/-- The mode-dependent pre-processing of a computed element, in the arithmetic
of the code: both components rounded when `FIXED_POINT` is defined and `DP4A` is
not, the element as it is otherwise. -/
def preRoundA {C D : Type} (A : CheckArith C D) (m : Mode) (z : Complex C) : Complex C :=
  if m.FIXED_POINT = true ∧ m.DP4A = false then roundComplexA A z else z

/-- The per-element error as the code computes it: `zabs` of the computed
element when `zabs` of the reference element compares equal to `0`, and
`zabs(reference - computed) / zabs(reference)` otherwise. -/
def elemErrorA {C D : Type} (A : CheckArith C D) (computed reference : Complex C) : D :=
  if A.eq (zabsA A reference) (A.literal 0) = true then zabsA A computed
  else
    A.div
      (zabsA A ⟨A.sub reference.real computed.real, A.sub reference.imag computed.imag⟩)
      (zabsA A reference)

/-- The error the code computes for a tuple `(i, j, pol1, pol2, f)`: `elemErrorA`
of the pre-processed computed element against the reference element. -/
def tupleErrorA {C D : Type} (A : CheckArith C D) (m : Mode) (g : Geometry)
    (gpu cpu : Nat → Complex C) (t : Nat × Nat × Nat × Nat × Nat) : D :=
  elemErrorA A (preRoundA A m (gpu (checkIndex g t))) (cpu (checkIndex g t))

/-- The scalar variables of the validator loop: `errorCount`, `maxError` and the
number of `printf` calls. -/
structure Tally (D : Type) where
  errorCount : Nat
  maxError : D
  printed : Nat

/-- The scalar variables of a state. -/
def CheckStateA.tally {C D : Type} (s : CheckStateA C D) : Tally D :=
  ⟨s.errorCount, s.maxError, s.printed⟩

/-- The update of the scalar variables by an iteration whose element has the
error `error`. -/
def tallyStep {C D : Type} (A : CheckArith C D) (m : Mode) (g : Geometry) (verbose : Int)
    (array_h : Option (Nat → ComplexInput)) (error : D) (s : Tally D) : Tally D :=
  let maxError := if A.gt error s.maxError = true then error else s.maxError
  if A.gt error (TOLA A m) = true then
    let printed :=
      if verbose > 0 then
        if verbose > 1 ∧ array_h.isSome = true then s.printed + 1 + g.NTIME + 1
        else s.printed + 1
      else s.printed
    ⟨s.errorCount + 1, maxError, printed⟩
  else ⟨s.errorCount, maxError, s.printed⟩

/-- The scalar variables after the loop nest of the validator, given the error
of each tuple. -/
def tallyLoops {C D : Type} (A : CheckArith C D) (m : Mode) (g : Geometry) (verbose : Int)
    (array_h : Option (Nat → ComplexInput)) (err : Nat × Nat × Nat × Nat × Nat → D)
    (s : Tally D) : Tally D :=
  forLoop g.NSTATION (fun i =>
    forLoop (i + 1) (fun j =>
      forLoop g.NPOL (fun pol1 =>
        forLoop g.NPOL (fun pol2 =>
          forLoop g.NFREQUENCY (fun f =>
            tallyStep A m g verbose array_h (err (i, j, pol1, pol2, f))))))) s

/-- The computed buffer after the two rounding statements of an iteration at
offset `index`, in the arithmetic of the code. -/
def checkGpuA {C D : Type} (A : CheckArith C D) (m : Mode) (index : Nat)
    (gpu : Nat → Complex C) : Nat → Complex C :=
  if m.FIXED_POINT = true ∧ m.DP4A = false then
    let gpu1 := setReal gpu index (A.round (gpu index).real)
    setImag gpu1 index (A.round (gpu1 index).imag)
  else gpu

/-- Summary of a block of validator iterations that visits the offsets `B`, on
a state whose elements at `B` are still the original ones: the scalar
variables are updated by `T`, the offsets in `B` end up pre-processed, and the
other offsets are not written. -/
def BlockSpecA {C D : Type} (A : CheckArith C D) (m : Mode) (gpu0 : Nat → Complex C)
    (B : Nat → Prop) (T : Tally D → Tally D) (F : CheckStateA C D → CheckStateA C D) : Prop :=
  ∀ s, (∀ x, B x → s.gpu x = gpu0 x) →
    (F s).tally = T s.tally ∧ (∀ x, B x → (F s).gpu x = preRoundA A m (gpu0 x)) ∧
      (∀ x, ¬ B x → (F s).gpu x = s.gpu x)

/-- The comparison `>` of the arithmetic is a strict partial order: no value is
greater than itself, and `x > y` with `y > z` gives `x > z`. The comparison `>`
of C on `double`s is one (a comparison with a NaN is false). -/
def StrictGt {C D : Type} (A : CheckArith C D) : Prop :=
  (∀ x, A.gt x x = false) ∧
    (∀ x y z, A.gt x y = true → A.gt y z = true → A.gt x z = true)

/-- Summary of a block of validator iterations on the scalar variables, for the
tuples `B` with the errors `e`: `errorCount` grows by `c`; `maxError` is left as
it was or becomes the error of a tuple of the block; and, when `>` is a strict
partial order, `maxError` is left or raised, and no error of the block is
greater than it afterwards. -/
def TallySpec {C D T : Type} (A : CheckArith C D) (e : T → D) (c : Nat) (B : T → Prop)
    (F : Tally D → Tally D) : Prop :=
  ∀ s, (F s).errorCount = s.errorCount + c ∧
    ((F s).maxError = s.maxError ∨ ∃ t, B t ∧ (F s).maxError = e t) ∧
    (StrictGt A →
      ((F s).maxError = s.maxError ∨ A.gt (F s).maxError s.maxError = true) ∧
        ∀ t, B t → A.gt (e t) (F s).maxError = false)

/-- The value of a 32-bit two's-complement `int` expression: the mathematical
value reduced modulo `2^32` into `[-2^31, 2^31)`. -/
def wrap32 (n : Int) : Int := (n + 2 ^ 31) % 2 ^ 32 - 2 ^ 31

/-- An arithmetic for the `DP4A` build, whose components are 32-bit `int`s:
products, sums and differences of components are the two's-complement results,
wrapped modulo `2^32` (an overflowing signed operation is undefined behaviour in
C; the wrapped value is what the machine instruction returns); `round` is not
compiled in; `sqrt`, the quotient and the comparisons are taken exactly on the
converted value. -/
def intArith {R : Type} [LinearOrderedField R] (sqrt : R → R) : CheckArith Int R where
  mul := fun x y => wrap32 (x * y)
  add := fun x y => wrap32 (x + y)
  sub := fun x y => wrap32 (x - y)
  round := fun x => x
  sqrt := fun x => sqrt (x : R)
  div := fun x y => x / y
  gt := fun x y => decide (x > y)
  eq := fun x y => decide (x = y)
  literal := fun q => (q : R)

/-- The `DP4A` build (`FIXED_POINT` and `DP4A` defined). -/
def modeDP4A : Mode := ⟨true, true, MatrixOrder.TRIANGULAR_ORDER⟩

/-! ## Loop reasoning -/

theorem keeps_forLoop {β : Type} (n : Nat) (body : Nat → (Nat → β) → (Nat → β)) (x : Nat)
    (h : ∀ i, i < n → Keeps (body i) x) : Keeps (forLoop n body) x := by
  induction n with
  | zero => intro s; rfl
  | succ n ih =>
    intro s
    show body n (forLoop n body s) x = s x
    rw [h n (Nat.lt_succ_self n), ih (fun i hi => h i (Nat.lt_succ_of_lt hi))]

theorem sets_forLoop {β : Type} (n : Nat) (body : Nat → (Nat → β) → (Nat → β)) (x : Nat)
    (v : β) (t : Nat) (ht : t < n) (hset : Sets (body t) x v)
    (hkeep : ∀ i, t < i → i < n → Keeps (body i) x) : Sets (forLoop n body) x v := by
  induction n with
  | zero => exact absurd ht (Nat.not_lt_zero t)
  | succ n ih =>
    intro s
    show body n (forLoop n body s) x = v
    rcases Nat.lt_succ_iff_lt_or_eq.mp ht with hlt | heq
    · rw [hkeep n hlt (Nat.lt_succ_self n)]
      exact ih hlt (fun i h1 h2 => hkeep i h1 (Nat.lt_succ_of_lt h2)) s
    · subst heq
      exact hset _

/-! ## Index arithmetic -/

theorem radix_inj {n a b c d : Nat} (hb : b < n) (hd : d < n) (h : a * n + b = c * n + d) :
    a = c ∧ b = d := by
  have hn : 0 < n := Nat.lt_of_le_of_lt (Nat.zero_le b) hb
  have h1 : (n * a + b) / n = (n * c + d) / n := by rw [Nat.mul_comm n a, Nat.mul_comm n c, h]
  rw [Nat.mul_add_div hn, Nat.mul_add_div hn, Nat.div_eq_of_lt hb, Nat.div_eq_of_lt hd] at h1
  have h2 : a = c := by omega
  subst h2
  exact ⟨rfl, by omega⟩

theorem denseIndex_inj (g : Geometry) {f i j a b f2 i2 j2 a2 b2 : Nat}
    (hi : i < g.NSTATION) (hj : j < g.NSTATION) (ha : a < g.NPOL) (hb : b < g.NPOL)
    (hi2 : i2 < g.NSTATION) (hj2 : j2 < g.NSTATION) (ha2 : a2 < g.NPOL) (hb2 : b2 < g.NPOL)
    (h : denseIndex g f i j a b = denseIndex g f2 i2 j2 a2 b2) :
    f = f2 ∧ i = i2 ∧ j = j2 ∧ a = a2 ∧ b = b2 := by
  unfold denseIndex at h
  obtain ⟨h1, e1⟩ := radix_inj hb hb2 h
  obtain ⟨h2, e2⟩ := radix_inj ha ha2 h1
  obtain ⟨h3, e3⟩ := radix_inj hj hj2 h2
  obtain ⟨e5, e4⟩ := radix_inj hi hi2 h3
  exact ⟨e5, e4, e3, e2, e1⟩

/-! ## `xgpuExtractMatrix`: the value left at each dense offset -/

theorem extractStep_keeps {α : Type} [Neg α] (g : Geometry) (packed : Nat → Complex α)
    (f i j pol1 pol2 x : Nat) (h1 : x ≠ denseIndex g f i j pol1 pol2)
    (h2 : x ≠ denseIndex g f j i pol2 pol1) : Keeps (extractStep g packed f i j pol1 pol2) x := by
  intro s
  unfold denseIndex at h1 h2
  simp [extractStep, setReal, setImag, h1, h2]

theorem extractStep_sets_conj {α : Type} [Neg α] (g : Geometry) (packed : Nat → Complex α)
    (f i j pol1 pol2 : Nat) :
    Sets (extractStep g packed f i j pol1 pol2) (denseIndex g f j i pol2 pol1)
      (packed (triIndex g f i j pol1 pol2)).conj := by
  intro s
  simp [extractStep, setReal, setImag, denseIndex, triIndex, baselineIndex, Complex.conj]

theorem extractStep_sets_same {α : Type} [Neg α] (g : Geometry) (packed : Nat → Complex α)
    (f i j pol1 pol2 : Nat)
    (h : denseIndex g f i j pol1 pol2 ≠ denseIndex g f j i pol2 pol1) :
    Sets (extractStep g packed f i j pol1 pol2) (denseIndex g f i j pol1 pol2)
      (packed (triIndex g f i j pol1 pol2)) := by
  intro s
  unfold denseIndex at h
  simp [extractStep, setReal, setImag, denseIndex, triIndex, baselineIndex, h]

/-- Last-writer rule for a loop nest of the shape
`for f < F, for i < N, for j ≤ i, for a < P, for b < P`: the value at offset `x`
after the nest is the one set by an iteration that no later iteration
overwrites. -/
theorem nest5_last {β : Type} (F N P : Nat)
    (step : Nat → Nat → Nat → Nat → Nat → (Nat → β) → (Nat → β))
    (x : Nat) (v : β) (f i j a b : Nat)
    (hf : f < F) (hi : i < N) (hj : j ≤ i) (ha : a < P) (hb : b < P)
    (hset : Sets (step f i j a b) x v)
    (hlater : ∀ f2 i2 j2 a2 b2, f2 < F → i2 < N → j2 ≤ i2 → a2 < P → b2 < P →
      (f < f2 ∨ (f = f2 ∧ (i < i2 ∨ (i = i2 ∧ (j < j2 ∨ (j = j2 ∧ (a < a2 ∨ (a = a2 ∧ b < b2)))))))) →
      Keeps (step f2 i2 j2 a2 b2) x) :
    Sets (forLoop F (fun f => forLoop N (fun i => forLoop (i + 1) (fun j =>
      forLoop P (fun a => forLoop P (fun b => step f i j a b)))))) x v := by
  refine sets_forLoop _ _ x v f hf ?_ ?_
  · refine sets_forLoop _ _ x v i hi ?_ ?_
    · refine sets_forLoop _ _ x v j (Nat.lt_succ_of_le hj) ?_ ?_
      · refine sets_forLoop _ _ x v a ha ?_ ?_
        · refine sets_forLoop _ _ x v b hb hset ?_
          intro b2 h1 h2
          exact hlater f i j a b2 hf hi hj ha h2 (by simp [h1])
        · intro a2 h1 h2
          refine keeps_forLoop _ _ x (fun b2 hb2 => ?_)
          exact hlater f i j a2 b2 hf hi hj h2 hb2 (by simp [h1])
      · intro j2 h1 h2
        refine keeps_forLoop _ _ x (fun a2 ha2 => keeps_forLoop _ _ x (fun b2 hb2 => ?_))
        exact hlater f i j2 a2 b2 hf hi (Nat.le_of_lt_succ h2) ha2 hb2 (by simp [h1])
    · intro i2 h1 h2
      refine keeps_forLoop _ _ x (fun j2 hj2 =>
        keeps_forLoop _ _ x (fun a2 ha2 => keeps_forLoop _ _ x (fun b2 hb2 => ?_)))
      exact hlater f i2 j2 a2 b2 hf h2 (Nat.le_of_lt_succ hj2) ha2 hb2 (by simp [h1])
  · intro f2 h1 h2
    refine keeps_forLoop _ _ x (fun i2 hi2 => keeps_forLoop _ _ x (fun j2 hj2 =>
        keeps_forLoop _ _ x (fun a2 ha2 => keeps_forLoop _ _ x (fun b2 hb2 => ?_))))
    exact hlater f2 i2 j2 a2 b2 h2 hi2 (Nat.le_of_lt_succ hj2) ha2 hb2 (by simp [h1])

/-- Last-writer rule for the loop nest of `xgpuExtractMatrix`. -/
theorem extract_last {α : Type} [Neg α] (g : Geometry) (packed : Nat → Complex α)
    (x : Nat) (v : Complex α) (f i j a b : Nat)
    (hf : f < g.NFREQUENCY) (hi : i < g.NSTATION) (hj : j ≤ i) (ha : a < g.NPOL) (hb : b < g.NPOL)
    (hset : Sets (extractStep g packed f i j a b) x v)
    (hlater : ∀ f2 i2 j2 a2 b2, f2 < g.NFREQUENCY → i2 < g.NSTATION → j2 ≤ i2 → a2 < g.NPOL →
      b2 < g.NPOL →
      (f < f2 ∨ (f = f2 ∧ (i < i2 ∨ (i = i2 ∧ (j < j2 ∨ (j = j2 ∧ (a < a2 ∨ (a = a2 ∧ b < b2)))))))) →
      Keeps (extractStep g packed f2 i2 j2 a2 b2) x)
    (matrix : Nat → Complex α) : xgpuExtractMatrix g matrix packed x = v :=
  nest5_last g.NFREQUENCY g.NSTATION g.NPOL (extractStep g packed) x v f i j a b
    hf hi hj ha hb hset hlater matrix

theorem extract_lower {α : Type} [Neg α] (g : Geometry) (matrix packed : Nat → Complex α)
    (f i j a b : Nat) (hf : f < g.NFREQUENCY) (hi : i < g.NSTATION) (hj : j < i)
    (ha : a < g.NPOL) (hb : b < g.NPOL) :
    xgpuExtractMatrix g matrix packed (denseIndex g f i j a b) = packed (triIndex g f i j a b) := by
  have hjN : j < g.NSTATION := Nat.lt_trans hj hi
  refine extract_last g packed _ _ f i j a b hf hi (Nat.le_of_lt hj) ha hb ?_ ?_ matrix
  · refine extractStep_sets_same g packed f i j a b (fun h => ?_)
    have := denseIndex_inj g hi hjN ha hb hjN hi hb ha h
    omega
  · intro f2 i2 j2 a2 b2 _ hi2 hj2 ha2 hb2 hlex
    have hj2N : j2 < g.NSTATION := Nat.lt_of_le_of_lt hj2 hi2
    refine extractStep_keeps g packed f2 i2 j2 a2 b2 _ (fun h => ?_) (fun h => ?_)
    · have := denseIndex_inj g hi hjN ha hb hi2 hj2N ha2 hb2 h
      omega
    · have := denseIndex_inj g hi hjN ha hb hj2N hi2 hb2 ha2 h
      omega

theorem extract_upper {α : Type} [Neg α] (g : Geometry) (matrix packed : Nat → Complex α)
    (f i j a b : Nat) (hf : f < g.NFREQUENCY) (hi : i < g.NSTATION) (hj : j < i)
    (ha : a < g.NPOL) (hb : b < g.NPOL) :
    xgpuExtractMatrix g matrix packed (denseIndex g f j i b a)
      = (packed (triIndex g f i j a b)).conj := by
  have hjN : j < g.NSTATION := Nat.lt_trans hj hi
  refine extract_last g packed _ _ f i j a b hf hi (Nat.le_of_lt hj) ha hb
    (extractStep_sets_conj g packed f i j a b) ?_ matrix
  intro f2 i2 j2 a2 b2 _ hi2 hj2 ha2 hb2 hlex
  have hj2N : j2 < g.NSTATION := Nat.lt_of_le_of_lt hj2 hi2
  refine extractStep_keeps g packed f2 i2 j2 a2 b2 _ (fun h => ?_) (fun h => ?_)
  · have := denseIndex_inj g hjN hi hb ha hi2 hj2N ha2 hb2 h
    omega
  · have := denseIndex_inj g hjN hi hb ha hj2N hi2 hb2 ha2 h
    omega

theorem extract_diag_le {α : Type} [Neg α] (g : Geometry) (matrix packed : Nat → Complex α)
    (f i a b : Nat) (hf : f < g.NFREQUENCY) (hi : i < g.NSTATION)
    (ha : a < g.NPOL) (hb : b < g.NPOL) (hab : a ≤ b) :
    xgpuExtractMatrix g matrix packed (denseIndex g f i i a b)
      = (packed (triIndex g f i i b a)).conj := by
  refine extract_last g packed _ _ f i i b a hf hi (Nat.le_refl i) hb ha
    (extractStep_sets_conj g packed f i i b a) ?_ matrix
  intro f2 i2 j2 a2 b2 _ hi2 hj2 ha2 hb2 hlex
  have hj2N : j2 < g.NSTATION := Nat.lt_of_le_of_lt hj2 hi2
  refine extractStep_keeps g packed f2 i2 j2 a2 b2 _ (fun h => ?_) (fun h => ?_)
  · have := denseIndex_inj g hi hi ha hb hi2 hj2N ha2 hb2 h
    omega
  · have := denseIndex_inj g hi hi ha hb hj2N hi2 hb2 ha2 h
    omega

theorem extract_diag_gt {α : Type} [Neg α] (g : Geometry) (matrix packed : Nat → Complex α)
    (f i a b : Nat) (hf : f < g.NFREQUENCY) (hi : i < g.NSTATION)
    (ha : a < g.NPOL) (hb : b < g.NPOL) (hab : b < a) :
    xgpuExtractMatrix g matrix packed (denseIndex g f i i a b) = packed (triIndex g f i i a b) := by
  refine extract_last g packed _ _ f i i a b hf hi (Nat.le_refl i) ha hb ?_ ?_ matrix
  · refine extractStep_sets_same g packed f i i a b (fun h => ?_)
    have := denseIndex_inj g hi hi ha hb hi hi hb ha h
    omega
  · intro f2 i2 j2 a2 b2 _ hi2 hj2 ha2 hb2 hlex
    have hj2N : j2 < g.NSTATION := Nat.lt_of_le_of_lt hj2 hi2
    refine extractStep_keeps g packed f2 i2 j2 a2 b2 _ (fun h => ?_) (fun h => ?_)
    · have := denseIndex_inj g hi hi ha hb hi2 hj2N ha2 hb2 h
      omega
    · have := denseIndex_inj g hi hi ha hb hj2N hi2 hb2 ha2 h
      omega

theorem conj_conj {α : Type} [InvolutiveNeg α] (z : Complex α) : z.conj.conj = z := by
  cases z
  simp [Complex.conj]

/-! ## C1: Hermitian symmetry of the expanded matrix -/

/-- C1 (as stated, refuted): with 2 stations, 1 frequency and 1 polarization and
a packed diagonal element `1+1i`, the dense element at `(0,0,0,0,0)` is `1-1i`,
which is not the conjugate of itself: the Hermitian identity fails on the
diagonal when the packed diagonal element has a non-zero imaginary part. -/
theorem extract_not_hermitian_on_diagonal :
    ¬ (∀ (g : Geometry) (matrix packed : Nat → Complex Int) (f i j p1 p2 : Nat),
        g.NSTATION % 2 = 0 → f < g.NFREQUENCY → i < g.NSTATION → j < g.NSTATION →
        p1 < g.NPOL → p2 < g.NPOL →
        xgpuExtractMatrix g matrix packed (denseIndex g f i j p1 p2)
          = (xgpuExtractMatrix g matrix packed (denseIndex g f j i p2 p1)).conj) := by
  intro h
  have h0 := h geom2 zeroBuffer packedOnePlusI 0 0 0 0 0 (by decide) (by decide) (by decide)
    (by decide) (by decide) (by decide)
  revert h0
  decide

/-- C1 (amended): for every geometry, packed matrix and valid index tuple, the
dense matrix written by `xgpuExtractMatrix` satisfies
`dense[f,i,j,p1,p2] = conj(dense[f,j,i,p2,p1])` whenever the tuple is not on
the diagonal (`i = j` and `p1 = p2`); on the diagonal the identity holds
exactly when the imaginary part of the packed element equals its own
negation, that is, is zero. -/
theorem extract_hermitian_off_diagonal {α : Type} [InvolutiveNeg α] (g : Geometry)
    (matrix packed : Nat → Complex α) (f i j p1 p2 : Nat)
    (hf : f < g.NFREQUENCY) (hi : i < g.NSTATION) (hj : j < g.NSTATION)
    (hp1 : p1 < g.NPOL) (hp2 : p2 < g.NPOL) :
    (¬ (i = j ∧ p1 = p2) →
      xgpuExtractMatrix g matrix packed (denseIndex g f i j p1 p2)
        = (xgpuExtractMatrix g matrix packed (denseIndex g f j i p2 p1)).conj) ∧
    ((i = j ∧ p1 = p2) →
      (xgpuExtractMatrix g matrix packed (denseIndex g f i j p1 p2)
          = (xgpuExtractMatrix g matrix packed (denseIndex g f j i p2 p1)).conj
        ↔ -(packed (triIndex g f i j p1 p2)).imag = (packed (triIndex g f i j p1 p2)).imag)) := by
  constructor
  · intro hnd
    rcases Nat.lt_trichotomy i j with hlt | heq | hgt
    · rw [extract_upper g matrix packed f j i p2 p1 hf hj hlt hp2 hp1,
        extract_lower g matrix packed f j i p2 p1 hf hj hlt hp2 hp1]
    · subst heq
      have hne : p1 ≠ p2 := fun h => hnd ⟨rfl, h⟩
      rcases Nat.lt_or_gt_of_ne hne with h12 | h21
      · rw [extract_diag_le g matrix packed f i p1 p2 hf hi hp1 hp2 (Nat.le_of_lt h12),
          extract_diag_gt g matrix packed f i p2 p1 hf hi hp2 hp1 h12]
      · rw [extract_diag_gt g matrix packed f i p1 p2 hf hi hp1 hp2 h21,
          extract_diag_le g matrix packed f i p2 p1 hf hi hp2 hp1 (Nat.le_of_lt h21), conj_conj]
    · rw [extract_lower g matrix packed f i j p1 p2 hf hi hgt hp1 hp2,
        extract_upper g matrix packed f i j p1 p2 hf hi hgt hp1 hp2, conj_conj]
  · rintro ⟨rfl, rfl⟩
    rw [extract_diag_le g matrix packed f i p1 p1 hf hi hp1 hp1 (Nat.le_refl p1), conj_conj]
    cases hp : packed (triIndex g f i i p1 p1) with
    | mk re im =>
      simp only [Complex.conj, Complex.mk.injEq, true_and]

/-- C1 (amended), applied to the spec's scenario (2 stations, 1 frequency,
1 polarization, packed `(1+0i, 2+1i, 3+0i)`) at the tuple `(0,1,0,0,0)`. -/
theorem extract_hermitian_off_diagonal_witness :
    (¬ ((1 : Nat) = 0 ∧ (0 : Nat) = 0) →
      xgpuExtractMatrix geom2 zeroBuffer packedScenario (denseIndex geom2 0 1 0 0 0)
        = (xgpuExtractMatrix geom2 zeroBuffer packedScenario (denseIndex geom2 0 0 1 0 0)).conj) ∧
    (((1 : Nat) = 0 ∧ (0 : Nat) = 0) →
      (xgpuExtractMatrix geom2 zeroBuffer packedScenario (denseIndex geom2 0 1 0 0 0)
          = (xgpuExtractMatrix geom2 zeroBuffer packedScenario (denseIndex geom2 0 0 1 0 0)).conj
        ↔ -(packedScenario (triIndex geom2 0 1 0 0 0)).imag
            = (packedScenario (triIndex geom2 0 1 0 0 0)).imag)) :=
  extract_hermitian_off_diagonal geom2 zeroBuffer packedScenario 0 1 0 0 0
    (by decide) (by decide) (by decide) (by decide) (by decide)

/-! ## C2: the values written by the expansion -/

/-- C2 (as stated, refuted): with 2 stations, 1 frequency and 1 polarization and
packed elements `1+1i`, the tuple `(0,0,0,0,0)` has `i ≥ j`, but the dense
element at `(0,0,0,0,0)` is `1-1i`, not the packed element `1+1i`. -/
theorem extract_diagonal_not_unchanged :
    ¬ (∀ (g : Geometry) (matrix packed : Nat → Complex Int) (f i j pol1 pol2 : Nat),
        g.NSTATION % 2 = 0 → f < g.NFREQUENCY → i < g.NSTATION → j ≤ i →
        pol1 < g.NPOL → pol2 < g.NPOL →
        xgpuExtractMatrix g matrix packed (denseIndex g f i j pol1 pol2)
            = packed (triIndex g f i j pol1 pol2) ∧
          xgpuExtractMatrix g matrix packed (denseIndex g f j i pol2 pol1)
            = (packed (triIndex g f i j pol1 pol2)).conj) := by
  intro h
  have h0 := (h geom2 zeroBuffer packedOnePlusI 0 0 0 0 0 (by decide) (by decide) (by decide)
    (by decide) (by decide) (by decide)).1
  revert h0
  decide

/-- C2 (amended): for every geometry, packed matrix and valid tuple
`(f,i,j,pol1,pol2)`: when `i > j`, the dense element at `(f,i,j,pol1,pol2)` is
the packed element at the canonical index unchanged and the dense element at
`(f,j,i,pol2,pol1)` is its conjugate; when `i = j`, the dense element at
`(f,i,i,pol1,pol2)` is the conjugate of the packed element at
`(f,i,i,pol2,pol1)` if `pol1 ≤ pol2`, and the packed element at
`(f,i,i,pol1,pol2)` unchanged if `pol1 > pol2`. -/
theorem extract_values {α : Type} [Neg α] (g : Geometry)
    (matrix packed : Nat → Complex α) (f i j pol1 pol2 : Nat)
    (hf : f < g.NFREQUENCY) (hi : i < g.NSTATION) (_hj : j ≤ i)
    (hp1 : pol1 < g.NPOL) (hp2 : pol2 < g.NPOL) :
    (j < i →
      xgpuExtractMatrix g matrix packed (denseIndex g f i j pol1 pol2)
          = packed (triIndex g f i j pol1 pol2) ∧
        xgpuExtractMatrix g matrix packed (denseIndex g f j i pol2 pol1)
          = (packed (triIndex g f i j pol1 pol2)).conj) ∧
    (i = j →
      xgpuExtractMatrix g matrix packed (denseIndex g f i i pol1 pol2)
        = if pol1 ≤ pol2 then (packed (triIndex g f i i pol2 pol1)).conj
          else packed (triIndex g f i i pol1 pol2)) := by
  constructor
  · intro hlt
    exact ⟨extract_lower g matrix packed f i j pol1 pol2 hf hi hlt hp1 hp2,
      extract_upper g matrix packed f i j pol1 pol2 hf hi hlt hp1 hp2⟩
  · intro _
    by_cases h : pol1 ≤ pol2
    · rw [if_pos h]
      exact extract_diag_le g matrix packed f i pol1 pol2 hf hi hp1 hp2 h
    · rw [if_neg h]
      exact extract_diag_gt g matrix packed f i pol1 pol2 hf hi hp1 hp2 (Nat.lt_of_not_le h)

/-- C2 (amended), applied to the spec's scenario at the tuple `(0,1,0,0,0)`,
together with the four dense values the scenario lists:
`[0,0]=1+0i, [1,0]=2+1i, [0,1]=2-1i, [1,1]=3+0i`. -/
theorem extract_values_witness :
    (((0 : Nat) < 1 →
      xgpuExtractMatrix geom2 zeroBuffer packedScenario (denseIndex geom2 0 1 0 0 0)
          = packedScenario (triIndex geom2 0 1 0 0 0) ∧
        xgpuExtractMatrix geom2 zeroBuffer packedScenario (denseIndex geom2 0 0 1 0 0)
          = (packedScenario (triIndex geom2 0 1 0 0 0)).conj) ∧
    ((1 : Nat) = 0 →
      xgpuExtractMatrix geom2 zeroBuffer packedScenario (denseIndex geom2 0 1 1 0 0)
        = if (0 : Nat) ≤ 0 then (packedScenario (triIndex geom2 0 1 1 0 0)).conj
          else packedScenario (triIndex geom2 0 1 1 0 0))) ∧
    xgpuExtractMatrix geom2 zeroBuffer packedScenario (denseIndex geom2 0 0 0 0 0) = ⟨1, 0⟩ ∧
    xgpuExtractMatrix geom2 zeroBuffer packedScenario (denseIndex geom2 0 1 0 0 0) = ⟨2, 1⟩ ∧
    xgpuExtractMatrix geom2 zeroBuffer packedScenario (denseIndex geom2 0 0 1 0 0) = ⟨2, -1⟩ ∧
    xgpuExtractMatrix geom2 zeroBuffer packedScenario (denseIndex geom2 0 1 1 0 0) = ⟨3, 0⟩ :=
  ⟨extract_values geom2 zeroBuffer packedScenario 0 1 0 0 0
    (by decide) (by decide) (by decide) (by decide) (by decide),
    by decide, by decide, by decide, by decide⟩

theorem tri_succ (n : Nat) : tri (n + 1) = tri n + (n + 1) := by
  unfold tri
  have h : (n + 1) * (n + 1 + 1) = n * (n + 1) + 2 * (n + 1) := by ring
  rw [h, Nat.add_mul_div_left _ _ (by decide : 0 < 2)]

theorem tri_mono {i n : Nat} (h : i ≤ n) : tri i ≤ tri n := by
  induction n with
  | zero =>
    have : i = 0 := by omega
    subst this
    exact Nat.le_refl _
  | succ n ih =>
    rcases Nat.lt_succ_iff_lt_or_eq.mp (Nat.lt_succ_of_le h) with hlt | heq
    · have := ih (Nat.le_of_lt_succ hlt)
      rw [tri_succ]
      omega
    · subst heq
      exact Nat.le_refl _

theorem tri_lt {i n : Nat} (h : i < n) : tri i + i < tri n := by
  have h1 : tri (i + 1) ≤ tri n := tri_mono h
  rw [tri_succ] at h1
  omega

theorem tri_pair_inj {i j i2 j2 : Nat} (hj : j ≤ i) (hj2 : j2 ≤ i2)
    (h : tri i + j = tri i2 + j2) : i = i2 ∧ j = j2 := by
  rcases Nat.lt_trichotomy i i2 with hlt | heq | hgt
  · have := tri_lt hlt
    omega
  · subst heq
    exact ⟨rfl, by omega⟩
  · have := tri_lt hgt
    omega

theorem tri_decode (n r : Nat) (h : r < tri n) : ∃ i j, i < n ∧ j ≤ i ∧ r = tri i + j := by
  induction n with
  | zero => simp [tri] at h
  | succ n ih =>
    by_cases hr : r < tri n
    · obtain ⟨i, j, hi, hj, e⟩ := ih hr
      exact ⟨i, j, Nat.lt_succ_of_lt hi, hj, e⟩
    · rw [tri_succ] at h
      exact ⟨n, r - tri n, Nat.lt_succ_self n, by omega, by omega⟩

theorem even_slots {n : Nat} (h : n % 2 = 0) : (n + 1) * (n / 2) = tri n := by
  obtain ⟨m, rfl⟩ : ∃ m, n = 2 * m := ⟨n / 2, by omega⟩
  unfold tri
  rw [Nat.mul_div_cancel_left m (by decide : 0 < 2)]
  have h2 : 2 * m * (2 * m + 1) = 2 * ((2 * m + 1) * m) := by ring
  rw [h2, Nat.mul_div_cancel_left _ (by decide : 0 < 2)]

theorem radix_lt {a b n A : Nat} (ha : a < A) (hb : b < n) : a * n + b < A * n := by
  have h1 : (a + 1) * n ≤ A * n := Nat.mul_le_mul_right n ha
  have h2 : (a + 1) * n = a * n + n := by ring
  omega

theorem baselineIndex_eq (g : Geometry) (f i j : Nat) :
    baselineIndex g f i j = f * ((g.NSTATION + 1) * (g.NSTATION / 2)) + tri i + j := by
  unfold baselineIndex tri
  rw [Nat.mul_assoc]

theorem baselineIndex_inj (g : Geometry) (hN : g.NSTATION % 2 = 0) {f i j f2 i2 j2 : Nat}
    (hi : i < g.NSTATION) (hj : j ≤ i) (hi2 : i2 < g.NSTATION) (hj2 : j2 ≤ i2)
    (h : baselineIndex g f i j = baselineIndex g f2 i2 j2) : f = f2 ∧ i = i2 ∧ j = j2 := by
  rw [baselineIndex_eq, baselineIndex_eq, even_slots hN, Nat.add_assoc, Nat.add_assoc] at h
  have h1 := tri_lt hi
  have h2 := tri_lt hi2
  obtain ⟨e1, e2⟩ := radix_inj (by omega) (by omega) h
  obtain ⟨e3, e4⟩ := tri_pair_inj hj hj2 e2
  exact ⟨e1, e3, e4⟩

theorem baselineIndex_lt (g : Geometry) (hN : g.NSTATION % 2 = 0) {f i j : Nat}
    (hf : f < g.NFREQUENCY) (hi : i < g.NSTATION) (hj : j ≤ i) :
    baselineIndex g f i j < g.NFREQUENCY * ((g.NSTATION + 1) * (g.NSTATION / 2)) := by
  rw [baselineIndex_eq, even_slots hN, Nat.add_assoc]
  have h1 := tri_lt hi
  exact radix_lt hf (by omega)

theorem triIndex_inj (g : Geometry) (hN : g.NSTATION % 2 = 0) {f i j a b f2 i2 j2 a2 b2 : Nat}
    (hi : i < g.NSTATION) (hj : j ≤ i) (ha : a < g.NPOL) (hb : b < g.NPOL)
    (hi2 : i2 < g.NSTATION) (hj2 : j2 ≤ i2) (ha2 : a2 < g.NPOL) (hb2 : b2 < g.NPOL)
    (h : triIndex g f i j a b = triIndex g f2 i2 j2 a2 b2) :
    f = f2 ∧ i = i2 ∧ j = j2 ∧ a = a2 ∧ b = b2 := by
  unfold triIndex at h
  obtain ⟨h1, e1⟩ := radix_inj hb hb2 h
  obtain ⟨h2, e2⟩ := radix_inj ha ha2 h1
  obtain ⟨e3, e4, e5⟩ := baselineIndex_inj g hN hi hj hi2 hj2 h2
  exact ⟨e3, e4, e5, e2, e1⟩

theorem triIndex_lt (g : Geometry) (hN : g.NSTATION % 2 = 0) {f i j a b : Nat}
    (hf : f < g.NFREQUENCY) (hi : i < g.NSTATION) (hj : j ≤ i) (ha : a < g.NPOL)
    (hb : b < g.NPOL) :
    triIndex g f i j a b
      < g.NFREQUENCY * (g.NSTATION + 1) * (g.NSTATION / 2) * g.NPOL * g.NPOL := by
  unfold triIndex
  rw [Nat.mul_assoc g.NFREQUENCY]
  exact radix_lt (radix_lt (baselineIndex_lt g hN hf hi hj) ha) hb

theorem triIndex_decode (g : Geometry) (hN : g.NSTATION % 2 = 0) (idx : Nat)
    (h : idx < g.NFREQUENCY * (g.NSTATION + 1) * (g.NSTATION / 2) * g.NPOL * g.NPOL) :
    ∃ f i j a b, f < g.NFREQUENCY ∧ i < g.NSTATION ∧ j ≤ i ∧ a < g.NPOL ∧ b < g.NPOL ∧
      idx = triIndex g f i j a b := by
  have hP : 0 < g.NPOL := by
    rcases Nat.eq_zero_or_pos g.NPOL with h0 | h0
    · rw [h0] at h; simp at h
    · exact h0
  have hb : idx % g.NPOL < g.NPOL := Nat.mod_lt _ hP
  have e1 : idx = idx / g.NPOL * g.NPOL + idx % g.NPOL := (Nat.div_add_mod' idx g.NPOL).symm
  have h1 : idx / g.NPOL < g.NFREQUENCY * (g.NSTATION + 1) * (g.NSTATION / 2) * g.NPOL :=
    Nat.div_lt_of_lt_mul (by rw [Nat.mul_comm]; exact h)
  set q := idx / g.NPOL with hq
  have ha : q % g.NPOL < g.NPOL := Nat.mod_lt _ hP
  have e2 : q = q / g.NPOL * g.NPOL + q % g.NPOL := (Nat.div_add_mod' q g.NPOL).symm
  have h2 : q / g.NPOL < g.NFREQUENCY * (g.NSTATION + 1) * (g.NSTATION / 2) :=
    Nat.div_lt_of_lt_mul (by rw [Nat.mul_comm]; exact h1)
  set k := q / g.NPOL with hk
  rw [Nat.mul_assoc, even_slots hN] at h2
  have hT : 0 < tri g.NSTATION := by
    rcases Nat.eq_zero_or_pos (tri g.NSTATION) with h0 | h0
    · rw [h0] at h2; simp at h2
    · exact h0
  have hr : k % tri g.NSTATION < tri g.NSTATION := Nat.mod_lt _ hT
  have e3 : k = k / tri g.NSTATION * tri g.NSTATION + k % tri g.NSTATION :=
    (Nat.div_add_mod' k _).symm
  have hf : k / tri g.NSTATION < g.NFREQUENCY :=
    Nat.div_lt_of_lt_mul (by rw [Nat.mul_comm]; exact h2)
  obtain ⟨i, j, hi, hj, e4⟩ := tri_decode _ _ hr
  refine ⟨k / tri g.NSTATION, i, j, q % g.NPOL, idx % g.NPOL, hf, hi, hj, ha, hb, ?_⟩
  unfold triIndex
  rw [baselineIndex_eq, even_slots hN, Nat.add_assoc, ← e4, ← e3, ← e2, ← e1]

/-! ## C7: the canonical index map -/

/-- C7 (as stated, refuted): with 3 stations, 2 frequency channels and
1 polarization (all positive), the valid tuples `(0,2,1,0,0)` and `(1,0,0,0,0)`
have the same canonical index 4: the map is not injective when `NSTATION` is
odd. -/
theorem canonical_index_not_injective_odd :
    ¬ (∀ (g : Geometry), 0 < g.NSTATION → 0 < g.NFREQUENCY → 0 < g.NPOL →
        (∀ f i j a b f2 i2 j2 a2 b2 : Nat,
          f < g.NFREQUENCY → i < g.NSTATION → j ≤ i → a < g.NPOL → b < g.NPOL →
          f2 < g.NFREQUENCY → i2 < g.NSTATION → j2 ≤ i2 → a2 < g.NPOL → b2 < g.NPOL →
          triIndex g f i j a b = triIndex g f2 i2 j2 a2 b2 →
          f = f2 ∧ i = i2 ∧ j = j2 ∧ a = a2 ∧ b = b2) ∧
        (∀ f i j a b : Nat,
          f < g.NFREQUENCY → i < g.NSTATION → j ≤ i → a < g.NPOL → b < g.NPOL →
          triIndex g f i j a b
              < g.NFREQUENCY * (g.NSTATION + 1) * (g.NSTATION / 2) * g.NPOL * g.NPOL ∧
            i * (i + 1) / 2 + j < (g.NSTATION + 1) * (g.NSTATION / 2))) := by
  intro h
  have h0 := (h geom3 (by decide) (by decide) (by decide)).1 0 2 1 0 0 1 0 0 0 0
    (by decide) (by decide) (by decide) (by decide) (by decide)
    (by decide) (by decide) (by decide) (by decide) (by decide) (by decide)
  exact absurd h0.1 (by decide)

/-- C7 (amended): for every geometry with even `NSTATION`, the canonical index
map `(f,i,j,pol1,pol2) ↦ ((f*(NSTATION+1)*(NSTATION/2) + i*(i+1)/2 + j)*NPOL+pol1)*NPOL+pol2`
over `f < NFREQUENCY`, `j ≤ i < NSTATION`, `pol1, pol2 < NPOL` is injective, every
value is below `NFREQUENCY*(NSTATION+1)*(NSTATION/2)*NPOL*NPOL`, and the
triangular index `i*(i+1)/2 + j` is below the `(NSTATION+1)*(NSTATION/2)` baseline
slots of a frequency. -/
theorem canonical_index_injective_bounded (g : Geometry) (hN : g.NSTATION % 2 = 0) :
    (∀ f i j a b f2 i2 j2 a2 b2 : Nat,
      f < g.NFREQUENCY → i < g.NSTATION → j ≤ i → a < g.NPOL → b < g.NPOL →
      f2 < g.NFREQUENCY → i2 < g.NSTATION → j2 ≤ i2 → a2 < g.NPOL → b2 < g.NPOL →
      triIndex g f i j a b = triIndex g f2 i2 j2 a2 b2 →
      f = f2 ∧ i = i2 ∧ j = j2 ∧ a = a2 ∧ b = b2) ∧
    (∀ f i j a b : Nat,
      f < g.NFREQUENCY → i < g.NSTATION → j ≤ i → a < g.NPOL → b < g.NPOL →
      triIndex g f i j a b
          < g.NFREQUENCY * (g.NSTATION + 1) * (g.NSTATION / 2) * g.NPOL * g.NPOL ∧
        i * (i + 1) / 2 + j < (g.NSTATION + 1) * (g.NSTATION / 2)) := by
  constructor
  · intro f i j a b f2 i2 j2 a2 b2 _ hi hj ha hb _ hi2 hj2 ha2 hb2 h
    exact triIndex_inj g hN hi hj ha hb hi2 hj2 ha2 hb2 h
  · intro f i j a b hf hi hj ha hb
    refine ⟨triIndex_lt g hN hf hi hj ha hb, ?_⟩
    have h1 := tri_lt hi
    rw [even_slots hN]
    unfold tri at h1 ⊢
    omega

/-- C7 (amended), applied to the geometry with 2 stations, 1 frequency and
1 polarization. -/
theorem canonical_index_injective_bounded_witness :
    (∀ f i j a b f2 i2 j2 a2 b2 : Nat,
      f < geom2.NFREQUENCY → i < geom2.NSTATION → j ≤ i → a < geom2.NPOL → b < geom2.NPOL →
      f2 < geom2.NFREQUENCY → i2 < geom2.NSTATION → j2 ≤ i2 → a2 < geom2.NPOL →
      b2 < geom2.NPOL →
      triIndex geom2 f i j a b = triIndex geom2 f2 i2 j2 a2 b2 →
      f = f2 ∧ i = i2 ∧ j = j2 ∧ a = a2 ∧ b = b2) ∧
    (∀ f i j a b : Nat,
      f < geom2.NFREQUENCY → i < geom2.NSTATION → j ≤ i → a < geom2.NPOL → b < geom2.NPOL →
      triIndex geom2 f i j a b
          < geom2.NFREQUENCY * (geom2.NSTATION + 1) * (geom2.NSTATION / 2) * geom2.NPOL
            * geom2.NPOL ∧
        i * (i + 1) / 2 + j < (geom2.NSTATION + 1) * (geom2.NSTATION / 2)) :=
  canonical_index_injective_bounded geom2 (by decide)

/-! ## `xgpuReorderMatrix`, split real/imag layout -/

theorem complexAt_copyBack {α : Type} (matLength : Nat) (tmp : Nat → Complex α)
    (matrix : Nat → α) (idx : Nat) (h : idx < matLength) :
    complexAt (copyBack matLength tmp matrix) idx = tmp idx := by
  have h1 : 2 * idx < 2 * matLength := by omega
  have h2 : 2 * idx + 1 < 2 * matLength := by omega
  have h3 : (2 * idx + 1) % 2 = 1 := by omega
  have h4 : (2 * idx + 1) / 2 = idx := by omega
  have h5 : 2 * idx / 2 = idx := by omega
  simp [complexAt, copyBack, h1, h2, h3, h4, h5]

theorem splitStep_keeps {α : Type} (g : Geometry) (matrix : Nat → α)
    (f i j pol1 pol2 x : Nat) (h : x ≠ triIndex g f i j pol1 pol2) :
    Keeps (splitStep g matrix f i j pol1 pol2) x := by
  intro s
  unfold triIndex baselineIndex at h
  simp [splitStep, setReal, setImag, h]

theorem splitStep_sets {α : Type} (g : Geometry) (matrix : Nat → α) (f i j pol1 pol2 : Nat) :
    Sets (splitStep g matrix f i j pol1 pol2) (triIndex g f i j pol1 pol2)
      ⟨matrix (triIndex g f i j pol1 pol2),
        matrix (triIndex g f i j pol1 pol2 + splitMatLength g)⟩ := by
  intro s
  simp [splitStep, setReal, setImag, triIndex, baselineIndex]

theorem splitLoops_value {α : Type} (g : Geometry) (hN : g.NSTATION % 2 = 0)
    (matrix : Nat → α) (tmp : Nat → Complex α) (f i j pol1 pol2 : Nat)
    (hf : f < g.NFREQUENCY) (hi : i < g.NSTATION) (hj : j ≤ i)
    (hp1 : pol1 < g.NPOL) (hp2 : pol2 < g.NPOL) :
    splitLoops g matrix tmp (triIndex g f i j pol1 pol2)
      = ⟨matrix (triIndex g f i j pol1 pol2),
          matrix (triIndex g f i j pol1 pol2 + splitMatLength g)⟩ := by
  refine nest5_last g.NFREQUENCY g.NSTATION g.NPOL (splitStep g matrix) _ _ f i j pol1 pol2
    hf hi hj hp1 hp2 (splitStep_sets g matrix f i j pol1 pol2) ?_ tmp
  intro f2 i2 j2 a2 b2 _ hi2 hj2 ha2 hb2 hlex
  refine splitStep_keeps g matrix f2 i2 j2 a2 b2 _ (fun h => ?_)
  have := triIndex_inj g hN hi hj hp1 hp2 hi2 hj2 ha2 hb2 h
  omega

theorem triIndex_lt_splitMatLength (g : Geometry) (hN : g.NSTATION % 2 = 0) {f i j a b : Nat}
    (hf : f < g.NFREQUENCY) (hi : i < g.NSTATION) (hj : j ≤ i) (ha : a < g.NPOL)
    (hb : b < g.NPOL) : triIndex g f i j a b < splitMatLength g := by
  have h1 := triIndex_lt g hN hf hi hj ha hb
  have h2 : g.NFREQUENCY * (g.NSTATION + 1) * (g.NSTATION / 2) * g.NPOL * g.NPOL
      ≤ splitMatLength g := by
    unfold splitMatLength
    have e : g.NFREQUENCY * ((g.NSTATION + 1) * (g.NSTATION / 2) * g.NPOL * g.NPOL)
        = g.NFREQUENCY * (g.NSTATION + 1) * (g.NSTATION / 2) * g.NPOL * g.NPOL := by ring
    rw [e]
    exact Nat.le_mul_of_pos_right _ (Nat.succ_pos _)
  omega

/-! ## C4: the split real/imag layout, element by element -/

/-- C4: in the split real/imag layout, for every geometry with even `NSTATION`,
every input buffer (and every content of the scratch buffer), every frequency,
station pair `i ≥ j` and polarization pair: after `xgpuReorderMatrix` the
element at the canonical index `idx` has real part the input scalar at offset
`idx` and imaginary part the input scalar at offset `idx + matLength`. -/
theorem reorder_split_values {α : Type} (m : Mode) (g : Geometry)
    (hm : m.MATRIX_ORDER = MatrixOrder.REAL_IMAG_TRIANGULAR_ORDER)
    (hN : g.NSTATION % 2 = 0) (scratch : Nat → Complex α) (matrix : Nat → α)
    (f i j pol1 pol2 : Nat) (hf : f < g.NFREQUENCY) (hi : i < g.NSTATION) (hj : j ≤ i)
    (hp1 : pol1 < g.NPOL) (hp2 : pol2 < g.NPOL) :
    (complexAt (xgpuReorderMatrix m g scratch matrix) (triIndex g f i j pol1 pol2)).real
        = matrix (triIndex g f i j pol1 pol2) ∧
      (complexAt (xgpuReorderMatrix m g scratch matrix) (triIndex g f i j pol1 pol2)).imag
        = matrix (triIndex g f i j pol1 pol2 + splitMatLength g) := by
  unfold xgpuReorderMatrix
  rw [hm]
  simp only
  rw [complexAt_copyBack _ _ _ _ (triIndex_lt_splitMatLength g hN hf hi hj hp1 hp2),
    splitLoops_value g hN matrix scratch f i j pol1 pol2 hf hi hj hp1 hp2]
  exact ⟨rfl, rfl⟩
/-- C4, applied to the geometry with 2 stations, 1 frequency and 1 polarization
at the tuple `(0,1,0,0,0)`, on the buffer holding `s` at scalar offset `s`. -/
theorem reorder_split_values_witness :
    geom2.NSTATION % 2 = 0 ∧
    ((complexAt (xgpuReorderMatrix modeSplit geom2 zeroBuffer rampBuffer)
          (triIndex geom2 0 1 0 0 0)).real = rampBuffer (triIndex geom2 0 1 0 0 0) ∧
      (complexAt (xgpuReorderMatrix modeSplit geom2 zeroBuffer rampBuffer)
          (triIndex geom2 0 1 0 0 0)).imag
        = rampBuffer (triIndex geom2 0 1 0 0 0 + splitMatLength geom2)) :=
  ⟨by decide, reorder_split_values modeSplit geom2 rfl (by decide) zeroBuffer rampBuffer 0 1 0 0 0
    (by decide) (by decide) (by decide) (by decide) (by decide)⟩

theorem splitLoops_covers {α : Type} (g : Geometry) (hN : g.NSTATION % 2 = 0)
    (hP : g.NPULSAR = 0) (matrix : Nat → α) (tmp : Nat → Complex α) (idx : Nat)
    (h : idx < splitMatLength g) :
    splitLoops g matrix tmp idx = ⟨matrix idx, matrix (idx + splitMatLength g)⟩ := by
  have h1 : idx < g.NFREQUENCY * (g.NSTATION + 1) * (g.NSTATION / 2) * g.NPOL * g.NPOL := by
    have e : splitMatLength g
        = g.NFREQUENCY * (g.NSTATION + 1) * (g.NSTATION / 2) * g.NPOL * g.NPOL := by
      unfold splitMatLength
      rw [hP]
      ring
    omega
  obtain ⟨f, i, j, a, b, hf, hi, hj, ha, hb, e⟩ := triIndex_decode g hN idx h1
  rw [e]
  exact splitLoops_value g hN matrix tmp f i j a b hf hi hj ha hb

/-- The scalar read by the output scalar `s` in the split layout. -/
theorem reorder_split_scalar {α : Type} (m : Mode) (g : Geometry)
    (hm : m.MATRIX_ORDER = MatrixOrder.REAL_IMAG_TRIANGULAR_ORDER)
    (hN : g.NSTATION % 2 = 0) (hP : g.NPULSAR = 0) (scratch : Nat → Complex α)
    (matrix : Nat → α) (s : Nat) (h : s < 2 * splitMatLength g) :
    xgpuReorderMatrix m g scratch matrix s
      = matrix (if s % 2 = 0 then s / 2 else s / 2 + splitMatLength g) := by
  unfold xgpuReorderMatrix
  rw [hm]
  simp only [copyBack, if_pos h]
  rw [splitLoops_covers g hN hP matrix scratch (s / 2) (by omega)]
  by_cases h2 : s % 2 = 0 <;> simp [h2]

theorem deinterleave_perm {α : Type} (M : Nat) (out inp : Nat → α)
    (h : ∀ s, s < 2 * M → out s = inp (if s % 2 = 0 then s / 2 else s / 2 + M)) :
    (Multiset.range (2 * M)).map out = (Multiset.range (2 * M)).map inp := by
  refine Multiset.map_eq_map_of_bij_of_nodup out inp (Multiset.nodup_range _)
    (Multiset.nodup_range _) (fun s _ => if s % 2 = 0 then s / 2 else s / 2 + M) ?_ ?_ ?_ ?_
  · intro s hs
    rw [Multiset.mem_range] at hs ⊢
    dsimp only
    split <;> omega
  · intro s1 hs1 s2 hs2 he
    rw [Multiset.mem_range] at hs1 hs2
    dsimp only at he
    split at he <;> split at he <;> omega
  · intro b hb
    rw [Multiset.mem_range] at hb
    by_cases hlt : b < M
    · refine ⟨2 * b, by rw [Multiset.mem_range]; omega, ?_⟩
      have : 2 * b % 2 = 0 := by omega
      simp only [this, if_true]
      omega
    · refine ⟨2 * (b - M) + 1, by rw [Multiset.mem_range]; omega, ?_⟩
      have : (2 * (b - M) + 1) % 2 ≠ 0 := by omega
      simp only [this, if_false]
      omega
  · intro s hs
    rw [Multiset.mem_range] at hs
    exact h s hs

/-! ## C5: the split real/imag layout is a permutation of the buffer -/

/-- C5: in the split real/imag layout, for every geometry with even `NSTATION`
and no pulsar bins and every input buffer, the multiset of the `2*matLength`
scalars of the buffer is the same before and after `xgpuReorderMatrix`. -/
theorem reorder_split_permutation {α : Type} (m : Mode) (g : Geometry)
    (hm : m.MATRIX_ORDER = MatrixOrder.REAL_IMAG_TRIANGULAR_ORDER)
    (hN : g.NSTATION % 2 = 0) (hP : g.NPULSAR = 0) (scratch : Nat → Complex α)
    (matrix : Nat → α) :
    (Multiset.range (2 * splitMatLength g)).map (xgpuReorderMatrix m g scratch matrix)
      = (Multiset.range (2 * splitMatLength g)).map matrix :=
  deinterleave_perm (splitMatLength g) _ matrix
    (fun s hs => reorder_split_scalar m g hm hN hP scratch matrix s hs)
/-- C5, applied to the geometry with 2 stations, 1 frequency and 1 polarization
on the buffer holding `s` at scalar offset `s`. -/
theorem reorder_split_permutation_witness :
    (geom2.NSTATION % 2 = 0 ∧ geom2.NPULSAR = 0) ∧
    (Multiset.range (2 * splitMatLength geom2)).map
        (xgpuReorderMatrix modeSplit geom2 zeroBuffer rampBuffer)
      = (Multiset.range (2 * splitMatLength geom2)).map rampBuffer :=
  ⟨⟨by decide, rfl⟩,
    reorder_split_permutation modeSplit geom2 rfl (by decide) rfl zeroBuffer rampBuffer⟩

/-! ## `xgpuReorderMatrix`, register-tile layout -/

/-- Last-writer rule for the loop nest of the register-tile branch
(`for f < F, for i < H, for rx < 2, for j ≤ i, for ry < 2, for a < P, for b < P`). -/
theorem nest7_last {β : Type} (F H P : Nat)
    (step : Nat → Nat → Nat → Nat → Nat → Nat → Nat → (Nat → β) → (Nat → β))
    (x : Nat) (v : β) (f i rx j ry a b : Nat)
    (hf : f < F) (hi : i < H) (hrx : rx < 2) (hj : j ≤ i) (hry : ry < 2) (ha : a < P) (hb : b < P)
    (hset : Sets (step f i rx j ry a b) x v)
    (hlater : ∀ f2 i2 rx2 j2 ry2 a2 b2, f2 < F → i2 < H → rx2 < 2 → j2 ≤ i2 → ry2 < 2 →
      a2 < P → b2 < P →
      (f < f2 ∨ (f = f2 ∧ (i < i2 ∨ (i = i2 ∧ (rx < rx2 ∨ (rx = rx2 ∧ (j < j2 ∨ (j = j2 ∧
        (ry < ry2 ∨ (ry = ry2 ∧ (a < a2 ∨ (a = a2 ∧ b < b2)))))))))))) →
      Keeps (step f2 i2 rx2 j2 ry2 a2 b2) x) :
    Sets (forLoop F (fun f => forLoop H (fun i => forLoop 2 (fun rx => forLoop (i + 1) (fun j =>
      forLoop 2 (fun ry => forLoop P (fun a => forLoop P (fun b =>
        step f i rx j ry a b)))))))) x v := by
  refine sets_forLoop _ _ x v f hf ?_ ?_
  · refine sets_forLoop _ _ x v i hi ?_ ?_
    · refine sets_forLoop _ _ x v rx hrx ?_ ?_
      · refine sets_forLoop _ _ x v j (Nat.lt_succ_of_le hj) ?_ ?_
        · refine sets_forLoop _ _ x v ry hry ?_ ?_
          · refine sets_forLoop _ _ x v a ha ?_ ?_
            · refine sets_forLoop _ _ x v b hb hset ?_
              intro b2 h1 h2
              exact hlater f i rx j ry a b2 hf hi hrx hj hry ha h2 (by simp [h1])
            · intro a2 h1 h2
              refine keeps_forLoop _ _ x (fun b2 hb2 => ?_)
              exact hlater f i rx j ry a2 b2 hf hi hrx hj hry h2 hb2 (by simp [h1])
          · intro ry2 h1 h2
            refine keeps_forLoop _ _ x (fun a2 ha2 => keeps_forLoop _ _ x (fun b2 hb2 => ?_))
            exact hlater f i rx j ry2 a2 b2 hf hi hrx hj h2 ha2 hb2 (by simp [h1])
        · intro j2 h1 h2
          refine keeps_forLoop _ _ x (fun ry2 hry2 =>
            keeps_forLoop _ _ x (fun a2 ha2 => keeps_forLoop _ _ x (fun b2 hb2 => ?_)))
          exact hlater f i rx j2 ry2 a2 b2 hf hi hrx (Nat.le_of_lt_succ h2) hry2 ha2 hb2
            (by simp [h1])
      · intro rx2 h1 h2
        refine keeps_forLoop _ _ x (fun j2 hj2 => keeps_forLoop _ _ x (fun ry2 hry2 =>
          keeps_forLoop _ _ x (fun a2 ha2 => keeps_forLoop _ _ x (fun b2 hb2 => ?_))))
        exact hlater f i rx2 j2 ry2 a2 b2 hf hi h2 (Nat.le_of_lt_succ hj2) hry2 ha2 hb2
          (by simp [h1])
    · intro i2 h1 h2
      refine keeps_forLoop _ _ x (fun rx2 hrx2 => keeps_forLoop _ _ x (fun j2 hj2 =>
        keeps_forLoop _ _ x (fun ry2 hry2 =>
          keeps_forLoop _ _ x (fun a2 ha2 => keeps_forLoop _ _ x (fun b2 hb2 => ?_)))))
      exact hlater f i2 rx2 j2 ry2 a2 b2 hf h2 hrx2 (Nat.le_of_lt_succ hj2) hry2 ha2 hb2
        (by simp [h1])
  · intro f2 h1 h2
    refine keeps_forLoop _ _ x (fun i2 hi2 => keeps_forLoop _ _ x (fun rx2 hrx2 =>
      keeps_forLoop _ _ x (fun j2 hj2 => keeps_forLoop _ _ x (fun ry2 hry2 =>
        keeps_forLoop _ _ x (fun a2 ha2 => keeps_forLoop _ _ x (fun b2 hb2 => ?_))))))
    exact hlater f2 i2 rx2 j2 ry2 a2 b2 h2 hi2 hrx2 (Nat.le_of_lt_succ hj2) hry2 ha2 hb2
      (by simp [h1])

theorem tileStep_keeps {α : Type} (g : Geometry) (matrix : Nat → α)
    (f i rx j ry pol1 pol2 x : Nat) (h : x ≠ tileDest g f i rx j ry pol1 pol2) :
    Keeps (tileStep g matrix f i rx j ry pol1 pol2) x := by
  intro s
  unfold tileDest at h
  simp [tileStep, setReal, setImag, h]

theorem tileStep_sets {α : Type} (g : Geometry) (matrix : Nat → α)
    (f i rx j ry pol1 pol2 : Nat) :
    Sets (tileStep g matrix f i rx j ry pol1 pol2) (tileDest g f i rx j ry pol1 pol2)
      ⟨matrix (tileSrc g f i rx j ry pol1 pol2),
        matrix (tileSrc g f i rx j ry pol1 pol2 + tileMatLength g)⟩ := by
  intro s
  simp [tileStep, setReal, setImag, tileDest, tileSrc]

theorem tileDest_eq_triIndex (g : Geometry) (f i rx j ry pol1 pol2 : Nat) :
    tileDest g f i rx j ry pol1 pol2 = triIndex g f (2 * i + rx) (2 * j + ry) pol1 pol2 := by
  unfold tileDest triIndex baselineIndex
  rw [Nat.add_assoc _ (2 * j) ry]

theorem tileDest_upper (g : Geometry) (f i pol1 pol2 : Nat) :
    tileDest g f i 0 i 1 pol1 pol2 = triIndex g f (2 * i + 1) 0 pol1 pol2 := by
  rw [tileDest_eq_triIndex]
  unfold triIndex
  rw [baselineIndex_eq, baselineIndex_eq, tri_succ]
  simp only [Nat.add_zero]
  rw [Nat.add_assoc]

/-- When an iteration of the register-tile loop writes the canonical slot of the
station pair `(a,b)`, `b ≤ a`: it is either the iteration of that pair, or the
upper entry `(rx,ry) = (0,1)` of a diagonal tile, which lands on the slot of
`(2i+1, 0)`. -/
theorem tileDest_hits (g : Geometry) (hN : g.NSTATION % 2 = 0)
    {f a b p1 p2 f2 i2 rx2 j2 ry2 a2 b2 : Nat}
    (ha : a < g.NSTATION) (hb : b ≤ a) (hp1 : p1 < g.NPOL) (hp2 : p2 < g.NPOL)
    (hi2 : i2 < g.NSTATION / 2) (hrx2 : rx2 < 2) (hj2 : j2 ≤ i2) (hry2 : ry2 < 2)
    (ha2 : a2 < g.NPOL) (hb2 : b2 < g.NPOL)
    (h : triIndex g f a b p1 p2 = tileDest g f2 i2 rx2 j2 ry2 a2 b2) :
    f = f2 ∧ p1 = a2 ∧ p2 = b2 ∧
      ((a = 2 * i2 + rx2 ∧ b = 2 * j2 + ry2) ∨
        (rx2 = 0 ∧ ry2 = 1 ∧ j2 = i2 ∧ a = 2 * i2 + 1 ∧ b = 0)) := by
  by_cases hle : 2 * j2 + ry2 ≤ 2 * i2 + rx2
  · rw [tileDest_eq_triIndex] at h
    have := triIndex_inj g hN ha hb hp1 hp2 (by omega) hle ha2 hb2 h
    omega
  · have e1 : rx2 = 0 := by omega
    have e2 : ry2 = 1 := by omega
    have e3 : j2 = i2 := by omega
    subst e1 e2 e3
    rw [tileDest_upper] at h
    have := triIndex_inj g hN ha hb hp1 hp2 (by omega) (Nat.zero_le _) ha2 hb2 h
    omega

theorem tileLoops_value {α : Type} (g : Geometry) (hN : g.NSTATION % 2 = 0)
    (matrix : Nat → α) (tmp : Nat → Complex α) (f a b pol1 pol2 : Nat)
    (hf : f < g.NFREQUENCY) (ha : a < g.NSTATION) (hb : b ≤ a)
    (hp1 : pol1 < g.NPOL) (hp2 : pol2 < g.NPOL) :
    tileLoops g matrix tmp (triIndex g f a b pol1 pol2)
      = ⟨matrix (tiledIndex g f a b pol1 pol2),
          matrix (tiledIndex g f a b pol1 pol2 + tileMatLength g)⟩ := by
  have hset := tileStep_sets g matrix f (a / 2) (a % 2) (b / 2) (b % 2) pol1 pol2
  rw [tileDest_eq_triIndex, (by omega : 2 * (a / 2) + a % 2 = a),
    (by omega : 2 * (b / 2) + b % 2 = b)] at hset
  refine nest7_last g.NFREQUENCY (g.NSTATION / 2) g.NPOL (tileStep g matrix) _ _
    f (a / 2) (a % 2) (b / 2) (b % 2) pol1 pol2 hf (by omega) (by omega) (by omega) (by omega)
    hp1 hp2 hset ?_ tmp
  intro f2 i2 rx2 j2 ry2 a2 b2 _ hi2 hrx2 hj2 hry2 ha2 hb2 hlex
  refine tileStep_keeps g matrix f2 i2 rx2 j2 ry2 a2 b2 _ (fun h => ?_)
  have := tileDest_hits g hN ha hb hp1 hp2 hi2 hrx2 hj2 hry2 ha2 hb2 h
  omega

theorem canonical_le_tileMatLength (g : Geometry) (hN4 : g.NSTATION % 4 = 0) :
    g.NFREQUENCY * (g.NSTATION + 1) * (g.NSTATION / 2) * g.NPOL * g.NPOL ≤ tileMatLength g := by
  have h2 : g.NSTATION / 2 = 2 * (g.NSTATION / 4) := by omega
  have h4 : g.NSTATION = 4 * (g.NSTATION / 4) := by omega
  have key : (g.NSTATION + 1) * (g.NSTATION / 2)
      ≤ (g.NSTATION / 2 + 1) * (g.NSTATION / 4) * 4 := by
    rw [h2]
    generalize g.NSTATION / 4 = q at h4
    rw [h4]
    have : (4 * q + 1) * (2 * q) + 2 * q = (2 * q + 1) * q * 4 := by ring
    omega
  have e1 : g.NFREQUENCY * (g.NSTATION + 1) * (g.NSTATION / 2) * g.NPOL * g.NPOL
      = g.NFREQUENCY * g.NPOL * g.NPOL * ((g.NSTATION + 1) * (g.NSTATION / 2)) := by ring
  have e2 : tileMatLength g
      = g.NFREQUENCY * g.NPOL * g.NPOL * ((g.NSTATION / 2 + 1) * (g.NSTATION / 4) * 4)
        * (g.NPULSAR + 1) := by
    unfold tileMatLength
    ring
  rw [e1, e2]
  exact Nat.le_trans (Nat.mul_le_mul_left _ key) (Nat.le_mul_of_pos_right _ (Nat.succ_pos _))

theorem reorder_tile_element {α : Type} (m : Mode) (g : Geometry)
    (hm : m.MATRIX_ORDER = MatrixOrder.REGISTER_TILE_TRIANGULAR_ORDER)
    (hN4 : g.NSTATION % 4 = 0) (scratch : Nat → Complex α) (matrix : Nat → α)
    (f a b pol1 pol2 : Nat) (hf : f < g.NFREQUENCY) (ha : a < g.NSTATION) (hb : b ≤ a)
    (hp1 : pol1 < g.NPOL) (hp2 : pol2 < g.NPOL) :
    complexAt (xgpuReorderMatrix m g scratch matrix) (triIndex g f a b pol1 pol2)
      = ⟨matrix (tiledIndex g f a b pol1 pol2),
          matrix (tiledIndex g f a b pol1 pol2 + tileMatLength g)⟩ := by
  have hN : g.NSTATION % 2 = 0 := by omega
  have h1 := triIndex_lt g hN hf ha hb hp1 hp2
  have h2 := canonical_le_tileMatLength g hN4
  unfold xgpuReorderMatrix
  rw [hm]
  simp only
  rw [complexAt_copyBack _ _ _ _ (by omega),
    tileLoops_value g hN matrix scratch f a b pol1 pol2 hf ha hb hp1 hp2]

/-! ## C3: the register-tile layout, element by element -/

/-- C3: in the register-tile layout, for every geometry with `NSTATION` a
multiple of 4, every input buffer (and every content of the scratch buffer),
every frequency `f`, station pair `a ≥ b` and polarization pair: after
`xgpuReorderMatrix` the element at the canonical index of `(f,a,b,pol1,pol2)`
has real part the input scalar at the documented tiled index `reg_index` and
imaginary part the input scalar at `reg_index + matLength`. -/
theorem reorder_tile_values {α : Type} (m : Mode) (g : Geometry)
    (hm : m.MATRIX_ORDER = MatrixOrder.REGISTER_TILE_TRIANGULAR_ORDER)
    (hN4 : g.NSTATION % 4 = 0) (scratch : Nat → Complex α) (matrix : Nat → α)
    (f a b pol1 pol2 : Nat) (hf : f < g.NFREQUENCY) (ha : a < g.NSTATION) (hb : b ≤ a)
    (hp1 : pol1 < g.NPOL) (hp2 : pol2 < g.NPOL) :
    (complexAt (xgpuReorderMatrix m g scratch matrix) (triIndex g f a b pol1 pol2)).real
        = matrix (tiledIndex g f a b pol1 pol2) ∧
      (complexAt (xgpuReorderMatrix m g scratch matrix) (triIndex g f a b pol1 pol2)).imag
        = matrix (tiledIndex g f a b pol1 pol2 + tileMatLength g) := by
  rw [reorder_tile_element m g hm hN4 scratch matrix f a b pol1 pol2 hf ha hb hp1 hp2]
  exact ⟨rfl, rfl⟩

/-- C3, applied to the geometry with 4 stations, 1 frequency and 1 polarization
at the station pair `(1,0)`, whose canonical slot is also written (earlier) by
the upper entry of the first diagonal tile; the buffer holds `s` at scalar
offset `s`, and the canonical element `1` ends up as `3 + 15i`. -/
theorem reorder_tile_values_witness :
    geom4.NSTATION % 4 = 0 ∧
    ((complexAt (xgpuReorderMatrix modeTile geom4 zeroBuffer rampBuffer)
          (triIndex geom4 0 1 0 0 0)).real = rampBuffer (tiledIndex geom4 0 1 0 0 0) ∧
      (complexAt (xgpuReorderMatrix modeTile geom4 zeroBuffer rampBuffer)
          (triIndex geom4 0 1 0 0 0)).imag
        = rampBuffer (tiledIndex geom4 0 1 0 0 0 + tileMatLength geom4)) ∧
    complexAt (xgpuReorderMatrix modeTile geom4 zeroBuffer rampBuffer) 1 = ⟨3, 15⟩ :=
  ⟨by decide, reorder_tile_values modeTile geom4 rfl (by decide) zeroBuffer rampBuffer 0 1 0 0 0
    (by decide) (by decide) (by decide) (by decide) (by decide), by decide⟩

theorem mem_tileTuples (g : Geometry) (f i rx j ry a b : Nat) :
    (f, i, rx, j, ry, a, b) ∈ tileTuples g ↔
      f < g.NFREQUENCY ∧ i < g.NSTATION / 2 ∧ rx < 2 ∧ j < g.NSTATION / 2 ∧ ry < 2 ∧
        a < g.NPOL ∧ b < g.NPOL ∧ 2 * j + ry ≤ 2 * i + rx := by
  simp only [tileTuples, Finset.mem_filter, Finset.mem_product, Finset.mem_range]
  tauto

theorem tileDest_inj (g : Geometry) (hN : g.NSTATION % 2 = 0)
    (t1 t2 : Nat × Nat × Nat × Nat × Nat × Nat × Nat)
    (h1 : t1 ∈ tileTuples g) (h2 : t2 ∈ tileTuples g) (h : tileDestT g t1 = tileDestT g t2) :
    t1 = t2 := by
  obtain ⟨f, i, rx, j, ry, a, b⟩ := t1
  obtain ⟨f2, i2, rx2, j2, ry2, a2, b2⟩ := t2
  rw [mem_tileTuples] at h1 h2
  simp only [tileDestT, tileDest_eq_triIndex] at h
  have := triIndex_inj g hN (by omega) h1.2.2.2.2.2.2.2 h1.2.2.2.2.2.1 h1.2.2.2.2.2.2.1
    (by omega) h2.2.2.2.2.2.2.2 h2.2.2.2.2.2.1 h2.2.2.2.2.2.2.1 h
  simp only [Prod.mk.injEq]
  omega

/-- In the register-tile layout the canonical region of the output holds the
input elements at the tiled positions of the lower-triangle iterations. -/
theorem reorder_tile_region {α : Type} (m : Mode) (g : Geometry)
    (hm : m.MATRIX_ORDER = MatrixOrder.REGISTER_TILE_TRIANGULAR_ORDER)
    (hN4 : g.NSTATION % 4 = 0) (scratch : Nat → Complex α) (matrix : Nat → α) :
    (tileTuples g).val.map (fun t =>
        (⟨matrix (tileSrcT g t), matrix (tileSrcT g t + tileMatLength g)⟩ : Complex α))
      = (Multiset.range
          (g.NFREQUENCY * (g.NSTATION + 1) * (g.NSTATION / 2) * g.NPOL * g.NPOL)).map
        (complexAt (xgpuReorderMatrix m g scratch matrix)) := by
  have hN : g.NSTATION % 2 = 0 := by omega
  refine Multiset.map_eq_map_of_bij_of_nodup _ _ (tileTuples g).nodup (Multiset.nodup_range _)
    (fun t _ => tileDestT g t) ?_ ?_ ?_ ?_
  · rintro ⟨f, i, rx, j, ry, a, b⟩ ht
    rw [Finset.mem_val, mem_tileTuples] at ht
    rw [Multiset.mem_range]
    simp only [tileDestT, tileDest_eq_triIndex]
    exact triIndex_lt g hN ht.1 (by omega) ht.2.2.2.2.2.2.2 ht.2.2.2.2.2.1 ht.2.2.2.2.2.2.1
  · intro t1 h1 t2 h2 h
    exact tileDest_inj g hN t1 t2 (Finset.mem_val.mp h1) (Finset.mem_val.mp h2) h
  · intro idx hidx
    rw [Multiset.mem_range] at hidx
    obtain ⟨f, a, b, p1, p2, hf, ha, hb, hp1, hp2, e⟩ := triIndex_decode g hN idx hidx
    refine ⟨(f, a / 2, a % 2, b / 2, b % 2, p1, p2), ?_, ?_⟩
    · rw [Finset.mem_val, mem_tileTuples]
      omega
    · simp only [tileDestT, tileDest_eq_triIndex]
      rw [e, (by omega : 2 * (a / 2) + a % 2 = a), (by omega : 2 * (b / 2) + b % 2 = b)]
  · rintro ⟨f, i, rx, j, ry, a, b⟩ ht
    rw [Finset.mem_val, mem_tileTuples] at ht
    simp only [tileDestT, tileSrcT, tileDest_eq_triIndex]
    rw [reorder_tile_element m g hm hN4 scratch matrix f (2 * i + rx) (2 * j + ry) a b ht.1
      (by omega) ht.2.2.2.2.2.2.2 ht.2.2.2.2.2.1 ht.2.2.2.2.2.2.1]
    have e1 : (2 * i + rx) / 2 = i := by omega
    have e2 : (2 * i + rx) % 2 = rx := by omega
    have e3 : (2 * j + ry) / 2 = j := by omega
    have e4 : (2 * j + ry) % 2 = ry := by omega
    simp only [tiledIndex, tileSrc, e1, e2, e3, e4]
/-! ## C6: the register-tile layout is not a permutation of the buffer -/

theorem tile_scratch_leak (scratch : Nat → Complex Int) (matrix : Nat → Int) :
    xgpuReorderMatrix modeTile geom4 scratch matrix 20 = (scratch 10).real := by
  simp [xgpuReorderMatrix, modeTile, copyBack, tileLoops, forLoop, tileStep, setImag, setReal,
    geom4, tileMatLength]

/-- C6 (as stated, refuted): with 4 stations, 1 frequency and 1 polarization the
iterations `(f,i,rx,j,ry,pol1,pol2) = (0,0,0,0,1,0,0)` and `(0,0,1,0,0,0,0)`
write the same canonical index 1, so the index map is not one-to-one; and
whatever the scratch buffer holds, there is an input buffer (a constant one,
different from the real part of scratch element 10) for which the output
scalar 20 is a value the input does not hold, so the multiset of scalars
changes. -/
theorem reorder_tile_not_permutation :
    (¬ ∀ (g : Geometry), g.NSTATION % 4 = 0 → 0 < g.NSTATION → g.NPULSAR = 0 →
        ∀ f i rx j ry a b f2 i2 rx2 j2 ry2 a2 b2 : Nat,
          f < g.NFREQUENCY → i < g.NSTATION / 2 → rx < 2 → j ≤ i → ry < 2 → a < g.NPOL →
          b < g.NPOL →
          f2 < g.NFREQUENCY → i2 < g.NSTATION / 2 → rx2 < 2 → j2 ≤ i2 → ry2 < 2 → a2 < g.NPOL →
          b2 < g.NPOL →
          tileDest g f i rx j ry a b = tileDest g f2 i2 rx2 j2 ry2 a2 b2 →
          (f, i, rx, j, ry, a, b) = (f2, i2, rx2, j2, ry2, a2, b2)) ∧
    (∀ (scratch : Nat → Complex Int), ¬ ∀ (matrix : Nat → Int),
        (Multiset.range (2 * tileMatLength geom4)).map
            (xgpuReorderMatrix modeTile geom4 scratch matrix)
          = (Multiset.range (2 * tileMatLength geom4)).map matrix) := by
  constructor
  · intro h
    have h0 := h geom4 (by decide) (by decide) rfl 0 0 0 0 1 0 0 0 0 1 0 0 0 0
      (by decide) (by decide) (by decide) (by decide) (by decide) (by decide) (by decide)
      (by decide) (by decide) (by decide) (by decide) (by decide) (by decide) (by decide)
      (by decide)
    exact absurd h0 (by decide)
  · intro scratch h
    have h0 := h (fun _ => (scratch 10).real + 1)
    have h1 : (scratch 10).real ∈ (Multiset.range (2 * tileMatLength geom4)).map
        (xgpuReorderMatrix modeTile geom4 scratch (fun _ => (scratch 10).real + 1)) :=
      Multiset.mem_map.mpr ⟨20, Multiset.mem_range.mpr (by decide), tile_scratch_leak _ _⟩
    rw [h0] at h1
    obtain ⟨s, _, hs⟩ := Multiset.mem_map.mp h1
    simp at hs

/-- C6 (amended): in the register-tile layout, for every geometry with
`NSTATION` a multiple of 4 and every input buffer, the map from the iterations
`(f,i,rx,j,ry,pol1,pol2)` with `2j+ry ≤ 2i+rx` to the canonical destination
index is one-to-one, and the multiset of the elements held in the canonical
region `[0, NFREQUENCY*(NSTATION+1)*(NSTATION/2)*NPOL*NPOL)` of the buffer after
the call is the multiset of the input elements (scalar at `reg_index`, scalar at
`reg_index + matLength`) that those iterations read. -/
theorem reorder_tile_lower_triangle {α : Type} (m : Mode) (g : Geometry)
    (hm : m.MATRIX_ORDER = MatrixOrder.REGISTER_TILE_TRIANGULAR_ORDER)
    (hN4 : g.NSTATION % 4 = 0) (scratch : Nat → Complex α) (matrix : Nat → α) :
    (∀ t1 ∈ tileTuples g, ∀ t2 ∈ tileTuples g, tileDestT g t1 = tileDestT g t2 → t1 = t2) ∧
    (Multiset.range (g.NFREQUENCY * (g.NSTATION + 1) * (g.NSTATION / 2) * g.NPOL * g.NPOL)).map
        (complexAt (xgpuReorderMatrix m g scratch matrix))
      = (tileTuples g).val.map (fun t =>
        (⟨matrix (tileSrcT g t), matrix (tileSrcT g t + tileMatLength g)⟩ : Complex α)) :=
  ⟨fun t1 h1 t2 h2 h => tileDest_inj g (by omega) t1 t2 h1 h2 h,
    (reorder_tile_region m g hm hN4 scratch matrix).symm⟩

/-- C6 (amended), applied to the geometry with 4 stations, 1 frequency and
1 polarization on the buffer holding `s` at scalar offset `s`. -/
theorem reorder_tile_lower_triangle_witness :
    geom4.NSTATION % 4 = 0 ∧
    ((∀ t1 ∈ tileTuples geom4, ∀ t2 ∈ tileTuples geom4,
        tileDestT geom4 t1 = tileDestT geom4 t2 → t1 = t2) ∧
      (Multiset.range (geom4.NFREQUENCY * (geom4.NSTATION + 1) * (geom4.NSTATION / 2)
            * geom4.NPOL * geom4.NPOL)).map
          (complexAt (xgpuReorderMatrix modeTile geom4 zeroBuffer rampBuffer))
        = (tileTuples geom4).val.map (fun t =>
          (⟨rampBuffer (tileSrcT geom4 t), rampBuffer (tileSrcT geom4 t + tileMatLength geom4)⟩ :
            Complex Int))) :=
  ⟨by decide, reorder_tile_lower_triangle modeTile geom4 rfl (by decide) zeroBuffer rampBuffer⟩

/-! ## `xgpuCheckResult` -/

theorem cround_intCast {R : Type} [LinearOrderedField R] [FloorRing R] (n : Int) :
    cround (n : R) = (n : R) := by
  unfold cround
  split
  · congr 1
    rw [Int.floor_eq_iff]
    constructor <;> linarith
  · congr 1
    rw [Int.ceil_eq_iff]
    constructor <;> linarith

theorem cround_cround {R : Type} [LinearOrderedField R] [FloorRing R] (x : R) :
    cround (cround x) = cround x := by
  have h : ∃ n : Int, cround x = (n : R) := by
    unfold cround
    split
    · exact ⟨_, rfl⟩
    · exact ⟨_, rfl⟩
  obtain ⟨n, hn⟩ := h
  rw [hn, cround_intCast]

theorem preRound_preRound {R : Type} [LinearOrderedField R] [FloorRing R] (m : Mode)
    (z : Complex R) : preRound m (preRound m z) = preRound m z := by
  unfold preRound
  split
  · simp only [cround_cround]
  · rfl

theorem zabs_sub_comm {R : Type} [LinearOrderedField R] (sqrt : R → R) (a b c d : R) :
    zabs sqrt ⟨a - b, c - d⟩ = zabs sqrt ⟨b - a, d - c⟩ := by
  unfold zabs
  congr 1
  ring

theorem forLoop_succ {σ : Type} (n : Nat) (body : Nat → σ → σ) (s : σ) :
    forLoop (n + 1) body s = body n (forLoop n body s) := rfl

theorem forLoop_checkSpec {R : Type} [LinearOrderedField R] {T : Type}
    (Inv : CheckState R → Prop) (e : T → R) (n : Nat) (c : Nat → Nat) (B : Nat → T → Prop)
    (body : Nat → CheckState R → CheckState R)
    (h : ∀ i, i < n → CheckSpec Inv e (c i) (B i) (body i)) :
    CheckSpec Inv e (∑ i in Finset.range n, c i) (fun t => ∃ i, i < n ∧ B i t)
      (forLoop n body) := by
  induction n with
  | zero =>
    intro s hs
    refine ⟨hs, by simp [forLoop], le_refl _, ?_, Or.inl rfl⟩
    rintro t ⟨i, hi, _⟩
    exact absurd hi (Nat.not_lt_zero i)
  | succ n ih =>
    intro s hs
    obtain ⟨h1, h2, h3, h4, h5⟩ := ih (fun i hi => h i (Nat.lt_succ_of_lt hi)) s hs
    obtain ⟨k1, k2, k3, k4, k5⟩ := h n (Nat.lt_succ_self n) _ h1
    rw [forLoop_succ]
    refine ⟨k1, ?_, le_trans h3 k3, ?_, ?_⟩
    · rw [k2, h2, Finset.sum_range_succ, Nat.add_assoc]
    · rintro t ⟨i, hi, hB⟩
      rcases Nat.lt_succ_iff_lt_or_eq.mp hi with hlt | heq
      · exact le_trans (h4 t ⟨i, hlt, hB⟩) k3
      · subst heq
        exact k4 t hB
    · rcases k5 with k5 | ⟨t, hB, ht⟩
      · rcases h5 with h5 | ⟨t, ⟨i, hi, hB⟩, ht⟩
        · exact Or.inl (k5.trans h5)
        · exact Or.inr ⟨t, ⟨i, Nat.lt_succ_of_lt hi, hB⟩, k5.trans ht⟩
      · exact Or.inr ⟨t, ⟨n, Nat.lt_succ_self n, hB⟩, ht⟩

theorem checkStep_eq_tail {R : Type} [LinearOrderedField R] [FloorRing R] (m : Mode)
    (g : Geometry) (sqrt : R → R) (cpu : Nat → Complex R) (verbose : Int)
    (array_h : Option (Nat → ComplexInput)) (i j pol1 pol2 f : Nat) (s : CheckState R) :
    checkStep m g sqrt cpu verbose array_h i j pol1 pol2 f s
      = checkTail m g verbose array_h (checkGpu m (triIndex g f i j pol1 pol2) s.gpu)
          (elemError sqrt (checkGpu m (triIndex g f i j pol1 pol2) s.gpu (triIndex g f i j pol1 pol2))
            (cpu (triIndex g f i j pol1 pol2))) s := by
  unfold elemError
  rw [zabs_sub_comm]
  rfl

theorem checkGpu_index {R : Type} [LinearOrderedField R] [FloorRing R] (m : Mode)
    (gpu0 : Nat → Complex R) (s : CheckState R) (hs : CheckInv m gpu0 s) (index : Nat) :
    checkGpu m index s.gpu index = preRound m (gpu0 index) := by
  have h1 : checkGpu m index s.gpu index = preRound m (s.gpu index) := by
    unfold checkGpu preRound
    split <;> simp [setImag, setReal]
  rw [h1]
  rcases hs index with h | h
  · rw [h]
  · rw [h, preRound_preRound]

theorem checkGpu_inv {R : Type} [LinearOrderedField R] [FloorRing R] (m : Mode)
    (gpu0 : Nat → Complex R) (s : CheckState R) (hs : CheckInv m gpu0 s) (index x : Nat) :
    checkGpu m index s.gpu x = gpu0 x ∨ checkGpu m index s.gpu x = preRound m (gpu0 x) := by
  by_cases hx : x = index
  · subst hx
    exact Or.inr (checkGpu_index m gpu0 s hs x)
  · have h1 : checkGpu m index s.gpu x = s.gpu x := by
      unfold checkGpu
      split <;> simp [setImag, setReal, hx]
    rw [h1]
    exact hs x

theorem checkStep_spec {R : Type} [LinearOrderedField R] [FloorRing R] (m : Mode) (g : Geometry)
    (sqrt : R → R) (gpu0 cpu : Nat → Complex R) (verbose : Int)
    (array_h : Option (Nat → ComplexInput)) (i j pol1 pol2 f : Nat) :
    CheckSpec (CheckInv m gpu0) (tupleError m g sqrt gpu0 cpu)
      (if TOL m < tupleError m g sqrt gpu0 cpu (i, j, pol1, pol2, f) then 1 else 0)
      (fun t => t = (i, j, pol1, pol2, f))
      (checkStep m g sqrt cpu verbose array_h i j pol1 pol2 f) := by
  intro s hs
  have he : elemError sqrt (checkGpu m (triIndex g f i j pol1 pol2) s.gpu (triIndex g f i j pol1 pol2))
      (cpu (triIndex g f i j pol1 pol2)) = tupleError m g sqrt gpu0 cpu (i, j, pol1, pol2, f) := by
    rw [checkGpu_index m gpu0 s hs]
    rfl
  rw [checkStep_eq_tail, he]
  have hinv := checkGpu_inv m gpu0 s hs (triIndex g f i j pol1 pol2)
  generalize checkGpu m (triIndex g f i j pol1 pol2) s.gpu = gpu1 at hinv
  have hmax : s.maxError ≤ (if s.maxError < tupleError m g sqrt gpu0 cpu (i, j, pol1, pol2, f)
      then tupleError m g sqrt gpu0 cpu (i, j, pol1, pol2, f) else s.maxError) := by
    split
    · exact le_of_lt (by assumption)
    · exact le_refl _
  have hle : tupleError m g sqrt gpu0 cpu (i, j, pol1, pol2, f)
      ≤ (if s.maxError < tupleError m g sqrt gpu0 cpu (i, j, pol1, pol2, f)
      then tupleError m g sqrt gpu0 cpu (i, j, pol1, pol2, f) else s.maxError) := by
    split
    · exact le_refl _
    · exact not_lt.mp (by assumption)
  have hor : (if s.maxError < tupleError m g sqrt gpu0 cpu (i, j, pol1, pol2, f)
      then tupleError m g sqrt gpu0 cpu (i, j, pol1, pol2, f) else s.maxError) = s.maxError ∨
      ∃ t, t = (i, j, pol1, pol2, f) ∧
        (if s.maxError < tupleError m g sqrt gpu0 cpu (i, j, pol1, pol2, f)
          then tupleError m g sqrt gpu0 cpu (i, j, pol1, pol2, f) else s.maxError)
        = tupleError m g sqrt gpu0 cpu t := by
    split
    · exact Or.inr ⟨_, rfl, rfl⟩
    · exact Or.inl rfl
  unfold checkTail
  simp only [gt_iff_lt]
  by_cases htol : TOL m < tupleError m g sqrt gpu0 cpu (i, j, pol1, pol2, f)
  · rw [if_pos htol, if_pos htol]
    exact ⟨hinv, rfl, hmax, fun t ht => ht ▸ hle, hor⟩
  · rw [if_neg htol, if_neg htol]
    exact ⟨hinv, rfl, hmax, fun t ht => ht ▸ hle, hor⟩
theorem mem_checkTuples (g : Geometry) (t : Nat × Nat × Nat × Nat × Nat) :
    t ∈ checkTuples g ↔
      ∃ i, i < g.NSTATION ∧ ∃ j, j < i + 1 ∧ ∃ p1, p1 < g.NPOL ∧ ∃ p2, p2 < g.NPOL ∧
        ∃ f, f < g.NFREQUENCY ∧ t = (i, j, p1, p2, f) := by
  obtain ⟨i, j, p1, p2, f⟩ := t
  simp only [checkTuples, Finset.mem_filter, Finset.mem_product, Finset.mem_range,
    Prod.mk.injEq]
  constructor
  · rintro ⟨⟨hi, hj, hp1, hp2, hf⟩, hji⟩
    exact ⟨i, hi, j, Nat.lt_succ_of_le hji, p1, hp1, p2, hp2, f, hf, rfl, rfl, rfl, rfl, rfl⟩
  · rintro ⟨i2, hi, j2, hj, a, hp1, b, hp2, f2, hf, rfl, rfl, rfl, rfl, rfl⟩
    exact ⟨⟨hi, by omega, hp1, hp2, hf⟩, Nat.le_of_lt_succ hj⟩

theorem card_checkTuples_filter (g : Geometry) (bad : Nat × Nat × Nat × Nat × Nat → Prop)
    [DecidablePred bad] :
    ((checkTuples g).filter bad).card
      = ∑ i in Finset.range g.NSTATION, ∑ j in Finset.range (i + 1),
          ∑ p1 in Finset.range g.NPOL, ∑ p2 in Finset.range g.NPOL,
            ∑ f in Finset.range g.NFREQUENCY, if bad (i, j, p1, p2, f) then 1 else 0 := by
  rw [Finset.card_filter, checkTuples, Finset.sum_filter, Finset.sum_product]
  refine Finset.sum_congr rfl (fun i hi => ?_)
  rw [Finset.mem_range] at hi
  rw [Finset.sum_product]
  have hsub : Finset.range (i + 1) ⊆ Finset.range g.NSTATION := by
    intro j hj
    rw [Finset.mem_range] at hj ⊢
    omega
  rw [← Finset.sum_subset hsub]
  · refine Finset.sum_congr rfl (fun j hj => ?_)
    rw [Finset.mem_range] at hj
    have hji : j ≤ i := Nat.le_of_lt_succ hj
    rw [Finset.sum_product]
    refine Finset.sum_congr rfl (fun p1 _ => ?_)
    rw [Finset.sum_product]
    refine Finset.sum_congr rfl (fun p2 _ => ?_)
    refine Finset.sum_congr rfl (fun f _ => ?_)
    simp only [hji, if_true]
  · intro j _ hj
    rw [Finset.mem_range] at hj
    have hji : ¬ j ≤ i := by omega
    refine Finset.sum_eq_zero (fun x _ => ?_)
    simp only [hji, if_false]

/-- What `xgpuCheckResult` computes over an ordered field, for every mode and
geometry: `errorCount` is the number of tuples whose error exceeds `TOL`, `maxError` is
non-negative, bounds the error of every tuple and is `0` or the error of some
tuple, and every computed element is left as it was or pre-processed. -/
theorem checkResult_spec {R : Type} [LinearOrderedField R] [FloorRing R] (m : Mode)
    (g : Geometry) (sqrt : R → R) (gpu cpu : Nat → Complex R) (verbose : Int)
    (array_h : Option (Nat → ComplexInput)) :
    (xgpuCheckResult m g sqrt gpu cpu verbose array_h).errorCount
        = ((checkTuples g).filter
            (fun t => TOL m < tupleError m g sqrt gpu cpu t)).card ∧
      0 ≤ (xgpuCheckResult m g sqrt gpu cpu verbose array_h).maxError ∧
      (∀ t ∈ checkTuples g,
        tupleError m g sqrt gpu cpu t
          ≤ (xgpuCheckResult m g sqrt gpu cpu verbose array_h).maxError) ∧
      ((xgpuCheckResult m g sqrt gpu cpu verbose array_h).maxError = 0 ∨
        ∃ t ∈ checkTuples g,
          (xgpuCheckResult m g sqrt gpu cpu verbose array_h).maxError
            = tupleError m g sqrt gpu cpu t) ∧
      (∀ x, (xgpuCheckResult m g sqrt gpu cpu verbose array_h).gpu x = gpu x ∨
        (xgpuCheckResult m g sqrt gpu cpu verbose array_h).gpu x = preRound m (gpu x)) := by
  have hspec := forLoop_checkSpec (CheckInv m gpu) (tupleError m g sqrt gpu cpu) g.NSTATION _ _ _
    (fun i _ => forLoop_checkSpec (CheckInv m gpu) (tupleError m g sqrt gpu cpu) (i + 1) _ _ _
      (fun j _ => forLoop_checkSpec (CheckInv m gpu) (tupleError m g sqrt gpu cpu) g.NPOL _ _ _
        (fun p1 _ => forLoop_checkSpec (CheckInv m gpu) (tupleError m g sqrt gpu cpu) g.NPOL _ _ _
          (fun p2 _ => forLoop_checkSpec (CheckInv m gpu) (tupleError m g sqrt gpu cpu)
            g.NFREQUENCY _ _ _
            (fun f _ => checkStep_spec m g sqrt gpu cpu verbose array_h i j p1 p2 f)))))
  obtain ⟨h1, h2, h3, h4, h5⟩ := hspec ⟨gpu, 0, 0, 1⟩ (fun x => Or.inl rfl)
  refine ⟨?_, h3, ?_, ?_, h1⟩
  · rw [card_checkTuples_filter]
    simpa using h2
  · intro t ht
    exact h4 t ((mem_checkTuples g t).mp ht)
  · rcases h5 with h5 | ⟨t, ht, he⟩
    · exact Or.inl h5
    · exact Or.inr ⟨t, (mem_checkTuples g t).mpr ht, he⟩

theorem cround_two_fifths : cround (2 / 5 : ℝ) = 0 := by
  unfold cround
  rw [if_pos (by norm_num)]
  have : ⌊(2 / 5 : ℝ) + 1 / 2⌋ = 0 := by
    rw [Int.floor_eq_iff]
    constructor <;> norm_num
  rw [this]
  norm_num

theorem cround_zero : cround (0 : ℝ) = 0 := by
  have := cround_intCast (R := ℝ) 0
  simpa using this

/-! ## C10: a matrix validated against itself -/

theorem elemError_self (z : Complex ℝ) : elemError Real.sqrt z z = 0 := by
  unfold elemError
  split
  · assumption
  · simp [zabs]

theorem TOL_pos (m : Mode) : (0 : ℝ) < TOL m := by
  unfold TOL
  split <;> norm_num

/-- C10: for every geometry and every matrix `M`, `xgpuCheckResult` with
computed and reference both equal to `M`, at every verbosity level and with or
without raw samples, yields `errorCount = 0` and `maxError = 0` (over the
reals), in every mode in which the rounding is compiled out (floating mode
among them), and in fixed-point mode without extended accumulation whenever
the components of `M` are all integers. -/
theorem check_self_zero (m : Mode) (g : Geometry) (M : Nat → Complex ℝ) (verbose : Int)
    (array_h : Option (Nat → ComplexInput))
    (h : m.FIXED_POINT = true ∧ m.DP4A = false →
      ∀ idx, (∃ n : Int, (M idx).real = n) ∧ (∃ n : Int, (M idx).imag = n)) :
    (xgpuCheckResult m g Real.sqrt M M verbose array_h).errorCount = 0 ∧
      (xgpuCheckResult m g Real.sqrt M M verbose array_h).maxError = 0 := by
  have hpre : ∀ idx, preRound m (M idx) = M idx := by
    intro idx
    unfold preRound
    split
    · obtain ⟨⟨a, ha⟩, ⟨b, hb⟩⟩ := h (by assumption) idx
      rw [ha, hb, cround_intCast, cround_intCast, ← ha, ← hb]
    · rfl
  have herr : ∀ t, tupleError m g Real.sqrt M M t = 0 := by
    intro t
    unfold tupleError
    rw [hpre, elemError_self]
  obtain ⟨hc, _, _, hor, _⟩ := checkResult_spec m g Real.sqrt M M verbose array_h
  constructor
  · rw [hc, Finset.card_eq_zero, Finset.filter_eq_empty_iff]
    intro t _
    rw [herr]
    exact not_lt.mpr (le_of_lt (TOL_pos m))
  · rcases hor with h1 | ⟨t, _, h1⟩
    · exact h1
    · rw [h1, herr]

/-- C10, applied in fixed-point mode without extended accumulation to the
matrix whose elements all are `3+4i` (integer components), at verbosity 2 with
raw samples supplied. -/
theorem check_self_zero_witness :
    (xgpuCheckResult modeFixed geom2 Real.sqrt (fun _ => (⟨3, 4⟩ : Complex ℝ))
        (fun _ => (⟨3, 4⟩ : Complex ℝ)) 2 (some (fun _ => ⟨0, 0⟩))).errorCount = 0 ∧
      (xgpuCheckResult modeFixed geom2 Real.sqrt (fun _ => (⟨3, 4⟩ : Complex ℝ))
        (fun _ => (⟨3, 4⟩ : Complex ℝ)) 2 (some (fun _ => ⟨0, 0⟩))).maxError = 0 :=
  check_self_zero modeFixed geom2 (fun _ => ⟨3, 4⟩) 2 (some (fun _ => ⟨0, 0⟩))
    (fun _ _ => ⟨⟨3, by norm_num⟩, ⟨4, by norm_num⟩⟩)

/-! ## C15: the diagonal of the expanded matrix -/

/-- C15: for every packed matrix, frequency `f`, station `i` and polarization
`p`, the dense element written by `xgpuExtractMatrix` at the diagonal position
`(f,i,i,p,p)` has the real part of the packed element and the negation of its
imaginary part, whatever that imaginary part is. -/
theorem extract_diagonal_negated {α : Type} [Neg α] (g : Geometry)
    (matrix packed : Nat → Complex α) (f i p : Nat)
    (hf : f < g.NFREQUENCY) (hi : i < g.NSTATION) (hp : p < g.NPOL) :
    (xgpuExtractMatrix g matrix packed (denseIndex g f i i p p)).real
        = (packed (triIndex g f i i p p)).real ∧
      (xgpuExtractMatrix g matrix packed (denseIndex g f i i p p)).imag
        = -(packed (triIndex g f i i p p)).imag := by
  rw [extract_diag_le g matrix packed f i p p hf hi hp hp (Nat.le_refl p)]
  exact ⟨rfl, rfl⟩

/-- C15, applied to the packed matrix of elements `1+1i` (2 stations,
1 frequency, 1 polarization) at the diagonal position `(0,1,1,0,0)`, where the
dense element is `1-1i`. -/
theorem extract_diagonal_negated_witness :
    ((xgpuExtractMatrix geom2 zeroBuffer packedOnePlusI (denseIndex geom2 0 1 1 0 0)).real
        = (packedOnePlusI (triIndex geom2 0 1 1 0 0)).real ∧
      (xgpuExtractMatrix geom2 zeroBuffer packedOnePlusI (denseIndex geom2 0 1 1 0 0)).imag
        = -(packedOnePlusI (triIndex geom2 0 1 1 0 0)).imag) ∧
    xgpuExtractMatrix geom2 zeroBuffer packedOnePlusI (denseIndex geom2 0 1 1 0 0) = ⟨1, -1⟩ :=
  ⟨extract_diagonal_negated geom2 zeroBuffer packedOnePlusI 0 1 0 (by decide) (by decide)
    (by decide), by decide⟩

/-! ## C18: the expansion assigns the whole dense buffer -/

theorem denseIndex_lt (g : Geometry) {f i j a b : Nat}
    (hf : f < g.NFREQUENCY) (hi : i < g.NSTATION) (hj : j < g.NSTATION) (ha : a < g.NPOL)
    (hb : b < g.NPOL) :
    denseIndex g f i j a b < g.NFREQUENCY * g.NSTATION * g.NSTATION * g.NPOL * g.NPOL := by
  unfold denseIndex
  exact radix_lt (radix_lt (radix_lt (radix_lt hf hi) hj) ha) hb

theorem radix_decode {n A x : Nat} (h : x < A * n) : ∃ q r, q < A ∧ r < n ∧ x = q * n + r := by
  have hn : 0 < n := by
    rcases Nat.eq_zero_or_pos n with h0 | h0
    · rw [h0] at h; simp at h
    · exact h0
  exact ⟨x / n, x % n, Nat.div_lt_of_lt_mul (by rw [Nat.mul_comm]; exact h), Nat.mod_lt _ hn,
    (Nat.div_add_mod' x n).symm⟩

theorem denseIndex_decode (g : Geometry) (x : Nat)
    (h : x < g.NFREQUENCY * g.NSTATION * g.NSTATION * g.NPOL * g.NPOL) :
    ∃ f i j a b, f < g.NFREQUENCY ∧ i < g.NSTATION ∧ j < g.NSTATION ∧ a < g.NPOL ∧ b < g.NPOL ∧
      x = denseIndex g f i j a b := by
  obtain ⟨q1, b, h1, hb, e1⟩ := radix_decode h
  obtain ⟨q2, a, h2, ha, e2⟩ := radix_decode h1
  obtain ⟨q3, j, h3, hj, e3⟩ := radix_decode h2
  obtain ⟨f, i, hf, hi, e4⟩ := radix_decode h3
  refine ⟨f, i, j, a, b, hf, hi, hj, ha, hb, ?_⟩
  unfold denseIndex
  rw [← e4, ← e3, ← e2, ← e1]

theorem extract_independent {α : Type} [Neg α] (g : Geometry)
    (matrix1 matrix2 packed : Nat → Complex α) (x : Nat)
    (h : x < g.NFREQUENCY * g.NSTATION * g.NSTATION * g.NPOL * g.NPOL) :
    xgpuExtractMatrix g matrix1 packed x = xgpuExtractMatrix g matrix2 packed x := by
  obtain ⟨f, i, j, a, b, hf, hi, hj, ha, hb, e⟩ := denseIndex_decode g x h
  subst e
  rcases Nat.lt_trichotomy i j with hlt | heq | hgt
  · rw [extract_upper g matrix1 packed f j i b a hf hj hlt hb ha,
      extract_upper g matrix2 packed f j i b a hf hj hlt hb ha]
  · subst heq
    by_cases hab : a ≤ b
    · rw [extract_diag_le g matrix1 packed f i a b hf hi ha hb hab,
        extract_diag_le g matrix2 packed f i a b hf hi ha hb hab]
    · rw [extract_diag_gt g matrix1 packed f i a b hf hi ha hb (Nat.lt_of_not_le hab),
        extract_diag_gt g matrix2 packed f i a b hf hi ha hb (Nat.lt_of_not_le hab)]
  · rw [extract_lower g matrix1 packed f i j a b hf hi hgt ha hb,
      extract_lower g matrix2 packed f i j a b hf hi hgt ha hb]

/-- C18: for every geometry (with even `NSTATION` in particular) and every
packed matrix: the dense offsets `(((f*NSTATION+i)*NSTATION+j)*NPOL+pol1)*NPOL+pol2`
of the valid tuples are below `NFREQUENCY*NSTATION*NSTATION*NPOL*NPOL` and distinct
for distinct tuples, every offset below that bound is the offset of a valid
tuple, and the dense element left there by `xgpuExtractMatrix` is the same
whatever the dense buffer held before: each of these elements is assigned, and
the result is a function of the packed matrix alone. -/
theorem extract_assigns_all {α : Type} [Neg α] (g : Geometry) (packed : Nat → Complex α) :
    (∀ f i j a b : Nat, f < g.NFREQUENCY → i < g.NSTATION → j < g.NSTATION → a < g.NPOL →
      b < g.NPOL →
      denseIndex g f i j a b < g.NFREQUENCY * g.NSTATION * g.NSTATION * g.NPOL * g.NPOL) ∧
    (∀ f i j a b f2 i2 j2 a2 b2 : Nat, i < g.NSTATION → j < g.NSTATION → a < g.NPOL →
      b < g.NPOL → i2 < g.NSTATION → j2 < g.NSTATION → a2 < g.NPOL → b2 < g.NPOL →
      denseIndex g f i j a b = denseIndex g f2 i2 j2 a2 b2 →
      f = f2 ∧ i = i2 ∧ j = j2 ∧ a = a2 ∧ b = b2) ∧
    (∀ x, x < g.NFREQUENCY * g.NSTATION * g.NSTATION * g.NPOL * g.NPOL →
      (∃ f i j a b, f < g.NFREQUENCY ∧ i < g.NSTATION ∧ j < g.NSTATION ∧ a < g.NPOL ∧
        b < g.NPOL ∧ x = denseIndex g f i j a b) ∧
      ∀ matrix1 matrix2 : Nat → Complex α,
        xgpuExtractMatrix g matrix1 packed x = xgpuExtractMatrix g matrix2 packed x) :=
  ⟨fun _ _ _ _ _ hf hi hj ha hb => denseIndex_lt g hf hi hj ha hb,
    fun _ _ _ _ _ _ _ _ _ _ hi hj ha hb hi2 hj2 ha2 hb2 h =>
      denseIndex_inj g hi hj ha hb hi2 hj2 ha2 hb2 h,
    fun x hx => ⟨denseIndex_decode g x hx,
      fun matrix1 matrix2 => extract_independent g matrix1 matrix2 packed x hx⟩⟩

/-! ## `xgpuSwizzleInput` -/

/-- Single-writer rule for a rectangular nest of five loops: the value at
offset `x` after the nest is the one set by an iteration when every other
iteration leaves `x` alone. -/
theorem rect5_unique {β : Type} (A B C D E : Nat)
    (step : Nat → Nat → Nat → Nat → Nat → (Nat → β) → (Nat → β))
    (x : Nat) (v : β) (t f s p c : Nat)
    (ht : t < A) (hf : f < B) (hs : s < C) (hp : p < D) (hc : c < E)
    (hset : Sets (step t f s p c) x v)
    (hother : ∀ t2 f2 s2 p2 c2, t2 < A → f2 < B → s2 < C → p2 < D → c2 < E →
      ¬ (t2 = t ∧ f2 = f ∧ s2 = s ∧ p2 = p ∧ c2 = c) → Keeps (step t2 f2 s2 p2 c2) x) :
    Sets (forLoop A (fun t => forLoop B (fun f => forLoop C (fun s =>
      forLoop D (fun p => forLoop E (fun c => step t f s p c)))))) x v := by
  refine sets_forLoop _ _ x v t ht ?_ ?_
  · refine sets_forLoop _ _ x v f hf ?_ ?_
    · refine sets_forLoop _ _ x v s hs ?_ ?_
      · refine sets_forLoop _ _ x v p hp ?_ ?_
        · refine sets_forLoop _ _ x v c hc hset ?_
          intro c2 h1 h2
          exact hother t f s p c2 ht hf hs hp h2 (by omega)
        · intro p2 h1 h2
          refine keeps_forLoop _ _ x (fun c2 hc2 => ?_)
          exact hother t f s p2 c2 ht hf hs h2 hc2 (by omega)
      · intro s2 h1 h2
        refine keeps_forLoop _ _ x (fun p2 hp2 => keeps_forLoop _ _ x (fun c2 hc2 => ?_))
        exact hother t f s2 p2 c2 ht hf h2 hp2 hc2 (by omega)
    · intro f2 h1 h2
      refine keeps_forLoop _ _ x (fun s2 hs2 =>
        keeps_forLoop _ _ x (fun p2 hp2 => keeps_forLoop _ _ x (fun c2 hc2 => ?_)))
      exact hother t f2 s2 p2 c2 ht h2 hs2 hp2 hc2 (by omega)
  · intro t2 h1 h2
    refine keeps_forLoop _ _ x (fun f2 hf2 => keeps_forLoop _ _ x (fun s2 hs2 =>
        keeps_forLoop _ _ x (fun p2 hp2 => keeps_forLoop _ _ x (fun c2 hc2 => ?_))))
    exact hother t2 f2 s2 p2 c2 h2 hf2 hs2 hp2 hc2 (by omega)

theorem swizzleStep_keeps {α : Type} (g : Geometry) (inp : Nat → α) (t f s p c x : Nat)
    (h : x ≠ swizzleDest g t f s p c) : Keeps (swizzleStep g inp t f s p c) x := by
  intro o
  unfold swizzleDest at h
  simp [swizzleStep, write, h]

theorem swizzleStep_sets {α : Type} (g : Geometry) (inp : Nat → α) (t f s p c : Nat) :
    Sets (swizzleStep g inp t f s p c) (swizzleDest g t f s p c)
      (inp (swizzleSrc g t f s p c)) := by
  intro o
  simp [swizzleStep, write, swizzleDest, swizzleSrc]

theorem swizzleDest_inj (g : Geometry) {t f s p c t2 f2 s2 p2 c2 : Nat}
    (hf : f < g.NFREQUENCY) (hs : s < g.NSTATION) (hp : p < g.NPOL) (hc : c < 2)
    (hf2 : f2 < g.NFREQUENCY) (hs2 : s2 < g.NSTATION) (hp2 : p2 < g.NPOL) (hc2 : c2 < 2)
    (h : swizzleDest g t f s p c = swizzleDest g t2 f2 s2 p2 c2) :
    t = t2 ∧ f = f2 ∧ s = s2 ∧ p = p2 ∧ c = c2 := by
  unfold swizzleDest at h
  obtain ⟨h1, e1⟩ := radix_inj (Nat.mod_lt t (by decide)) (Nat.mod_lt t2 (by decide)) h
  obtain ⟨h2, e2⟩ := radix_inj hc hc2 h1
  obtain ⟨h3, e3⟩ := radix_inj hp hp2 h2
  obtain ⟨h4, e4⟩ := radix_inj hs hs2 h3
  obtain ⟨e6, e5⟩ := radix_inj hf hf2 h4
  exact ⟨by omega, e5, e4, e3, e2⟩

theorem swizzleDest_lt (g : Geometry) (h4 : g.NTIME_PIPE % 4 = 0) {t f s p c : Nat}
    (ht : t < g.NTIME_PIPE) (hf : f < g.NFREQUENCY) (hs : s < g.NSTATION) (hp : p < g.NPOL)
    (hc : c < 2) :
    swizzleDest g t f s p c < g.NTIME_PIPE * g.NFREQUENCY * g.NSTATION * g.NPOL * 2 := by
  have hq : t / 4 < g.NTIME_PIPE / 4 := by omega
  have h1 : swizzleDest g t f s p c
      < g.NTIME_PIPE / 4 * g.NFREQUENCY * g.NSTATION * g.NPOL * 2 * 4 := by
    unfold swizzleDest
    exact radix_lt (radix_lt (radix_lt (radix_lt (radix_lt hq hf) hs) hp) hc)
      (Nat.mod_lt t (by decide))
  have e : g.NTIME_PIPE / 4 * g.NFREQUENCY * g.NSTATION * g.NPOL * 2 * 4
      = (g.NTIME_PIPE / 4 * 4) * g.NFREQUENCY * g.NSTATION * g.NPOL * 2 := by ring
  have e2 : g.NTIME_PIPE / 4 * 4 = g.NTIME_PIPE := by omega
  rw [e, e2] at h1
  exact h1

theorem swizzleDest_decode (g : Geometry) (h4 : g.NTIME_PIPE % 4 = 0) (x : Nat)
    (h : x < g.NTIME_PIPE * g.NFREQUENCY * g.NSTATION * g.NPOL * 2) :
    ∃ t f s p c, t < g.NTIME_PIPE ∧ f < g.NFREQUENCY ∧ s < g.NSTATION ∧ p < g.NPOL ∧ c < 2 ∧
      x = swizzleDest g t f s p c := by
  have e : g.NTIME_PIPE * g.NFREQUENCY * g.NSTATION * g.NPOL * 2
      = g.NTIME_PIPE / 4 * g.NFREQUENCY * g.NSTATION * g.NPOL * 2 * 4 := by
    have e2 : g.NTIME_PIPE = g.NTIME_PIPE / 4 * 4 := by omega
    conv_lhs => rw [e2]
    ring
  rw [e] at h
  obtain ⟨q1, r, h1, hr, e1⟩ := radix_decode h
  obtain ⟨q2, c, h2, hc, e2⟩ := radix_decode h1
  obtain ⟨q3, p, h3, hp, e3⟩ := radix_decode h2
  obtain ⟨q4, s, h5, hs, e4⟩ := radix_decode h3
  obtain ⟨q, f, hq, hf, e5⟩ := radix_decode h5
  refine ⟨4 * q + r, f, s, p, c, by omega, hf, hs, hp, hc, ?_⟩
  unfold swizzleDest
  rw [(by omega : (4 * q + r) / 4 = q), (by omega : (4 * q + r) % 4 = r), ← e5, ← e4, ← e3,
    ← e2, ← e1]

theorem swizzleSrc_inj (g : Geometry) {t f s p c t2 f2 s2 p2 c2 : Nat}
    (hf : f < g.NFREQUENCY) (hs : s < g.NSTATION) (hp : p < g.NPOL) (hc : c < 2)
    (hf2 : f2 < g.NFREQUENCY) (hs2 : s2 < g.NSTATION) (hp2 : p2 < g.NPOL) (hc2 : c2 < 2)
    (h : swizzleSrc g t f s p c = swizzleSrc g t2 f2 s2 p2 c2) :
    t = t2 ∧ f = f2 ∧ s = s2 ∧ p = p2 ∧ c = c2 := by
  unfold swizzleSrc at h
  obtain ⟨h2, e2⟩ := radix_inj hc hc2 h
  obtain ⟨h3, e3⟩ := radix_inj hp hp2 h2
  obtain ⟨h4, e4⟩ := radix_inj hs hs2 h3
  obtain ⟨e6, e5⟩ := radix_inj hf hf2 h4
  exact ⟨e6, e5, e4, e3, e2⟩

theorem swizzleSrc_lt (g : Geometry) {t f s p c : Nat}
    (ht : t < g.NTIME_PIPE) (hf : f < g.NFREQUENCY) (hs : s < g.NSTATION) (hp : p < g.NPOL)
    (hc : c < 2) :
    swizzleSrc g t f s p c < g.NTIME_PIPE * g.NFREQUENCY * g.NSTATION * g.NPOL * 2 := by
  unfold swizzleSrc
  exact radix_lt (radix_lt (radix_lt (radix_lt ht hf) hs) hp) hc

theorem swizzleSrc_decode (g : Geometry) (x : Nat)
    (h : x < g.NTIME_PIPE * g.NFREQUENCY * g.NSTATION * g.NPOL * 2) :
    ∃ t f s p c, t < g.NTIME_PIPE ∧ f < g.NFREQUENCY ∧ s < g.NSTATION ∧ p < g.NPOL ∧ c < 2 ∧
      x = swizzleSrc g t f s p c := by
  obtain ⟨q2, c, h2, hc, e2⟩ := radix_decode h
  obtain ⟨q3, p, h3, hp, e3⟩ := radix_decode h2
  obtain ⟨q4, s, h5, hs, e4⟩ := radix_decode h3
  obtain ⟨t, f, ht, hf, e5⟩ := radix_decode h5
  refine ⟨t, f, s, p, c, ht, hf, hs, hp, hc, ?_⟩
  unfold swizzleSrc
  rw [← e5, ← e4, ← e3, ← e2]

theorem swizzle_value {α : Type} (g : Geometry) (out inp : Nat → α) (t f s p c : Nat)
    (ht : t < g.NTIME_PIPE) (hf : f < g.NFREQUENCY) (hs : s < g.NSTATION) (hp : p < g.NPOL)
    (hc : c < 2) :
    xgpuSwizzleInput g out inp (swizzleDest g t f s p c) = inp (swizzleSrc g t f s p c) := by
  refine rect5_unique g.NTIME_PIPE g.NFREQUENCY g.NSTATION g.NPOL 2 (swizzleStep g inp) _ _
    t f s p c ht hf hs hp hc (swizzleStep_sets g inp t f s p c) ?_ out
  intro t2 f2 s2 p2 c2 _ hf2 hs2 hp2 hc2 hne
  refine swizzleStep_keeps g inp t2 f2 s2 p2 c2 _ (fun h => hne ?_)
  have := swizzleDest_inj g hf hs hp hc hf2 hs2 hp2 hc2 h
  omega

theorem mem_swizzleTuples (g : Geometry) (t f s p c : Nat) :
    (t, f, s, p, c) ∈ swizzleTuples g ↔
      t < g.NTIME_PIPE ∧ f < g.NFREQUENCY ∧ s < g.NSTATION ∧ p < g.NPOL ∧ c < 2 := by
  simp only [swizzleTuples, Finset.mem_product, Finset.mem_range]

theorem swizzle_multiset {α : Type} (g : Geometry) (h4 : g.NTIME_PIPE % 4 = 0)
    (out inp : Nat → α) :
    (Multiset.range (g.NTIME_PIPE * g.NFREQUENCY * g.NSTATION * g.NPOL * 2)).map
        (xgpuSwizzleInput g out inp)
      = (Multiset.range (g.NTIME_PIPE * g.NFREQUENCY * g.NSTATION * g.NPOL * 2)).map inp := by
  have hsrc : (swizzleTuples g).val.map
        (fun τ => inp (swizzleSrc g τ.1 τ.2.1 τ.2.2.1 τ.2.2.2.1 τ.2.2.2.2))
      = (Multiset.range (g.NTIME_PIPE * g.NFREQUENCY * g.NSTATION * g.NPOL * 2)).map inp := by
    refine Multiset.map_eq_map_of_bij_of_nodup _ _ (swizzleTuples g).nodup
      (Multiset.nodup_range _) (fun τ _ => swizzleSrc g τ.1 τ.2.1 τ.2.2.1 τ.2.2.2.1 τ.2.2.2.2)
      ?_ ?_ ?_ ?_
    · rintro ⟨t, f, s, p, c⟩ hτ
      rw [Finset.mem_val, mem_swizzleTuples] at hτ
      rw [Multiset.mem_range]
      exact swizzleSrc_lt g hτ.1 hτ.2.1 hτ.2.2.1 hτ.2.2.2.1 hτ.2.2.2.2
    · rintro ⟨t, f, s, p, c⟩ h1 ⟨t2, f2, s2, p2, c2⟩ h2 h
      rw [Finset.mem_val, mem_swizzleTuples] at h1 h2
      have := swizzleSrc_inj g h1.2.1 h1.2.2.1 h1.2.2.2.1 h1.2.2.2.2 h2.2.1 h2.2.2.1 h2.2.2.2.1
        h2.2.2.2.2 h
      simp only [Prod.mk.injEq]
      exact this
    · intro x hx
      rw [Multiset.mem_range] at hx
      obtain ⟨t, f, s, p, c, ht, hf, hs, hp, hc, e⟩ := swizzleSrc_decode g x hx
      exact ⟨(t, f, s, p, c), by rw [Finset.mem_val, mem_swizzleTuples]; exact ⟨ht, hf, hs, hp, hc⟩,
        e.symm⟩
    · intro τ _
      rfl
  have hdst : (swizzleTuples g).val.map
        (fun τ => inp (swizzleSrc g τ.1 τ.2.1 τ.2.2.1 τ.2.2.2.1 τ.2.2.2.2))
      = (Multiset.range (g.NTIME_PIPE * g.NFREQUENCY * g.NSTATION * g.NPOL * 2)).map
        (xgpuSwizzleInput g out inp) := by
    refine Multiset.map_eq_map_of_bij_of_nodup _ _ (swizzleTuples g).nodup
      (Multiset.nodup_range _) (fun τ _ => swizzleDest g τ.1 τ.2.1 τ.2.2.1 τ.2.2.2.1 τ.2.2.2.2)
      ?_ ?_ ?_ ?_
    · rintro ⟨t, f, s, p, c⟩ hτ
      rw [Finset.mem_val, mem_swizzleTuples] at hτ
      rw [Multiset.mem_range]
      exact swizzleDest_lt g h4 hτ.1 hτ.2.1 hτ.2.2.1 hτ.2.2.2.1 hτ.2.2.2.2
    · rintro ⟨t, f, s, p, c⟩ h1 ⟨t2, f2, s2, p2, c2⟩ h2 h
      rw [Finset.mem_val, mem_swizzleTuples] at h1 h2
      have := swizzleDest_inj g h1.2.1 h1.2.2.1 h1.2.2.2.1 h1.2.2.2.2 h2.2.1 h2.2.2.1 h2.2.2.2.1
        h2.2.2.2.2 h
      simp only [Prod.mk.injEq]
      exact this
    · intro x hx
      rw [Multiset.mem_range] at hx
      obtain ⟨t, f, s, p, c, ht, hf, hs, hp, hc, e⟩ := swizzleDest_decode g h4 x hx
      exact ⟨(t, f, s, p, c), by rw [Finset.mem_val, mem_swizzleTuples]; exact ⟨ht, hf, hs, hp, hc⟩,
        e.symm⟩
    · rintro ⟨t, f, s, p, c⟩ hτ
      rw [Finset.mem_val, mem_swizzleTuples] at hτ
      exact (swizzle_value g out inp t f s p c hτ.1 hτ.2.1 hτ.2.2.1 hτ.2.2.2.1 hτ.2.2.2.2).symm
  rw [← hdst, hsrc]

/-! ## C20: the swizzle is a permutation of the input bytes -/

/-- C20: for every geometry with `NTIME_PIPE` a multiple of 4, the destination
index map `(t,f,s,p,c) ↦ ((((t/4*NFREQUENCY+f)*NSTATION+s)*NPOL+p)*2+c)*4 + t%4`
is a bijection from the tuples `t < NTIME_PIPE`, `f < NFREQUENCY`, `s < NSTATION`,
`p < NPOL`, `c < 2` onto `[0, NTIME_PIPE*NFREQUENCY*NSTATION*NPOL*2)` (in bounds,
one-to-one, onto), the output byte at that index is the input byte at
`(((t*NFREQUENCY+f)*NSTATION+s)*NPOL+p)*2 + c`, and the multiset of the output
bytes is the multiset of the input bytes. -/
theorem swizzle_permutation {α : Type} (g : Geometry) (h4 : g.NTIME_PIPE % 4 = 0)
    (out inp : Nat → α) :
    (∀ t f s p c : Nat, t < g.NTIME_PIPE → f < g.NFREQUENCY → s < g.NSTATION → p < g.NPOL →
      c < 2 →
      swizzleDest g t f s p c < g.NTIME_PIPE * g.NFREQUENCY * g.NSTATION * g.NPOL * 2 ∧
        xgpuSwizzleInput g out inp (swizzleDest g t f s p c) = inp (swizzleSrc g t f s p c)) ∧
    (∀ t f s p c t2 f2 s2 p2 c2 : Nat, t < g.NTIME_PIPE → f < g.NFREQUENCY → s < g.NSTATION →
      p < g.NPOL → c < 2 → t2 < g.NTIME_PIPE → f2 < g.NFREQUENCY → s2 < g.NSTATION →
      p2 < g.NPOL → c2 < 2 → swizzleDest g t f s p c = swizzleDest g t2 f2 s2 p2 c2 →
      t = t2 ∧ f = f2 ∧ s = s2 ∧ p = p2 ∧ c = c2) ∧
    (∀ x, x < g.NTIME_PIPE * g.NFREQUENCY * g.NSTATION * g.NPOL * 2 →
      ∃ t f s p c, t < g.NTIME_PIPE ∧ f < g.NFREQUENCY ∧ s < g.NSTATION ∧ p < g.NPOL ∧ c < 2 ∧
        x = swizzleDest g t f s p c) ∧
    (Multiset.range (g.NTIME_PIPE * g.NFREQUENCY * g.NSTATION * g.NPOL * 2)).map
        (xgpuSwizzleInput g out inp)
      = (Multiset.range (g.NTIME_PIPE * g.NFREQUENCY * g.NSTATION * g.NPOL * 2)).map inp :=
  ⟨fun t f s p c ht hf hs hp hc =>
      ⟨swizzleDest_lt g h4 ht hf hs hp hc, swizzle_value g out inp t f s p c ht hf hs hp hc⟩,
    fun _ _ _ _ _ _ _ _ _ _ _ hf hs hp hc _ hf2 hs2 hp2 hc2 h =>
      swizzleDest_inj g hf hs hp hc hf2 hs2 hp2 hc2 h,
    fun x hx => swizzleDest_decode g h4 x hx,
    swizzle_multiset g h4 out inp⟩

/-- C20, applied to the geometry with 2 stations, 1 frequency, 1 polarization
and `NTIME_PIPE = 8` on the input holding `s` at byte `s`; the output byte 1 is
the input byte 4 (time sample 1 of the first byte). -/
theorem swizzle_permutation_witness :
    geomPipe8.NTIME_PIPE % 4 = 0 ∧
    ((∀ t f s p c : Nat, t < geomPipe8.NTIME_PIPE → f < geomPipe8.NFREQUENCY →
      s < geomPipe8.NSTATION → p < geomPipe8.NPOL → c < 2 →
      swizzleDest geomPipe8 t f s p c
          < geomPipe8.NTIME_PIPE * geomPipe8.NFREQUENCY * geomPipe8.NSTATION * geomPipe8.NPOL * 2 ∧
        xgpuSwizzleInput geomPipe8 (fun _ => (0 : Int)) rampBuffer (swizzleDest geomPipe8 t f s p c)
          = rampBuffer (swizzleSrc geomPipe8 t f s p c)) ∧
    (∀ t f s p c t2 f2 s2 p2 c2 : Nat, t < geomPipe8.NTIME_PIPE → f < geomPipe8.NFREQUENCY →
      s < geomPipe8.NSTATION → p < geomPipe8.NPOL → c < 2 → t2 < geomPipe8.NTIME_PIPE →
      f2 < geomPipe8.NFREQUENCY → s2 < geomPipe8.NSTATION → p2 < geomPipe8.NPOL → c2 < 2 →
      swizzleDest geomPipe8 t f s p c = swizzleDest geomPipe8 t2 f2 s2 p2 c2 →
      t = t2 ∧ f = f2 ∧ s = s2 ∧ p = p2 ∧ c = c2) ∧
    (∀ x, x < geomPipe8.NTIME_PIPE * geomPipe8.NFREQUENCY * geomPipe8.NSTATION * geomPipe8.NPOL * 2 →
      ∃ t f s p c, t < geomPipe8.NTIME_PIPE ∧ f < geomPipe8.NFREQUENCY ∧ s < geomPipe8.NSTATION ∧
        p < geomPipe8.NPOL ∧ c < 2 ∧ x = swizzleDest geomPipe8 t f s p c) ∧
    (Multiset.range
          (geomPipe8.NTIME_PIPE * geomPipe8.NFREQUENCY * geomPipe8.NSTATION * geomPipe8.NPOL * 2)).map
        (xgpuSwizzleInput geomPipe8 (fun _ => (0 : Int)) rampBuffer)
      = (Multiset.range
          (geomPipe8.NTIME_PIPE * geomPipe8.NFREQUENCY * geomPipe8.NSTATION * geomPipe8.NPOL * 2)).map
        rampBuffer) ∧
    xgpuSwizzleInput geomPipe8 (fun _ => (0 : Int)) rampBuffer 1 = 4 :=
  ⟨by decide, swizzle_permutation geomPipe8 (by decide) (fun _ => (0 : Int)) rampBuffer, by decide⟩

/-! ## C19: the scratch buffer of the split real/imag branch -/

/-- Without pulsar bins (and with even `NSTATION`) the split real/imag branch
assigns every scratch element before the copy-back: the buffer after the call
does not depend on what the scratch buffer held. -/
theorem reorder_split_independent_no_pulsar {α : Type} (m : Mode) (g : Geometry)
    (hm : m.MATRIX_ORDER = MatrixOrder.REAL_IMAG_TRIANGULAR_ORDER)
    (hN : g.NSTATION % 2 = 0) (hP : g.NPULSAR = 0) (scratch1 scratch2 : Nat → Complex α)
    (matrix : Nat → α) (s : Nat) :
    xgpuReorderMatrix m g scratch1 matrix s = xgpuReorderMatrix m g scratch2 matrix s := by
  by_cases h : s < 2 * splitMatLength g
  · rw [reorder_split_scalar m g hm hN hP scratch1 matrix s h,
      reorder_split_scalar m g hm hN hP scratch2 matrix s h]
  · unfold xgpuReorderMatrix
    rw [hm]
    simp only [copyBack, if_neg h]

/-- C19 (the code at a failing input): with 2 stations, 1 frequency,
1 polarization and `NPULSAR = 1`, `matLength` is 6 but the loop assigns only the
scratch elements 0, 1, 2; the copy-back then puts the real part of the
unassigned scratch element 3 at scalar 6 of the buffer, whatever the input
is, so two runs on the same input with scratch contents `0` and `1+1i` give
different buffers. -/
theorem reorder_split_pulsar_scratch_leak :
    splitMatLength geomPulsar = 6 ∧
    (∀ (scratch : Nat → Complex Int) (matrix : Nat → Int),
      xgpuReorderMatrix modeSplit geomPulsar scratch matrix 6 = (scratch 3).real) ∧
    xgpuReorderMatrix modeSplit geomPulsar zeroBuffer rampBuffer 6
      ≠ xgpuReorderMatrix modeSplit geomPulsar packedOnePlusI rampBuffer 6 := by
  refine ⟨by decide, ?_, by decide⟩
  intro scratch matrix
  simp [xgpuReorderMatrix, modeSplit, copyBack, splitLoops, forLoop, splitStep, setImag, setReal,
    geomPulsar, splitMatLength]

/-! ## `xgpuRandomComplex` -/

theorem cround_int {R : Type} [LinearOrderedField R] [FloorRing R] (x : R) :
    ∃ n : Int, cround x = (n : R) := by
  unfold cround
  split
  · exact ⟨_, rfl⟩
  · exact ⟨_, rfl⟩

theorem ctrunc_intCast {R : Type} [LinearOrderedField R] [FloorRing R] (n : Int) :
    ctrunc (n : R) = n := by
  unfold ctrunc
  split
  · exact Int.floor_intCast n
  · exact Int.ceil_intCast n

theorem saturate_int {R : Type} [LinearOrderedField R] (n : Int) :
    (if (if (n : R) > 7 then (7 : R) else (n : R)) < -7 then (-7 : R)
      else (if (n : R) > 7 then (7 : R) else (n : R)))
      = ((max (-7) (min 7 n) : Int) : R) := by
  by_cases h1 : (7 : Int) < n
  · have h1R : (n : R) > 7 := by exact_mod_cast h1
    have h2 : ¬ ((7 : R) < -7) := by norm_num
    rw [if_pos h1R, if_neg h2]
    have : max (-7) (min 7 n) = 7 := by omega
    rw [this]
    norm_num
  · have h1R : ¬ ((n : R) > 7) := by
      intro h
      exact h1 (by exact_mod_cast h)
    rw [if_neg h1R]
    by_cases h2 : n < -7
    · have h2R : (n : R) < -7 := by exact_mod_cast h2
      rw [if_pos h2R]
      have : max (-7) (min 7 n) = -7 := by omega
      rw [this]
      norm_num
    · have h2R : ¬ ((n : R) < -7) := by
        intro h
        exact h2 (by exact_mod_cast h)
      rw [if_neg h2R]
      have : max (-7) (min 7 n) = n := by omega
      rw [this]

theorem clamp7_int {R : Type} [LinearOrderedField R] (n : Int) :
    clamp7 (n : R) = ((max (-7) (min 7 n) : Int) : R) := by
  unfold clamp7
  push_cast
  rfl

theorem toSignedChar_small (k : Int) (h1 : -7 ≤ k) (h2 : k ≤ 7) :
    toSignedChar (k * 16) = 16 * k := by
  unfold toSignedChar
  omega

/-- What the quantize-and-saturate stage stores for a component whose
Box-Muller value is `a`: the clamped rounding of `a`, times 16 in fixed-point
mode, which is an integer `n` in `[-7, 7]` (times 16). -/
theorem quantize_component {R : Type} [LinearOrderedField R] [FloorRing R] (m : Mode) (a : R) :
    ∃ n : Int, -7 ≤ n ∧ n ≤ 7 ∧ clamp7 (cround a) = (n : R) ∧
      (if m.FIXED_POINT = true then
          ((toSignedChar (ctrunc
            (if (if cround a > 7 then (7 : R) else cround a) < -7 then (-7 : R)
              else (if cround a > 7 then (7 : R) else cround a)) * 16) : Int) : R)
        else (if (if cround a > 7 then (7 : R) else cround a) < -7 then (-7 : R)
              else (if cround a > 7 then (7 : R) else cround a)))
        = (if m.FIXED_POINT = true then 16 * (n : R) else (n : R)) := by
  obtain ⟨k, hk⟩ := cround_int a
  refine ⟨max (-7) (min 7 k), by omega, by omega, ?_, ?_⟩
  · rw [hk, clamp7_int]
  · rw [hk, saturate_int]
    split
    · rw [ctrunc_intCast, toSignedChar_small _ (by omega) (by omega)]
      push_cast
      rfl
    · rfl

theorem quantizeStore_spec {R : Type} [LinearOrderedField R] [FloorRing R] (m : Mode)
    (a b : R) :
    (∃ n : Int, -7 ≤ n ∧ n ≤ 7 ∧ clamp7 (cround a) = (n : R) ∧
      (quantizeStore m a b).real = (if m.FIXED_POINT = true then 16 * (n : R) else (n : R))) ∧
    (∃ n : Int, -7 ≤ n ∧ n ≤ 7 ∧ clamp7 (cround b) = (n : R) ∧
      (quantizeStore m a b).imag = (if m.FIXED_POINT = true then 16 * (n : R) else (n : R))) := by
  obtain ⟨na, ha1, ha2, ha3, ha4⟩ := quantize_component m a
  obtain ⟨nb, hb1, hb2, hb3, hb4⟩ := quantize_component m b
  refine ⟨⟨na, ha1, ha2, ha3, ?_⟩, ⟨nb, hb1, hb2, hb3, ?_⟩⟩
  · rw [← ha4]
    unfold quantizeStore
    split <;> rfl
  · rw [← hb4]
    unfold quantizeStore
    split <;> rfl

theorem randomLoop_spec {R : Type} [LinearOrderedField R] [FloorRing R] (m : Mode)
    (lib : MathLib R) (RAND_MAX : Nat) (rand : Nat → Nat) (buf : Nat → Complex R) (n : Nat) :
    (forLoop n (randomStep m lib RAND_MAX rand) ⟨buf, 0⟩).calls = 2 * n ∧
      ∀ x, (forLoop n (randomStep m lib RAND_MAX rand) ⟨buf, 0⟩).random_num x
        = if x < n then sampleAt m lib RAND_MAX rand x else buf x := by
  induction n with
  | zero => exact ⟨rfl, fun x => by simp [forLoop]⟩
  | succ n ih =>
    obtain ⟨h1, h2⟩ := ih
    rw [forLoop_succ]
    constructor
    · show (forLoop n (randomStep m lib RAND_MAX rand) ⟨buf, 0⟩).calls + 2 = 2 * (n + 1)
      omega
    · intro x
      by_cases hx : x = n
      · subst hx
        simp only [randomStep, setImag, setReal, if_true, h1, Nat.lt_succ_self, sampleAt]
      · simp only [randomStep, setImag, setReal, hx, if_false]
        rw [h2 x]
        by_cases hlt : x < n
        · rw [if_pos hlt, if_pos (Nat.lt_succ_of_lt hlt)]
        · rw [if_neg hlt, if_neg (by omega)]

theorem copyLoop_spec {β : Type} (ml k : Nat) (buf : Nat → β) :
    (∀ j i, j ≤ k → i < ml →
      forLoop k (fun j => memcpyElems ((j + 1) * ml) 0 ml) buf (j * ml + i) = buf i) ∧
    (∀ x, (k + 1) * ml ≤ x →
      forLoop k (fun j => memcpyElems ((j + 1) * ml) 0 ml) buf x = buf x) := by
  induction k with
  | zero =>
    refine ⟨fun j i hj _ => ?_, fun x _ => rfl⟩
    have : j = 0 := by omega
    subst this
    simp [forLoop]
  | succ k ih =>
    obtain ⟨h1, h2⟩ := ih
    have e : (k + 1 + 1) * ml = (k + 1) * ml + ml := by ring
    constructor
    · intro j i hj hi
      rw [forLoop_succ]
      by_cases hjk : j = k + 1
      · subst hjk
        have hin : (k + 1) * ml ≤ (k + 1) * ml + i ∧ (k + 1) * ml + i < (k + 1) * ml + ml := by
          omega
        simp only [memcpyElems, hin, and_self, if_true]
        have := h1 0 i (Nat.zero_le k) hi
        simp only [Nat.zero_mul, Nat.zero_add] at this
        rw [Nat.zero_add, Nat.add_sub_cancel_left, this]
      · have hjk2 : j ≤ k := by omega
        have hle : (j + 1) * ml ≤ (k + 1) * ml := Nat.mul_le_mul_right ml (by omega)
        have e2 : (j + 1) * ml = j * ml + ml := by ring
        have hout : ¬ ((k + 1) * ml ≤ j * ml + i ∧ j * ml + i < (k + 1) * ml + ml) := by omega
        simp only [memcpyElems, hout, if_false]
        exact h1 j i hjk2 hi
    · intro x hx
      rw [forLoop_succ]
      have hout : ¬ ((k + 1) * ml ≤ x ∧ x < (k + 1) * ml + ml) := by omega
      simp only [memcpyElems, hout, if_false]
      exact h2 x (by omega)

theorem xgpuRandomComplex_eq {R : Type} [LinearOrderedField R] [FloorRing R] (m : Mode)
    (BENCHMARK : Bool) (g : Geometry) (lib : MathLib R) (RAND_MAX : Nat) (rand : Nat → Nat)
    (random_num : Nat → Complex R) (length : Nat) :
    xgpuRandomComplex m BENCHMARK g lib RAND_MAX rand random_num length
      = forLoop (randomStride BENCHMARK g - 1)
          (fun j => memcpyElems ((j + 1) * (length / randomStride BENCHMARK g)) 0
            (length / randomStride BENCHMARK g))
          (forLoop (length / randomStride BENCHMARK g) (randomStep m lib RAND_MAX rand)
            ⟨random_num, 0⟩).random_num := rfl

/-- The buffer after `xgpuRandomComplex`: with `mini_length = length / stride`,
position `j*mini_length + i` (`j < stride`, `i < mini_length`) holds the sample
number `i`, and the positions from `stride*mini_length` on are as before. -/
theorem random_buffer {R : Type} [LinearOrderedField R] [FloorRing R] (m : Mode)
    (BENCHMARK : Bool) (g : Geometry) (lib : MathLib R) (RAND_MAX : Nat) (rand : Nat → Nat)
    (random_num : Nat → Complex R) (length : Nat) :
    (∀ j i, j < randomStride BENCHMARK g → i < length / randomStride BENCHMARK g →
      xgpuRandomComplex m BENCHMARK g lib RAND_MAX rand random_num length
          (j * (length / randomStride BENCHMARK g) + i)
        = sampleAt m lib RAND_MAX rand i) ∧
    (∀ x, randomStride BENCHMARK g * (length / randomStride BENCHMARK g) ≤ x →
      1 ≤ randomStride BENCHMARK g →
      xgpuRandomComplex m BENCHMARK g lib RAND_MAX rand random_num length x = random_num x) := by
  obtain ⟨_, hgen⟩ := randomLoop_spec m lib RAND_MAX rand random_num
    (length / randomStride BENCHMARK g)
  obtain ⟨hc1, hc2⟩ := copyLoop_spec (length / randomStride BENCHMARK g)
    (randomStride BENCHMARK g - 1)
    (forLoop (length / randomStride BENCHMARK g) (randomStep m lib RAND_MAX rand)
      ⟨random_num, 0⟩).random_num
  constructor
  · intro j i hj hi
    rw [xgpuRandomComplex_eq, hc1 j i (by omega) hi, hgen i, if_pos hi]
  · intro x hx hs
    have e : randomStride BENCHMARK g - 1 + 1 = randomStride BENCHMARK g := by omega
    rw [xgpuRandomComplex_eq, hc2 x (by rw [e]; exact hx), hgen x, if_neg]
    have : length / randomStride BENCHMARK g
        ≤ randomStride BENCHMARK g * (length / randomStride BENCHMARK g) :=
      Nat.le_mul_of_pos_left _ hs
    omega

theorem random_position {R : Type} [LinearOrderedField R] [FloorRing R] (m : Mode)
    (BENCHMARK : Bool) (g : Geometry) (lib : MathLib R) (RAND_MAX : Nat) (rand : Nat → Nat)
    (random_num : Nat → Complex R) (length x : Nat)
    (hx : x < randomStride BENCHMARK g * (length / randomStride BENCHMARK g)) :
    x % (length / randomStride BENCHMARK g) < length / randomStride BENCHMARK g ∧
    xgpuRandomComplex m BENCHMARK g lib RAND_MAX rand random_num length x
      = sampleAt m lib RAND_MAX rand (x % (length / randomStride BENCHMARK g)) := by
  have hml : 0 < length / randomStride BENCHMARK g := by
    rcases Nat.eq_zero_or_pos (length / randomStride BENCHMARK g) with h0 | h0
    · rw [h0] at hx; simp at hx
    · exact h0
  have hi := Nat.mod_lt x hml
  have hj : x / (length / randomStride BENCHMARK g) < randomStride BENCHMARK g :=
    Nat.div_lt_of_lt_mul (by rw [Nat.mul_comm]; exact hx)
  have e := (random_buffer m BENCHMARK g lib RAND_MAX rand random_num length).1 _ _ hj hi
  rw [Nat.div_add_mod'] at e
  exact ⟨hi, e⟩
/-! ## C12: the range of the generated components -/

/-- C12: the quantize-and-saturate stage maps every real Box-Muller output `a`
(and `b`) to `clamp(round(a), -7, 7)`, an integer in `[-7, 7]`, stored as it is in
floating mode and multiplied by 16 in fixed-point mode (a multiple of 16 in
`[-112, 112]`); so it is for the sample of every pair of draws of `rand()`, zero
draws included, and for every component that `xgpuRandomComplex` stores. -/
theorem random_component_range {R : Type} [LinearOrderedField R] [FloorRing R] (m : Mode)
    (BENCHMARK : Bool) (g : Geometry) (lib : MathLib R) (RAND_MAX : Nat) (rand : Nat → Nat)
    (random_num : Nat → Complex R) (length : Nat) :
    (∀ a b : R,
      (∃ n : Int, -7 ≤ n ∧ n ≤ 7 ∧ clamp7 (cround a) = (n : R) ∧
        (quantizeStore m a b).real = (if m.FIXED_POINT = true then 16 * (n : R) else (n : R))) ∧
      (∃ n : Int, -7 ≤ n ∧ n ≤ 7 ∧ clamp7 (cround b) = (n : R) ∧
        (quantizeStore m a b).imag = (if m.FIXED_POINT = true then 16 * (n : R) else (n : R)))) ∧
    (∀ r1 r2 : Nat,
      (∃ n : Int, -7 ≤ n ∧ n ≤ 7 ∧
        (quantizeStore m (boxMuller lib RAND_MAX r1 r2).1 (boxMuller lib RAND_MAX r1 r2).2).real
          = (if m.FIXED_POINT = true then 16 * (n : R) else (n : R))) ∧
      (∃ n : Int, -7 ≤ n ∧ n ≤ 7 ∧
        (quantizeStore m (boxMuller lib RAND_MAX r1 r2).1 (boxMuller lib RAND_MAX r1 r2).2).imag
          = (if m.FIXED_POINT = true then 16 * (n : R) else (n : R)))) ∧
    (∀ x, x < randomStride BENCHMARK g * (length / randomStride BENCHMARK g) →
      (∃ n : Int, -7 ≤ n ∧ n ≤ 7 ∧
        (xgpuRandomComplex m BENCHMARK g lib RAND_MAX rand random_num length x).real
          = (if m.FIXED_POINT = true then 16 * (n : R) else (n : R))) ∧
      (∃ n : Int, -7 ≤ n ∧ n ≤ 7 ∧
        (xgpuRandomComplex m BENCHMARK g lib RAND_MAX rand random_num length x).imag
          = (if m.FIXED_POINT = true then 16 * (n : R) else (n : R)))) := by
  refine ⟨fun a b => quantizeStore_spec m a b, fun r1 r2 => ?_, fun x hx => ?_⟩
  · obtain ⟨⟨n1, h1, h2, _, h3⟩, ⟨n2, h4, h5, _, h6⟩⟩ :=
      quantizeStore_spec m (boxMuller lib RAND_MAX r1 r2).1 (boxMuller lib RAND_MAX r1 r2).2
    exact ⟨⟨n1, h1, h2, h3⟩, ⟨n2, h4, h5, h6⟩⟩
  · rw [(random_position m BENCHMARK g lib RAND_MAX rand random_num length x hx).2]
    obtain ⟨⟨n1, h1, h2, _, h3⟩, ⟨n2, h4, h5, _, h6⟩⟩ :=
      quantizeStore_spec m
        (boxMuller lib RAND_MAX (rand (2 * (x % (length / randomStride BENCHMARK g))))
          (rand (2 * (x % (length / randomStride BENCHMARK g)) + 1))).1
        (boxMuller lib RAND_MAX (rand (2 * (x % (length / randomStride BENCHMARK g))))
          (rand (2 * (x % (length / randomStride BENCHMARK g)) + 1))).2
    exact ⟨⟨n1, h1, h2, h3⟩, ⟨n2, h4, h5, h6⟩⟩

/-! ## C13: the positions the generator writes -/

/-- C13 (as stated, refuted): in batch/benchmark mode with
`NFREQUENCY*NTIME = 4` and `length = 6`, `mini_length` is `6/4 = 1` and only the
positions 0..3 are written: position 4 keeps what the buffer held, so its value
after the call is not a generated sample fixed by the draws. -/
theorem random_not_filled :
    (∀ (lib : MathLib ℝ) (RAND_MAX : Nat) (rand : Nat → Nat) (random_num : Nat → Complex ℝ),
      xgpuRandomComplex modeFloat true geomStride4 lib RAND_MAX rand random_num 6 4
        = random_num 4) ∧
    ¬ (∀ (m : Mode) (BENCHMARK : Bool) (g : Geometry) (lib : MathLib ℝ) (RAND_MAX : Nat)
        (rand : Nat → Nat) (length x : Nat), 0 < g.NFREQUENCY → 0 < g.NTIME → x < length →
        ∃ i, ∀ random_num : Nat → Complex ℝ,
          xgpuRandomComplex m BENCHMARK g lib RAND_MAX rand random_num length x
            = sampleAt m lib RAND_MAX rand i) := by
  have hkeep : ∀ (lib : MathLib ℝ) (RAND_MAX : Nat) (rand : Nat → Nat)
      (random_num : Nat → Complex ℝ),
      xgpuRandomComplex modeFloat true geomStride4 lib RAND_MAX rand random_num 6 4
        = random_num 4 :=
    fun lib RAND_MAX rand random_num =>
      (random_buffer modeFloat true geomStride4 lib RAND_MAX rand random_num 6).2 4
        (by decide) (by decide)
  refine ⟨hkeep, fun h => ?_⟩
  obtain ⟨i, hi⟩ := h modeFloat true geomStride4
    ⟨Real.sqrt, Real.log, Real.cos, Real.sin, Real.pi⟩ 32767 (fun _ => 0) 6 4
    (by decide) (by decide) (by decide)
  have h1 := hi (fun _ => ⟨0, 0⟩)
  have h2 := hi (fun _ => ⟨1, 1⟩)
  rw [hkeep] at h1 h2
  have h3 := congrArg Complex.real (h1.trans h2.symm)
  norm_num at h3

/-- C13 (amended): for every requested sample count `length` and in either
build mode, with `mini_length = length / stride`: every position
`x < stride * mini_length` holds the generated sample number `x mod mini_length`
after the call. These are all the positions `0 .. length-1` when `stride` divides
`length`, and in particular with stride 1, where position `x` holds the sample
number `x`. -/
theorem random_fills {R : Type} [LinearOrderedField R] [FloorRing R] (m : Mode)
    (BENCHMARK : Bool) (g : Geometry) (lib : MathLib R) (RAND_MAX : Nat) (rand : Nat → Nat)
    (random_num : Nat → Complex R) (length : Nat) :
    (∀ x, x < randomStride BENCHMARK g * (length / randomStride BENCHMARK g) →
      xgpuRandomComplex m BENCHMARK g lib RAND_MAX rand random_num length x
        = sampleAt m lib RAND_MAX rand (x % (length / randomStride BENCHMARK g))) ∧
    (randomStride BENCHMARK g ∣ length →
      randomStride BENCHMARK g * (length / randomStride BENCHMARK g) = length) ∧
    (BENCHMARK = false → ∀ x, x < length →
      xgpuRandomComplex m BENCHMARK g lib RAND_MAX rand random_num length x
        = sampleAt m lib RAND_MAX rand x) := by
  refine ⟨fun x hx => (random_position m BENCHMARK g lib RAND_MAX rand random_num length x hx).2,
    fun hd => Nat.mul_div_cancel' hd, ?_⟩
  intro hB x hx
  subst hB
  have hs : randomStride false g = 1 := rfl
  have h := (random_position m false g lib RAND_MAX rand random_num length x
    (by rw [hs, Nat.div_one, Nat.one_mul]; exact hx)).2
  rw [hs, Nat.div_one, Nat.mod_eq_of_lt hx] at h
  exact h

/-! ## C14: the replicated periods -/

/-- C14: in batch/benchmark mode, with `stride = NFREQUENCY*NTIME` and
`mini_length = length / stride`: for every `j` with `1 ≤ j < stride` and every
`i < mini_length`, `out[j*mini_length + i] = out[i]`, and the first period
`out[0 .. mini_length-1]` is what the unreplicated generator (stride 1, sample
count `mini_length`) produces from the same draws. -/
theorem random_periods {R : Type} [LinearOrderedField R] [FloorRing R] (m : Mode)
    (g : Geometry) (lib : MathLib R) (RAND_MAX : Nat) (rand : Nat → Nat)
    (random_num : Nat → Complex R) (length : Nat) :
    (∀ j i, 1 ≤ j → j < g.NFREQUENCY * g.NTIME → i < length / (g.NFREQUENCY * g.NTIME) →
      xgpuRandomComplex m true g lib RAND_MAX rand random_num length
          (j * (length / (g.NFREQUENCY * g.NTIME)) + i)
        = xgpuRandomComplex m true g lib RAND_MAX rand random_num length i) ∧
    (∀ i, i < length / (g.NFREQUENCY * g.NTIME) →
      xgpuRandomComplex m true g lib RAND_MAX rand random_num length i
        = xgpuRandomComplex m false g lib RAND_MAX rand random_num
            (length / (g.NFREQUENCY * g.NTIME)) i) := by
  have hs : randomStride true g = g.NFREQUENCY * g.NTIME := rfl
  have hs1 : randomStride false g = 1 := rfl
  have hb := (random_buffer m true g lib RAND_MAX rand random_num length).1
  rw [hs] at hb
  have hplain := (random_buffer m false g lib RAND_MAX rand random_num
    (length / (g.NFREQUENCY * g.NTIME))).1
  rw [hs1] at hplain
  have hfirst : ∀ i, i < length / (g.NFREQUENCY * g.NTIME) →
      xgpuRandomComplex m true g lib RAND_MAX rand random_num length i
        = sampleAt m lib RAND_MAX rand i := by
    intro i hi
    have hpos : 0 < g.NFREQUENCY * g.NTIME := by
      rcases Nat.eq_zero_or_pos (g.NFREQUENCY * g.NTIME) with h0 | h0
      · rw [h0, Nat.div_zero] at hi
        exact absurd hi (Nat.not_lt_zero i)
      · exact h0
    have := hb 0 i hpos hi
    rw [Nat.zero_mul, Nat.zero_add] at this
    exact this
  constructor
  · intro j i _ hj hi
    rw [hb j i hj hi, hfirst i hi]
  · intro i hi
    have := hplain 0 i (by decide) (by rw [Nat.div_one]; exact hi)
    rw [Nat.zero_mul, Nat.zero_add] at this
    rw [hfirst i hi, this]

/-! ## `xgpuCheckResult`: the computed buffer after an iteration -/

theorem checkStep_gpu {R : Type} [LinearOrderedField R] [FloorRing R] (m : Mode)
    (g : Geometry) (sqrt : R → R) (cpu : Nat → Complex R) (verbose : Int)
    (array_h : Option (Nat → ComplexInput)) (i j pol1 pol2 f : Nat) (s : CheckState R) :
    (checkStep m g sqrt cpu verbose array_h i j pol1 pol2 f s).gpu
      = checkGpu m (triIndex g f i j pol1 pol2) s.gpu := by
  rw [checkStep_eq_tail]
  unfold checkTail
  simp only
  split <;> rfl

theorem TOL_pos_field {R : Type} [LinearOrderedField R] (m : Mode) : (0 : R) < TOL m := by
  unfold TOL
  split <;> positivity

/-! ## C17: the summary branch -/

/-- C17: for every geometry, mode and pair of matrices, the `errorCount` of
`xgpuCheckResult` is zero if and only if its `maxError` is at most `TOL`; so the
summary "Outer product summation successful" is printed exactly when
`maxError ≤ TOL`, and "failed with N deviations" exactly when `maxError > TOL`. -/
theorem check_summary_iff {R : Type} [LinearOrderedField R] [FloorRing R] (m : Mode)
    (g : Geometry) (sqrt : R → R) (gpu cpu : Nat → Complex R) (verbose : Int)
    (array_h : Option (Nat → ComplexInput)) :
    ((xgpuCheckResult m g sqrt gpu cpu verbose array_h).errorCount = 0 ↔
      (xgpuCheckResult m g sqrt gpu cpu verbose array_h).maxError ≤ TOL m) ∧
    (checkSummary (xgpuCheckResult m g sqrt gpu cpu verbose array_h) = Summary.successful ↔
      (xgpuCheckResult m g sqrt gpu cpu verbose array_h).maxError ≤ TOL m) ∧
    (checkSummary (xgpuCheckResult m g sqrt gpu cpu verbose array_h) = Summary.failed ↔
      TOL m < (xgpuCheckResult m g sqrt gpu cpu verbose array_h).maxError) := by
  obtain ⟨hc, _, hle, hor, _⟩ := checkResult_spec m g sqrt gpu cpu verbose array_h
  have hiff : (xgpuCheckResult m g sqrt gpu cpu verbose array_h).errorCount = 0 ↔
      (xgpuCheckResult m g sqrt gpu cpu verbose array_h).maxError ≤ TOL m := by
    rw [hc, Finset.card_eq_zero, Finset.filter_eq_empty_iff]
    constructor
    · intro h
      rcases hor with h0 | ⟨t, ht, h0⟩
      · rw [h0]
        exact le_of_lt (TOL_pos_field m)
      · rw [h0]
        exact not_lt.mp (h ht)
    · intro h t ht
      exact not_lt.mpr (le_trans (hle t ht) h)
  refine ⟨hiff, ?_, ?_⟩
  · rw [← hiff]
    unfold checkSummary
    split <;> simp_all
  · rw [← not_le, ← hiff]
    unfold checkSummary
    split <;> simp_all

theorem visited_checkIndex (g : Geometry) (t : Nat × Nat × Nat × Nat × Nat)
    (ht : t ∈ checkTuples g) : Visited g (checkIndex g t) :=
  ⟨t, ht, rfl⟩

/-! ## `xgpuCheckResult` on one memory: what it writes -/

theorem forLoop_inv {σ : Type} (P : σ → Prop) (n : Nat) (body : Nat → σ → σ)
    (h : ∀ i, i < n → ∀ s, P s → P (body i s)) (s : σ) (hs : P s) : P (forLoop n body s) := by
  induction n with
  | zero => exact hs
  | succ n ih =>
    rw [forLoop_succ]
    exact h n (Nat.lt_succ_self n) _ (ih (fun i hi => h i (Nat.lt_succ_of_lt hi)))

theorem checkStepHeap_mem {R : Type} [LinearOrderedField R] [FloorRing R] (m : Mode)
    (g : Geometry) (sqrt : R → R) (gpu cpu : Nat) (verbose : Int)
    (array_h : Option (Nat → ComplexInput)) (i j pol1 pol2 f : Nat) (s : HeapCheckState R) :
    (checkStepHeap m g sqrt gpu cpu verbose array_h i j pol1 pol2 f s).mem
      = checkGpu m (gpu + triIndex g f i j pol1 pol2) s.mem := by
  unfold checkStepHeap checkGpu triIndex baselineIndex
  simp only
  split_ifs <;> rfl

theorem checkGpu_frame {R : Type} [LinearOrderedField R] [FloorRing R] (m : Mode)
    (index : Nat) (mem : Nat → Complex R) (a : Nat)
    (h : a ≠ index ∨ ¬ (m.FIXED_POINT = true ∧ m.DP4A = false)) :
    checkGpu m index mem a = mem a := by
  unfold checkGpu
  split
  · rcases h with h | h
    · simp [setImag, setReal, h]
    · exact absurd (by assumption) h
  · rfl

/-- Frame of `xgpuCheckResult` on one memory: an address is left as it was
unless the rounding is compiled in and the address is `gpu + index` for a
visited canonical index. -/
theorem checkResultHeap_frame {R : Type} [LinearOrderedField R] [FloorRing R] (m : Mode)
    (g : Geometry) (sqrt : R → R) (gpu cpu : Nat) (mem : Nat → Complex R) (verbose : Int)
    (array_h : Option (Nat → ComplexInput)) (a : Nat)
    (h : (∀ t ∈ checkTuples g, a ≠ gpu + checkIndex g t) ∨
      ¬ (m.FIXED_POINT = true ∧ m.DP4A = false)) :
    (xgpuCheckResultHeap m g sqrt gpu cpu mem verbose array_h).mem a = mem a := by
  show (forLoop g.NSTATION _ (⟨mem, 0, 0, 1⟩ : HeapCheckState R)).mem a = mem a
  refine forLoop_inv (fun s : HeapCheckState R => s.mem a = mem a) _ _ ?_ _ rfl
  intro i hi s hs
  refine forLoop_inv (fun s : HeapCheckState R => s.mem a = mem a) _ _ ?_ _ hs
  intro j hj s hs
  refine forLoop_inv (fun s : HeapCheckState R => s.mem a = mem a) _ _ ?_ _ hs
  intro p1 hp1 s hs
  refine forLoop_inv (fun s : HeapCheckState R => s.mem a = mem a) _ _ ?_ _ hs
  intro p2 hp2 s hs
  refine forLoop_inv (fun s : HeapCheckState R => s.mem a = mem a) _ _ ?_ _ hs
  intro f hf s hs
  show (checkStepHeap m g sqrt gpu cpu verbose array_h i j p1 p2 f s).mem a = mem a
  rw [checkStepHeap_mem, checkGpu_frame, hs]
  rcases h with h | h
  · exact Or.inl (h (i, j, p1, p2, f)
      ((mem_checkTuples g _).mpr ⟨i, hi, j, hj, p1, hp1, p2, hp2, f, hf, rfl⟩))
  · exact Or.inr h
theorem checkStepHeap_eq_tail {R : Type} [LinearOrderedField R] [FloorRing R] (m : Mode)
    (g : Geometry) (sqrt : R → R) (gpu cpu : Nat) (verbose : Int)
    (array_h : Option (Nat → ComplexInput)) (i j pol1 pol2 f : Nat) (s : HeapCheckState R) :
    (checkStepHeap m g sqrt gpu cpu verbose array_h i j pol1 pol2 f s).toCheck gpu
      = checkTail m g verbose array_h
          (fun x => checkGpu m (gpu + triIndex g f i j pol1 pol2) s.mem (gpu + x))
          (elemError sqrt
            (checkGpu m (gpu + triIndex g f i j pol1 pol2) s.mem
              (gpu + triIndex g f i j pol1 pol2))
            (checkGpu m (gpu + triIndex g f i j pol1 pol2) s.mem
              (cpu + triIndex g f i j pol1 pol2)))
          (s.toCheck gpu) := by
  unfold elemError
  rw [zabs_sub_comm]
  unfold checkStepHeap checkTail HeapCheckState.toCheck checkGpu triIndex baselineIndex
  simp only
  split_ifs <;> rfl

theorem forLoop_sim {σ τ : Type} (Rel : σ → τ → Prop) (n : Nat) (body1 : Nat → σ → σ)
    (body2 : Nat → τ → τ)
    (h : ∀ i, i < n → ∀ a b, Rel a b → Rel (body1 i a) (body2 i b)) (a : σ) (b : τ)
    (hab : Rel a b) : Rel (forLoop n body1 a) (forLoop n body2 b) := by
  induction n with
  | zero => exact hab
  | succ n ih =>
    rw [forLoop_succ, forLoop_succ]
    exact h n (Nat.lt_succ_self n) _ _ (ih (fun i hi => h i (Nat.lt_succ_of_lt hi)))

theorem checkStepHeap_sim {R : Type} [LinearOrderedField R] [FloorRing R] (m : Mode)
    (g : Geometry) (sqrt : R → R) (gpu cpu L : Nat) (mem : Nat → Complex R) (verbose : Int)
    (array_h : Option (Nat → ComplexInput)) (i j pol1 pol2 f : Nat)
    (hidx : triIndex g f i j pol1 pol2 < L) (hdisj : cpu + L ≤ gpu ∨ gpu + L ≤ cpu)
    (hs : HeapCheckState R) (s : CheckState R)
    (hrel : hs.toCheck gpu = s ∧ ∀ x, x < L → hs.mem (cpu + x) = mem (cpu + x)) :
    (checkStepHeap m g sqrt gpu cpu verbose array_h i j pol1 pol2 f hs).toCheck gpu
        = checkStep m g sqrt (fun x => mem (cpu + x)) verbose array_h i j pol1 pol2 f s ∧
      ∀ x, x < L →
        (checkStepHeap m g sqrt gpu cpu verbose array_h i j pol1 pol2 f hs).mem (cpu + x)
          = mem (cpu + x) := by
  obtain ⟨h1, h2⟩ := hrel
  have hcpu : ∀ x, x < L →
      checkGpu m (gpu + triIndex g f i j pol1 pol2) hs.mem (cpu + x) = mem (cpu + x) := by
    intro x hx
    rw [checkGpu_frame m _ _ _ (Or.inl (by omega)), h2 x hx]
  have hgpu : (fun x => checkGpu m (gpu + triIndex g f i j pol1 pol2) hs.mem (gpu + x))
      = checkGpu m (triIndex g f i j pol1 pol2) s.gpu := by
    rw [← h1]
    funext x
    unfold checkGpu HeapCheckState.toCheck
    split
    · simp only [setImag, setReal, Nat.add_left_cancel_iff, if_true]
    · rfl
  constructor
  · rw [checkStepHeap_eq_tail, checkStep_eq_tail, hcpu _ hidx, h1]
    have hg := congrFun hgpu (triIndex g f i j pol1 pol2)
    simp only at hg
    rw [hg, hgpu]
  · intro x hx
    rw [checkStepHeap_mem]
    exact hcpu x hx

/-- The one-memory form and the separate-buffers form of `xgpuCheckResult`
agree when `NSTATION` is even and the two buffers, of
`NFREQUENCY*(NSTATION+1)*(NSTATION/2)*NPOL*NPOL` elements each, do not overlap. -/
theorem checkResultHeap_agrees {R : Type} [LinearOrderedField R] [FloorRing R] (m : Mode)
    (g : Geometry) (hN : g.NSTATION % 2 = 0) (sqrt : R → R) (gpu cpu : Nat)
    (mem : Nat → Complex R) (verbose : Int) (array_h : Option (Nat → ComplexInput))
    (hdisj : cpu + g.NFREQUENCY * (g.NSTATION + 1) * (g.NSTATION / 2) * g.NPOL * g.NPOL ≤ gpu ∨
      gpu + g.NFREQUENCY * (g.NSTATION + 1) * (g.NSTATION / 2) * g.NPOL * g.NPOL ≤ cpu) :
    (xgpuCheckResultHeap m g sqrt gpu cpu mem verbose array_h).toCheck gpu
      = xgpuCheckResult m g sqrt (fun x => mem (gpu + x)) (fun x => mem (cpu + x))
          verbose array_h := by
  have hsim := forLoop_sim
    (fun (hs : HeapCheckState R) (s : CheckState R) => hs.toCheck gpu = s ∧ ∀ x,
      x < g.NFREQUENCY * (g.NSTATION + 1) * (g.NSTATION / 2) * g.NPOL * g.NPOL →
      hs.mem (cpu + x) = mem (cpu + x)) g.NSTATION
    (fun i => forLoop (i + 1) (fun j => forLoop g.NPOL (fun pol1 => forLoop g.NPOL (fun pol2 =>
      forLoop g.NFREQUENCY (fun f =>
        checkStepHeap m g sqrt gpu cpu verbose array_h i j pol1 pol2 f)))))
    (fun i => forLoop (i + 1) (fun j => forLoop g.NPOL (fun pol1 => forLoop g.NPOL (fun pol2 =>
      forLoop g.NFREQUENCY (fun f =>
        checkStep m g sqrt (fun x => mem (cpu + x)) verbose array_h i j pol1 pol2 f)))))
    (fun i hi a b hab => forLoop_sim _ _ _ _
      (fun j hj a b hab => forLoop_sim _ _ _ _
        (fun p1 hp1 a b hab => forLoop_sim _ _ _ _
          (fun p2 hp2 a b hab => forLoop_sim _ _ _ _
            (fun f hf a b hab => checkStepHeap_sim m g sqrt gpu cpu _ mem verbose array_h
              i j p1 p2 f (triIndex_lt g hN hf hi (Nat.le_of_lt_succ hj) hp1 hp2) hdisj a b hab)
            a b hab) a b hab) a b hab) a b hab)
    (⟨mem, 0, 0, 1⟩ : HeapCheckState R) (⟨fun x => mem (gpu + x), 0, 0, 1⟩ : CheckState R)
    ⟨rfl, fun _ _ => rfl⟩
  have h1 := hsim.1
  unfold xgpuCheckResultHeap xgpuCheckResult
  simp only [HeapCheckState.toCheck] at h1 ⊢
  rw [← h1]

/-! ## C11: what the validator leaves unchanged -/

/-- C11: with the two matrices in one memory, in buffers of
`NFREQUENCY*(NSTATION+1)*(NSTATION/2)*NPOL*NPOL` elements that do not overlap,
and `NSTATION` even: for every content of the memory, verbosity level and
raw-sample argument, `xgpuCheckResult` leaves every element of the reference
matrix unchanged in every numeric mode, and leaves every element of the
computed matrix (indeed the whole memory) unchanged in every mode other than
fixed-point without extended accumulation. -/
theorem check_frame {R : Type} [LinearOrderedField R] [FloorRing R] (m : Mode)
    (g : Geometry) (hN : g.NSTATION % 2 = 0) (sqrt : R → R) (gpu cpu : Nat)
    (mem : Nat → Complex R) (verbose : Int) (array_h : Option (Nat → ComplexInput))
    (hdisj : cpu + g.NFREQUENCY * (g.NSTATION + 1) * (g.NSTATION / 2) * g.NPOL * g.NPOL ≤ gpu ∨
      gpu + g.NFREQUENCY * (g.NSTATION + 1) * (g.NSTATION / 2) * g.NPOL * g.NPOL ≤ cpu) :
    (∀ x, x < g.NFREQUENCY * (g.NSTATION + 1) * (g.NSTATION / 2) * g.NPOL * g.NPOL →
      (xgpuCheckResultHeap m g sqrt gpu cpu mem verbose array_h).mem (cpu + x)
        = mem (cpu + x)) ∧
    (¬ (m.FIXED_POINT = true ∧ m.DP4A = false) →
      ∀ a, (xgpuCheckResultHeap m g sqrt gpu cpu mem verbose array_h).mem a = mem a) := by
  constructor
  · intro x hx
    refine checkResultHeap_frame m g sqrt gpu cpu mem verbose array_h _ (Or.inl ?_)
    intro t ht
    obtain ⟨i, hi, j, hj, p1, hp1, p2, hp2, f, hf, rfl⟩ := (mem_checkTuples g t).mp ht
    have := triIndex_lt g hN hf hi (Nat.le_of_lt_succ hj) hp1 hp2
    simp only [checkIndex]
    omega
  · intro hm a
    exact checkResultHeap_frame m g sqrt gpu cpu mem verbose array_h a (Or.inr hm)
/-- C11, applied in fixed-point mode without extended accumulation, over the
reals, to 2 stations, 1 frequency, 1 polarization (3 elements per matrix), the
computed matrix at offset 0 and the reference matrix at offset 3 of a memory
whose elements all are `0.4+0i`. -/
theorem check_frame_witness :
    (geom2.NSTATION % 2 = 0 ∧
      (3 + geom2.NFREQUENCY * (geom2.NSTATION + 1) * (geom2.NSTATION / 2) * geom2.NPOL
            * geom2.NPOL ≤ 0 ∨
        0 + geom2.NFREQUENCY * (geom2.NSTATION + 1) * (geom2.NSTATION / 2) * geom2.NPOL
            * geom2.NPOL ≤ 3)) ∧
    ((∀ x, x < geom2.NFREQUENCY * (geom2.NSTATION + 1) * (geom2.NSTATION / 2) * geom2.NPOL
          * geom2.NPOL →
      (xgpuCheckResultHeap modeFixed geom2 Real.sqrt 0 3 (fun _ => (⟨2 / 5, 0⟩ : Complex ℝ)) 2
          (some (fun _ => ⟨0, 0⟩))).mem (3 + x) = (⟨2 / 5, 0⟩ : Complex ℝ)) ∧
    (¬ (modeFixed.FIXED_POINT = true ∧ modeFixed.DP4A = false) →
      ∀ a, (xgpuCheckResultHeap modeFixed geom2 Real.sqrt 0 3
          (fun _ => (⟨2 / 5, 0⟩ : Complex ℝ)) 2 (some (fun _ => ⟨0, 0⟩))).mem a
        = (⟨2 / 5, 0⟩ : Complex ℝ))) :=
  ⟨⟨by decide, by decide⟩,
    check_frame modeFixed geom2 (by decide) Real.sqrt 0 3 (fun _ => ⟨2 / 5, 0⟩) 2
      (some (fun _ => ⟨0, 0⟩)) (by decide)⟩

/-! ## `xgpuCheckResult` in the arithmetic of the code: the loop nest -/

theorem checkGpuA_at {C D : Type} (A : CheckArith C D) (m : Mode) (index : Nat)
    (gpu : Nat → Complex C) :
    checkGpuA A m index gpu index = preRoundA A m (gpu index) := by
  unfold checkGpuA preRoundA roundComplexA
  split <;> simp [setImag, setReal]

theorem checkGpuA_other {C D : Type} (A : CheckArith C D) (m : Mode) (index x : Nat)
    (gpu : Nat → Complex C) (hx : x ≠ index) :
    checkGpuA A m index gpu x = gpu x := by
  unfold checkGpuA
  split <;> simp [setImag, setReal, hx]

theorem checkStepA_gpu {C D : Type} (A : CheckArith C D) (m : Mode) (g : Geometry)
    (cpu : Nat → Complex C) (verbose : Int) (array_h : Option (Nat → ComplexInput))
    (i j pol1 pol2 f : Nat) (s : CheckStateA C D) :
    (checkStepA A m g cpu verbose array_h i j pol1 pol2 f s).gpu
      = checkGpuA A m (triIndex g f i j pol1 pol2) s.gpu := by
  unfold checkStepA checkGpuA triIndex baselineIndex
  simp only
  split_ifs <;> rfl

theorem checkStepA_tally {C D : Type} (A : CheckArith C D) (m : Mode) (g : Geometry)
    (cpu : Nat → Complex C) (verbose : Int) (array_h : Option (Nat → ComplexInput))
    (i j pol1 pol2 f : Nat) (s : CheckStateA C D) :
    (checkStepA A m g cpu verbose array_h i j pol1 pol2 f s).tally
      = tallyStep A m g verbose array_h
          (elemErrorA A
            (checkGpuA A m (triIndex g f i j pol1 pol2) s.gpu (triIndex g f i j pol1 pol2))
            (cpu (triIndex g f i j pol1 pol2))) s.tally := by
  unfold checkStepA tallyStep elemErrorA checkGpuA triIndex baselineIndex CheckStateA.tally
  simp only
  split_ifs <;> rfl

theorem checkStepA_blockSpec {C D : Type} (A : CheckArith C D) (m : Mode) (g : Geometry)
    (gpu0 cpu : Nat → Complex C) (verbose : Int) (array_h : Option (Nat → ComplexInput))
    (i j pol1 pol2 f : Nat) :
    BlockSpecA A m gpu0 (fun x => x = triIndex g f i j pol1 pol2)
      (tallyStep A m g verbose array_h (tupleErrorA A m g gpu0 cpu (i, j, pol1, pol2, f)))
      (checkStepA A m g cpu verbose array_h i j pol1 pol2 f) := by
  intro s hs
  refine ⟨?_, ?_, ?_⟩
  · rw [checkStepA_tally, checkGpuA_at, hs _ rfl]
    rfl
  · intro x hx
    rw [checkStepA_gpu, hx, checkGpuA_at, hs _ rfl]
  · intro x hx
    rw [checkStepA_gpu, checkGpuA_other A m _ x _ hx]

theorem forLoop_blockSpecA {C D : Type} (A : CheckArith C D) (m : Mode)
    (gpu0 : Nat → Complex C) (n : Nat) (B : Nat → Nat → Prop) (T : Nat → Tally D → Tally D)
    (body : Nat → CheckStateA C D → CheckStateA C D)
    (hdisj : ∀ i k x, i < n → k < i → B i x → ¬ B k x)
    (h : ∀ i, i < n → BlockSpecA A m gpu0 (B i) (T i) (body i)) :
    BlockSpecA A m gpu0 (fun x => ∃ i, i < n ∧ B i x) (forLoop n T) (forLoop n body) := by
  induction n with
  | zero =>
    intro s _
    refine ⟨rfl, ?_, fun x _ => rfl⟩
    rintro x ⟨i, hi, _⟩
    exact absurd hi (Nat.not_lt_zero i)
  | succ n ih =>
    intro s hs
    obtain ⟨h1, h2, h3⟩ := ih (fun i k x hi hk => hdisj i k x (Nat.lt_succ_of_lt hi) hk)
      (fun i hi => h i (Nat.lt_succ_of_lt hi)) s
      (fun x ⟨i, hi, hB⟩ => hs x ⟨i, Nat.lt_succ_of_lt hi, hB⟩)
    have hpre : ∀ x, B n x → (forLoop n body s).gpu x = gpu0 x := by
      intro x hB
      rw [h3 x (fun ⟨k, hk, hBk⟩ => hdisj n k x (Nat.lt_succ_self n) hk hB hBk)]
      exact hs x ⟨n, Nat.lt_succ_self n, hB⟩
    obtain ⟨k1, k2, k3⟩ := h n (Nat.lt_succ_self n) _ hpre
    rw [forLoop_succ, forLoop_succ]
    refine ⟨?_, ?_, ?_⟩
    · rw [k1, h1]
    · rintro x ⟨i, hi, hB⟩
      rcases Nat.lt_succ_iff_lt_or_eq.mp hi with hlt | heq
      · rw [k3 x (fun hBn => hdisj n i x (Nat.lt_succ_self n) hlt hBn hB)]
        exact h2 x ⟨i, hlt, hB⟩
      · subst heq
        exact k2 x hB
    · intro x hx
      rw [k3 x (fun hB => hx ⟨n, Nat.lt_succ_self n, hB⟩),
        h3 x (fun ⟨i, hi, hB⟩ => hx ⟨i, Nat.lt_succ_of_lt hi, hB⟩)]

/-- With an even `NSTATION`, the loop nest of `xgpuCheckResult` in the
arithmetic of the code: the scalar variables are those of `tallyLoops` on the
errors of the tuples, every visited element is pre-processed once, and the
other elements are not written. -/
theorem checkLoopsA_spec {C D : Type} (A : CheckArith C D) (m : Mode) (g : Geometry)
    (hN : g.NSTATION % 2 = 0) (gpu cpu : Nat → Complex C) (verbose : Int)
    (array_h : Option (Nat → ComplexInput)) :
    BlockSpecA A m gpu
      (fun x => ∃ i, i < g.NSTATION ∧ ∃ j, j < i + 1 ∧ ∃ p1, p1 < g.NPOL ∧
        ∃ p2, p2 < g.NPOL ∧ ∃ f, f < g.NFREQUENCY ∧ x = triIndex g f i j p1 p2)
      (tallyLoops A m g verbose array_h (tupleErrorA A m g gpu cpu))
      (forLoop g.NSTATION (fun i =>
        forLoop (i + 1) (fun j =>
          forLoop g.NPOL (fun pol1 =>
            forLoop g.NPOL (fun pol2 =>
              forLoop g.NFREQUENCY (fun f =>
                checkStepA A m g cpu verbose array_h i j pol1 pol2 f)))))) := by
  unfold tallyLoops
  refine forLoop_blockSpecA A m gpu g.NSTATION _ _ _ ?_ (fun i hi => ?_)
  · rintro i k x hi hk ⟨j, hj, p1, hp1, p2, hp2, f, _, rfl⟩ ⟨j2, hj2, q1, hq1, q2, hq2, f2, _, h⟩
    have := triIndex_inj g hN hi (Nat.le_of_lt_succ hj) hp1 hp2 (Nat.lt_trans hk hi)
      (Nat.le_of_lt_succ hj2) hq1 hq2 h
    omega
  refine forLoop_blockSpecA A m gpu (i + 1) _ _ _ ?_ (fun j hj => ?_)
  · rintro j k x hj hk ⟨p1, hp1, p2, hp2, f, _, rfl⟩ ⟨q1, hq1, q2, hq2, f2, _, h⟩
    have := triIndex_inj g hN hi (Nat.le_of_lt_succ hj) hp1 hp2 hi
      (Nat.le_of_lt_succ (Nat.lt_trans hk hj)) hq1 hq2 h
    omega
  refine forLoop_blockSpecA A m gpu g.NPOL _ _ _ ?_ (fun p1 hp1 => ?_)
  · rintro p1 k x hp1 hk ⟨p2, hp2, f, _, rfl⟩ ⟨q2, hq2, f2, _, h⟩
    have := triIndex_inj g hN hi (Nat.le_of_lt_succ hj) hp1 hp2 hi
      (Nat.le_of_lt_succ hj) (Nat.lt_trans hk hp1) hq2 h
    omega
  refine forLoop_blockSpecA A m gpu g.NPOL _ _ _ ?_ (fun p2 hp2 => ?_)
  · rintro p2 k x hp2 hk ⟨f, _, rfl⟩ ⟨f2, _, h⟩
    have := triIndex_inj g hN hi (Nat.le_of_lt_succ hj) hp1 hp2 hi
      (Nat.le_of_lt_succ hj) hp1 (Nat.lt_trans hk hp2) h
    omega
  refine forLoop_blockSpecA A m gpu g.NFREQUENCY _ _ _ ?_ (fun f _ => ?_)
  · rintro f k x _ hk rfl h
    have := triIndex_inj g hN hi (Nat.le_of_lt_succ hj) hp1 hp2 hi
      (Nat.le_of_lt_succ hj) hp1 hp2 h
    omega
  exact checkStepA_blockSpec A m g gpu cpu verbose array_h i j p1 p2 f

theorem visited_iff (g : Geometry) (x : Nat) :
    Visited g x ↔ ∃ i, i < g.NSTATION ∧ ∃ j, j < i + 1 ∧ ∃ p1, p1 < g.NPOL ∧
      ∃ p2, p2 < g.NPOL ∧ ∃ f, f < g.NFREQUENCY ∧ x = triIndex g f i j p1 p2 := by
  constructor
  · rintro ⟨t, ht, rfl⟩
    obtain ⟨i, hi, j, hj, p1, hp1, p2, hp2, f, hf, rfl⟩ := (mem_checkTuples g t).mp ht
    exact ⟨i, hi, j, hj, p1, hp1, p2, hp2, f, hf, rfl⟩
  · rintro ⟨i, hi, j, hj, p1, hp1, p2, hp2, f, hf, rfl⟩
    exact ⟨(i, j, p1, p2, f),
      (mem_checkTuples g _).mpr ⟨i, hi, j, hj, p1, hp1, p2, hp2, f, hf, rfl⟩, rfl⟩

/-- With an even `NSTATION`, what `xgpuCheckResult` computes in the arithmetic of
the code: its scalar results are those of the loop nest on the errors of the
tuples, each taken on the pre-processed original element; the visited elements
of the computed matrix end up pre-processed, the other elements are as before. -/
theorem checkResultA_spec {C D : Type} (A : CheckArith C D) (m : Mode) (g : Geometry)
    (hN : g.NSTATION % 2 = 0) (gpu cpu : Nat → Complex C) (verbose : Int)
    (array_h : Option (Nat → ComplexInput)) :
    ((xgpuCheckResultA A m g gpu cpu verbose array_h).errorCount
        = (tallyLoops A m g verbose array_h (tupleErrorA A m g gpu cpu)
            ⟨0, A.literal 0, 1⟩).errorCount ∧
      (xgpuCheckResultA A m g gpu cpu verbose array_h).maxError
        = (tallyLoops A m g verbose array_h (tupleErrorA A m g gpu cpu)
            ⟨0, A.literal 0, 1⟩).maxError) ∧
    (∀ x, Visited g x →
      (xgpuCheckResultA A m g gpu cpu verbose array_h).gpu x = preRoundA A m (gpu x)) ∧
    (∀ x, ¬ Visited g x → (xgpuCheckResultA A m g gpu cpu verbose array_h).gpu x = gpu x) := by
  obtain ⟨h1, h2, h3⟩ := checkLoopsA_spec A m g hN gpu cpu verbose array_h
    ⟨gpu, 0, A.literal 0, 1⟩ (fun _ _ => rfl)
  refine ⟨⟨?_, ?_⟩, ?_, ?_⟩
  · exact congrArg Tally.errorCount h1
  · exact congrArg Tally.maxError h1
  · intro x hx
    exact h2 x ((visited_iff g x).mp hx)
  · intro x hx
    exact h3 x (fun h => hx ((visited_iff g x).mpr h))

theorem tallyStep_spec {C D T : Type} (A : CheckArith C D) (m : Mode) (g : Geometry)
    (verbose : Int) (array_h : Option (Nat → ComplexInput)) (e : T → D) (t : T) :
    TallySpec A e (if A.gt (e t) (TOLA A m) = true then 1 else 0) (fun u => u = t)
      (tallyStep A m g verbose array_h (e t)) := by
  intro s
  have hmax : ∀ c : Tally D,
      c.maxError = (if A.gt (e t) s.maxError = true then e t else s.maxError) →
      (c.maxError = s.maxError ∨ ∃ u, u = t ∧ c.maxError = e u) ∧
      (StrictGt A →
        (c.maxError = s.maxError ∨ A.gt c.maxError s.maxError = true) ∧
          ∀ u, u = t → A.gt (e u) c.maxError = false) := by
    intro c hc
    by_cases hgt : A.gt (e t) s.maxError = true
    · rw [if_pos hgt] at hc
      refine ⟨Or.inr ⟨t, rfl, hc⟩, fun hS => ⟨Or.inr (by rw [hc]; exact hgt), ?_⟩⟩
      rintro u rfl
      rw [hc]
      exact hS.1 _
    · rw [if_neg hgt] at hc
      refine ⟨Or.inl hc, fun _ => ⟨Or.inl hc, ?_⟩⟩
      rintro u rfl
      rw [hc]
      simpa using hgt
  unfold tallyStep
  simp only
  by_cases htol : A.gt (e t) (TOLA A m) = true
  · rw [if_pos htol, if_pos htol]
    exact ⟨rfl, hmax _ rfl⟩
  · rw [if_neg htol, if_neg htol]
    exact ⟨rfl, hmax _ rfl⟩

theorem forLoop_tallySpec {C D T : Type} (A : CheckArith C D) (e : T → D) (n : Nat)
    (c : Nat → Nat) (B : Nat → T → Prop) (body : Nat → Tally D → Tally D)
    (h : ∀ i, i < n → TallySpec A e (c i) (B i) (body i)) :
    TallySpec A e (∑ i in Finset.range n, c i) (fun t => ∃ i, i < n ∧ B i t)
      (forLoop n body) := by
  induction n with
  | zero =>
    intro s
    refine ⟨by simp [forLoop], Or.inl rfl, fun _ => ⟨Or.inl rfl, ?_⟩⟩
    rintro t ⟨i, hi, _⟩
    exact absurd hi (Nat.not_lt_zero i)
  | succ n ih =>
    intro s
    obtain ⟨h1, h2, h3⟩ := ih (fun i hi => h i (Nat.lt_succ_of_lt hi)) s
    obtain ⟨k1, k2, k3⟩ := h n (Nat.lt_succ_self n) (forLoop n body s)
    rw [forLoop_succ]
    refine ⟨?_, ?_, ?_⟩
    · rw [k1, h1, Finset.sum_range_succ, Nat.add_assoc]
    · rcases k2 with k2 | ⟨t, hB, ht⟩
      · rcases h2 with h2 | ⟨t, ⟨i, hi, hB⟩, ht⟩
        · exact Or.inl (k2.trans h2)
        · exact Or.inr ⟨t, ⟨i, Nat.lt_succ_of_lt hi, hB⟩, k2.trans ht⟩
      · exact Or.inr ⟨t, ⟨n, Nat.lt_succ_self n, hB⟩, ht⟩
    · intro hS
      obtain ⟨h4, h5⟩ := h3 hS
      obtain ⟨k4, k5⟩ := k3 hS
      constructor
      · rcases k4 with k4 | k4
        · rw [k4]
          exact h4
        · rcases h4 with h4 | h4
          · rw [h4] at k4
            exact Or.inr k4
          · exact Or.inr (hS.2 _ _ _ k4 h4)
      · rintro t ⟨i, hi, hB⟩
        rcases Nat.lt_succ_iff_lt_or_eq.mp hi with hlt | heq
        · rcases k4 with k4 | k4
          · rw [k4]
            exact h5 t ⟨i, hlt, hB⟩
          · by_contra hcon
            have hgt := hS.2 _ _ _ (Bool.eq_true_of_not_eq_false hcon) k4
            rw [h5 t ⟨i, hlt, hB⟩] at hgt
            exact Bool.false_ne_true hgt
        · subst heq
          exact k5 t hB

/-- The scalar results of the loop nest, from the errors `e` of the tuples:
`errorCount` is the number of tuples whose error compares greater than `TOL`;
`maxError` is the initial `0` or the error of some tuple; and, when `>` is a
strict partial order, `maxError` is `0` or greater than `0`, and no tuple has an
error greater than `maxError`. -/
theorem tallyLoops_result {C D : Type} (A : CheckArith C D) (m : Mode) (g : Geometry)
    (verbose : Int) (array_h : Option (Nat → ComplexInput))
    (e : Nat × Nat × Nat × Nat × Nat → D) :
    (tallyLoops A m g verbose array_h e ⟨0, A.literal 0, 1⟩).errorCount
        = ((checkTuples g).filter (fun t => A.gt (e t) (TOLA A m) = true)).card ∧
      ((tallyLoops A m g verbose array_h e ⟨0, A.literal 0, 1⟩).maxError = A.literal 0 ∨
        ∃ t ∈ checkTuples g,
          (tallyLoops A m g verbose array_h e ⟨0, A.literal 0, 1⟩).maxError = e t) ∧
      (StrictGt A →
        ((tallyLoops A m g verbose array_h e ⟨0, A.literal 0, 1⟩).maxError = A.literal 0 ∨
          A.gt (tallyLoops A m g verbose array_h e ⟨0, A.literal 0, 1⟩).maxError
            (A.literal 0) = true) ∧
        ∀ t ∈ checkTuples g,
          A.gt (e t) (tallyLoops A m g verbose array_h e ⟨0, A.literal 0, 1⟩).maxError
            = false) := by
  have hspec := forLoop_tallySpec A e g.NSTATION _ _ _
    (fun i _ => forLoop_tallySpec A e (i + 1) _ _ _
      (fun j _ => forLoop_tallySpec A e g.NPOL _ _ _
        (fun p1 _ => forLoop_tallySpec A e g.NPOL _ _ _
          (fun p2 _ => forLoop_tallySpec A e g.NFREQUENCY _ _ _
            (fun f _ => tallyStep_spec A m g verbose array_h e (i, j, p1, p2, f))))))
  obtain ⟨h1, h2, h3⟩ := hspec ⟨0, A.literal 0, 1⟩
  refine ⟨?_, ?_, fun hS => ⟨(h3 hS).1, ?_⟩⟩
  · rw [card_checkTuples_filter]
    simpa [tallyLoops] using h1
  · rcases h2 with h2 | ⟨t, ht, he⟩
    · exact Or.inl h2
    · exact Or.inr ⟨t, (mem_checkTuples g t).mpr ht, he⟩
  · intro t ht
    exact (h3 hS).2 t ((mem_checkTuples g t).mp ht)

theorem forLoop_congr {σ : Type} (n : Nat) (body1 body2 : Nat → σ → σ)
    (h : ∀ i, i < n → ∀ s, body1 i s = body2 i s) (s : σ) :
    forLoop n body1 s = forLoop n body2 s := by
  induction n with
  | zero => rfl
  | succ n ih =>
    rw [forLoop_succ, forLoop_succ, ih (fun i hi => h i (Nat.lt_succ_of_lt hi)),
      h n (Nat.lt_succ_self n)]

theorem tallyLoops_congr {C D : Type} (A : CheckArith C D) (m : Mode) (g : Geometry)
    (verbose : Int) (array_h : Option (Nat → ComplexInput))
    (e1 e2 : Nat × Nat × Nat × Nat × Nat → D) (h : ∀ t ∈ checkTuples g, e1 t = e2 t)
    (s : Tally D) :
    tallyLoops A m g verbose array_h e1 s = tallyLoops A m g verbose array_h e2 s := by
  unfold tallyLoops
  refine forLoop_congr _ _ _ (fun i hi s => ?_) s
  refine forLoop_congr _ _ _ (fun j hj s => ?_) s
  refine forLoop_congr _ _ _ (fun p1 hp1 s => ?_) s
  refine forLoop_congr _ _ _ (fun p2 hp2 s => ?_) s
  refine forLoop_congr _ _ _ (fun f hf s => ?_) s
  rw [h _ ((mem_checkTuples g _).mpr ⟨i, hi, j, hj, p1, hp1, p2, hp2, f, hf, rfl⟩)]

theorem exactArith_strictGt {R : Type} [LinearOrderedField R] [FloorRing R] (sqrt : R → R) :
    (∀ x, (exactArith sqrt).gt x x = false) ∧
      (∀ x y z, (exactArith sqrt).gt x y = true → (exactArith sqrt).gt y z = true →
        (exactArith sqrt).gt x z = true) := by
  constructor
  · intro x
    simp [exactArith]
  · intro x y z hxy hyz
    simp only [exactArith, gt_iff_lt, decide_eq_true_eq] at hxy hyz ⊢
    exact lt_trans hyz hxy

/-- C9 (as stated, refuted): in fixed-point mode without extended accumulation,
with 2 stations, 1 frequency, 1 polarization, every computed element `0.4+0i`
and every reference element `0`, the error the claim defines is `|computed| = 0.4`
at every tuple, but the validator rounds the computed element to `0` first and
reports `maxError = 0`. The run is taken in the exact arithmetic of the reals,
in which the claim states its error. -/
theorem check_maxError_not_unrounded :
    ¬ (∀ (m : Mode) (g : Geometry) (gpu cpu : Nat → Complex ℝ) (verbose : Int)
        (array_h : Option (Nat → ComplexInput)), g.NSTATION % 2 = 0 →
        (∀ t ∈ checkTuples g,
          elemError Real.sqrt (gpu (checkIndex g t)) (cpu (checkIndex g t))
            ≤ (xgpuCheckResultA (exactArith Real.sqrt) m g gpu cpu verbose array_h).maxError) ∧
        ((checkTuples g).Nonempty → ∃ t ∈ checkTuples g,
          (xgpuCheckResultA (exactArith Real.sqrt) m g gpu cpu verbose array_h).maxError
            = elemError Real.sqrt (gpu (checkIndex g t)) (cpu (checkIndex g t))) ∧
        ((∀ t ∈ checkTuples g,
            elemError Real.sqrt (gpu (checkIndex g t)) (cpu (checkIndex g t)) = 0) →
          (xgpuCheckResultA (exactArith Real.sqrt) m g gpu cpu verbose array_h).maxError
            = 0)) := by
  intro h
  have h0 := (h modeFixed geom2 (fun _ => ⟨2 / 5, 0⟩) (fun _ => ⟨0, 0⟩) 0 none (by decide)).1
    (0, 0, 0, 0, 0) (by decide)
  have herr : ∀ t, tupleErrorA (exactArith Real.sqrt) modeFixed geom2
      (fun _ => (⟨2 / 5, 0⟩ : Complex ℝ)) (fun _ => (⟨0, 0⟩ : Complex ℝ)) t = 0 := by
    intro t
    simp [tupleErrorA, elemErrorA, preRoundA, roundComplexA, zabsA, exactArith, modeFixed,
      cround_two_fifths, cround_zero]
  have hmax : (xgpuCheckResultA (exactArith Real.sqrt) modeFixed geom2
      (fun _ => (⟨2 / 5, 0⟩ : Complex ℝ)) (fun _ => (⟨0, 0⟩ : Complex ℝ)) 0 none).maxError
      = 0 := by
    rw [(checkResultA_spec (exactArith Real.sqrt) modeFixed geom2 (by decide) _ _ 0 none).1.2]
    rcases (tallyLoops_result (exactArith Real.sqrt) modeFixed geom2 0 none
      (tupleErrorA (exactArith Real.sqrt) modeFixed geom2
        (fun _ => (⟨2 / 5, 0⟩ : Complex ℝ)) (fun _ => (⟨0, 0⟩ : Complex ℝ)))).2.1
      with h1 | ⟨t, _, h1⟩
    · rw [h1]
      simp [exactArith]
    · rw [h1, herr]
  rw [hmax] at h0
  have hval : elemError Real.sqrt (⟨2 / 5, 0⟩ : Complex ℝ) ⟨0, 0⟩ = 2 / 5 := by
    have h1 : Real.sqrt (2 / 5 * (2 / 5)) = 2 / 5 := Real.sqrt_mul_self (by norm_num)
    simp [elemError, zabs, h1]
  rw [hval] at h0
  norm_num at h0

/-- C9 (amended): for every geometry with even `NSTATION`, every numeric mode and
every pair of matrices, in the arithmetic of the code, whose comparison `>` is
a strict partial order: the `maxError` of `xgpuCheckResult` is the maximum,
under that `>`, of `0` and the per-element errors over the canonical index
tuples `(i,j,pol1,pol2,f)`, `j ≤ i`. The per-element error is the one the code
computes: on the computed element after the mode's pre-processing (rounded in
fixed-point mode without extended accumulation, unchanged in the other modes),
`zabs(computed)` when `zabs(reference)` compares equal to `0` and
`zabs(reference - computed) / zabs(reference)` otherwise, with `zabs` evaluated
in the arithmetic of the component type and of `double`, not over the reals.
That is: no tuple's error is greater than `maxError`; `maxError` is `0` or the
error of some tuple; it is `0` or greater than `0`; and it is `0` when every
error is `0`. -/
theorem check_maxError {C D : Type} (A : CheckArith C D) (m : Mode) (g : Geometry)
    (gpu cpu : Nat → Complex C) (verbose : Int) (array_h : Option (Nat → ComplexInput))
    (hN : g.NSTATION % 2 = 0) (hirr : ∀ x, A.gt x x = false)
    (htrans : ∀ x y z, A.gt x y = true → A.gt y z = true → A.gt x z = true) :
    (∀ t ∈ checkTuples g,
      A.gt (elemErrorA A (preRoundA A m (gpu (checkIndex g t))) (cpu (checkIndex g t)))
        (xgpuCheckResultA A m g gpu cpu verbose array_h).maxError = false) ∧
    ((xgpuCheckResultA A m g gpu cpu verbose array_h).maxError = A.literal 0 ∨
      ∃ t ∈ checkTuples g,
        (xgpuCheckResultA A m g gpu cpu verbose array_h).maxError
          = elemErrorA A (preRoundA A m (gpu (checkIndex g t))) (cpu (checkIndex g t))) ∧
    ((xgpuCheckResultA A m g gpu cpu verbose array_h).maxError = A.literal 0 ∨
      A.gt (xgpuCheckResultA A m g gpu cpu verbose array_h).maxError (A.literal 0) = true) ∧
    ((∀ t ∈ checkTuples g,
        elemErrorA A (preRoundA A m (gpu (checkIndex g t))) (cpu (checkIndex g t))
          = A.literal 0) →
      (xgpuCheckResultA A m g gpu cpu verbose array_h).maxError = A.literal 0) := by
  obtain ⟨_, hor, hord⟩ := tallyLoops_result A m g verbose array_h (tupleErrorA A m g gpu cpu)
  obtain ⟨hge, hle⟩ := hord ⟨hirr, htrans⟩
  rw [(checkResultA_spec A m g hN gpu cpu verbose array_h).1.2]
  refine ⟨hle, hor, hge, ?_⟩
  intro hz
  rcases hor with h | ⟨t, ht, h⟩
  · exact h
  · rw [h]
    exact hz t ht

/-- C9 (amended), applied on the spec's scenario in the exact arithmetic of the
reals (floating mode, 2 stations, 1 frequency, 1 polarization; reference `3+4i`
everywhere, computed `3.03+4i` at offset 1 and equal to the reference
elsewhere). -/
theorem check_maxError_scenario :
    (∀ t ∈ checkTuples geom2,
      (exactArith Real.sqrt).gt
        (elemErrorA (exactArith Real.sqrt)
          (preRoundA (exactArith Real.sqrt) modeFloat
            (if checkIndex geom2 t = 1 then (⟨303 / 100, 4⟩ : Complex ℝ) else ⟨3, 4⟩))
          (⟨3, 4⟩ : Complex ℝ))
        (xgpuCheckResultA (exactArith Real.sqrt) modeFloat geom2
          (fun idx => if idx = 1 then (⟨303 / 100, 4⟩ : Complex ℝ) else ⟨3, 4⟩)
          (fun _ => (⟨3, 4⟩ : Complex ℝ)) 0 none).maxError = false) ∧
    ((xgpuCheckResultA (exactArith Real.sqrt) modeFloat geom2
          (fun idx => if idx = 1 then (⟨303 / 100, 4⟩ : Complex ℝ) else ⟨3, 4⟩)
          (fun _ => (⟨3, 4⟩ : Complex ℝ)) 0 none).maxError = (exactArith Real.sqrt).literal 0 ∨
      ∃ t ∈ checkTuples geom2,
        (xgpuCheckResultA (exactArith Real.sqrt) modeFloat geom2
          (fun idx => if idx = 1 then (⟨303 / 100, 4⟩ : Complex ℝ) else ⟨3, 4⟩)
          (fun _ => (⟨3, 4⟩ : Complex ℝ)) 0 none).maxError
          = elemErrorA (exactArith Real.sqrt)
              (preRoundA (exactArith Real.sqrt) modeFloat
                (if checkIndex geom2 t = 1 then (⟨303 / 100, 4⟩ : Complex ℝ) else ⟨3, 4⟩))
              (⟨3, 4⟩ : Complex ℝ)) ∧
    ((xgpuCheckResultA (exactArith Real.sqrt) modeFloat geom2
          (fun idx => if idx = 1 then (⟨303 / 100, 4⟩ : Complex ℝ) else ⟨3, 4⟩)
          (fun _ => (⟨3, 4⟩ : Complex ℝ)) 0 none).maxError = (exactArith Real.sqrt).literal 0 ∨
      (exactArith Real.sqrt).gt
        (xgpuCheckResultA (exactArith Real.sqrt) modeFloat geom2
          (fun idx => if idx = 1 then (⟨303 / 100, 4⟩ : Complex ℝ) else ⟨3, 4⟩)
          (fun _ => (⟨3, 4⟩ : Complex ℝ)) 0 none).maxError
        ((exactArith Real.sqrt).literal 0) = true) ∧
    ((∀ t ∈ checkTuples geom2,
        elemErrorA (exactArith Real.sqrt)
          (preRoundA (exactArith Real.sqrt) modeFloat
            (if checkIndex geom2 t = 1 then (⟨303 / 100, 4⟩ : Complex ℝ) else ⟨3, 4⟩))
          (⟨3, 4⟩ : Complex ℝ) = (exactArith Real.sqrt).literal 0) →
      (xgpuCheckResultA (exactArith Real.sqrt) modeFloat geom2
          (fun idx => if idx = 1 then (⟨303 / 100, 4⟩ : Complex ℝ) else ⟨3, 4⟩)
          (fun _ => (⟨3, 4⟩ : Complex ℝ)) 0 none).maxError = (exactArith Real.sqrt).literal 0) :=
  check_maxError (exactArith Real.sqrt) modeFloat geom2
    (fun idx => if idx = 1 then (⟨303 / 100, 4⟩ : Complex ℝ) else ⟨3, 4⟩)
    (fun _ => (⟨3, 4⟩ : Complex ℝ)) 0 none (by decide)
    (exactArith_strictGt Real.sqrt).1 (exactArith_strictGt Real.sqrt).2

/-! ## C16: the fixed-point rounding -/

theorem preRoundA_fixed {C D : Type} (A : CheckArith C D) (m : Mode)
    (hm : m.FIXED_POINT = true ∧ m.DP4A = false) (z : Complex C) :
    preRoundA A m z = roundComplexA A z := by
  unfold preRoundA
  rw [if_pos hm]

theorem roundComplexA_idem {C D : Type} (A : CheckArith C D)
    (hround : ∀ x, A.round (A.round x) = A.round x) (z : Complex C) :
    roundComplexA A (roundComplexA A z) = roundComplexA A z := by
  unfold roundComplexA
  simp only [hround]

/-- C16: in fixed-point mode without extended accumulation, for every geometry
with even `NSTATION` and every pair of matrices, in the arithmetic of the code,
whose `round` returns its own results unchanged: after `xgpuCheckResult` every
canonical element of the computed matrix holds `round` of its original real and
imaginary components; the errors are computed from the rounded values (the
deviation count is the number of tuples whose error, computed from the rounded
element, is greater than `TOL`, and `maxError` is `0` or the error computed
from the rounded element of some tuple); a computed matrix whose components
`round` returns unchanged, as it does integers, is left unchanged; and a second
run of `xgpuCheckResult` on the buffer the first run left behind leaves that
buffer unchanged and yields the same deviation count and `maxError`. -/
theorem check_rounding_idempotent {C D : Type} (A : CheckArith C D) (m : Mode) (g : Geometry)
    (gpu cpu : Nat → Complex C) (verbose : Int) (array_h : Option (Nat → ComplexInput))
    (hm : m.FIXED_POINT = true ∧ m.DP4A = false) (hN : g.NSTATION % 2 = 0)
    (hround : ∀ x, A.round (A.round x) = A.round x) :
    (∀ t ∈ checkTuples g,
      (xgpuCheckResultA A m g gpu cpu verbose array_h).gpu (checkIndex g t)
        = ⟨A.round (gpu (checkIndex g t)).real, A.round (gpu (checkIndex g t)).imag⟩) ∧
    ((xgpuCheckResultA A m g gpu cpu verbose array_h).errorCount
        = ((checkTuples g).filter (fun t =>
            A.gt (elemErrorA A (roundComplexA A (gpu (checkIndex g t))) (cpu (checkIndex g t)))
              (TOLA A m) = true)).card ∧
      ((xgpuCheckResultA A m g gpu cpu verbose array_h).maxError = A.literal 0 ∨
        ∃ t ∈ checkTuples g,
          (xgpuCheckResultA A m g gpu cpu verbose array_h).maxError
            = elemErrorA A (roundComplexA A (gpu (checkIndex g t)))
                (cpu (checkIndex g t)))) ∧
    ((∀ x, A.round (gpu x).real = (gpu x).real ∧ A.round (gpu x).imag = (gpu x).imag) →
      ∀ x, (xgpuCheckResultA A m g gpu cpu verbose array_h).gpu x = gpu x) ∧
    ((∀ x, (xgpuCheckResultA A m g
          (xgpuCheckResultA A m g gpu cpu verbose array_h).gpu cpu verbose array_h).gpu x
        = (xgpuCheckResultA A m g gpu cpu verbose array_h).gpu x) ∧
      (xgpuCheckResultA A m g
          (xgpuCheckResultA A m g gpu cpu verbose array_h).gpu cpu verbose array_h).errorCount
        = (xgpuCheckResultA A m g gpu cpu verbose array_h).errorCount ∧
      (xgpuCheckResultA A m g
          (xgpuCheckResultA A m g gpu cpu verbose array_h).gpu cpu verbose array_h).maxError
        = (xgpuCheckResultA A m g gpu cpu verbose array_h).maxError) := by
  obtain ⟨⟨hc, hmx⟩, hv, hnv⟩ := checkResultA_spec A m g hN gpu cpu verbose array_h
  obtain ⟨⟨hc2, hmx2⟩, hv2, hnv2⟩ := checkResultA_spec A m g hN
    (xgpuCheckResultA A m g gpu cpu verbose array_h).gpu cpu verbose array_h
  obtain ⟨kc, kor, _⟩ := tallyLoops_result A m g verbose array_h (tupleErrorA A m g gpu cpu)
  have herr : ∀ t, tupleErrorA A m g gpu cpu t
      = elemErrorA A (roundComplexA A (gpu (checkIndex g t))) (cpu (checkIndex g t)) := by
    intro t
    unfold tupleErrorA
    rw [preRoundA_fixed A m hm]
  have herr2 : ∀ t ∈ checkTuples g,
      tupleErrorA A m g (xgpuCheckResultA A m g gpu cpu verbose array_h).gpu cpu t
        = tupleErrorA A m g gpu cpu t := by
    intro t ht
    unfold tupleErrorA
    rw [hv _ (visited_checkIndex g t ht), preRoundA_fixed A m hm, preRoundA_fixed A m hm,
      roundComplexA_idem A hround]
  have htally := tallyLoops_congr A m g verbose array_h _ _ herr2 ⟨0, A.literal 0, 1⟩
  refine ⟨?_, ⟨?_, ?_⟩, ?_, ?_, ?_, ?_⟩
  · intro t ht
    rw [hv _ (visited_checkIndex g t ht), preRoundA_fixed A m hm]
    rfl
  · rw [hc, kc]
    simp only [herr]
  · rw [hmx]
    simp only [← herr]
    exact kor
  · intro hint x
    by_cases hx : Visited g x
    · rw [hv x hx, preRoundA_fixed A m hm]
      unfold roundComplexA
      rw [(hint x).1, (hint x).2]
    · exact hnv x hx
  · intro x
    by_cases hx : Visited g x
    · rw [hv2 x hx, hv x hx, preRoundA_fixed A m hm, preRoundA_fixed A m hm,
        roundComplexA_idem A hround]
    · exact hnv2 x hx
  · rw [hc2, hc, htally]
  · rw [hmx2, hmx, htally]

/-- C16, applied in fixed-point mode without extended accumulation, in the exact
arithmetic of the reals, to 2 stations, 1 frequency, 1 polarization, computed
elements `0.4+0i` and reference elements `0`. -/
theorem check_rounding_idempotent_witness :
    (∀ t ∈ checkTuples geom2,
      (xgpuCheckResultA (exactArith Real.sqrt) modeFixed geom2
          (fun _ => (⟨2 / 5, 0⟩ : Complex ℝ)) (fun _ => (⟨0, 0⟩ : Complex ℝ)) 0 none).gpu
          (checkIndex geom2 t)
        = ⟨(exactArith Real.sqrt).round (2 / 5), (exactArith Real.sqrt).round 0⟩) ∧
    ((xgpuCheckResultA (exactArith Real.sqrt) modeFixed geom2
          (fun _ => (⟨2 / 5, 0⟩ : Complex ℝ)) (fun _ => (⟨0, 0⟩ : Complex ℝ)) 0 none).errorCount
        = ((checkTuples geom2).filter (fun _ =>
            (exactArith Real.sqrt).gt
              (elemErrorA (exactArith Real.sqrt)
                (roundComplexA (exactArith Real.sqrt) (⟨2 / 5, 0⟩ : Complex ℝ))
                (⟨0, 0⟩ : Complex ℝ))
              (TOLA (exactArith Real.sqrt) modeFixed) = true)).card ∧
      ((xgpuCheckResultA (exactArith Real.sqrt) modeFixed geom2
          (fun _ => (⟨2 / 5, 0⟩ : Complex ℝ)) (fun _ => (⟨0, 0⟩ : Complex ℝ)) 0 none).maxError
          = (exactArith Real.sqrt).literal 0 ∨
        ∃ t ∈ checkTuples geom2,
          (xgpuCheckResultA (exactArith Real.sqrt) modeFixed geom2
            (fun _ => (⟨2 / 5, 0⟩ : Complex ℝ)) (fun _ => (⟨0, 0⟩ : Complex ℝ)) 0 none).maxError
            = elemErrorA (exactArith Real.sqrt)
                (roundComplexA (exactArith Real.sqrt) (⟨2 / 5, 0⟩ : Complex ℝ))
                (⟨0, 0⟩ : Complex ℝ))) ∧
    ((∀ _ : Nat, (exactArith Real.sqrt).round (2 / 5 : ℝ) = 2 / 5 ∧
        (exactArith Real.sqrt).round (0 : ℝ) = 0) →
      ∀ x, (xgpuCheckResultA (exactArith Real.sqrt) modeFixed geom2
          (fun _ => (⟨2 / 5, 0⟩ : Complex ℝ)) (fun _ => (⟨0, 0⟩ : Complex ℝ)) 0 none).gpu x
        = (⟨2 / 5, 0⟩ : Complex ℝ)) ∧
    ((∀ x, (xgpuCheckResultA (exactArith Real.sqrt) modeFixed geom2
          (xgpuCheckResultA (exactArith Real.sqrt) modeFixed geom2
            (fun _ => (⟨2 / 5, 0⟩ : Complex ℝ)) (fun _ => (⟨0, 0⟩ : Complex ℝ)) 0 none).gpu
          (fun _ => (⟨0, 0⟩ : Complex ℝ)) 0 none).gpu x
        = (xgpuCheckResultA (exactArith Real.sqrt) modeFixed geom2
            (fun _ => (⟨2 / 5, 0⟩ : Complex ℝ)) (fun _ => (⟨0, 0⟩ : Complex ℝ)) 0 none).gpu x) ∧
      (xgpuCheckResultA (exactArith Real.sqrt) modeFixed geom2
          (xgpuCheckResultA (exactArith Real.sqrt) modeFixed geom2
            (fun _ => (⟨2 / 5, 0⟩ : Complex ℝ)) (fun _ => (⟨0, 0⟩ : Complex ℝ)) 0 none).gpu
          (fun _ => (⟨0, 0⟩ : Complex ℝ)) 0 none).errorCount
        = (xgpuCheckResultA (exactArith Real.sqrt) modeFixed geom2
            (fun _ => (⟨2 / 5, 0⟩ : Complex ℝ)) (fun _ => (⟨0, 0⟩ : Complex ℝ)) 0
            none).errorCount ∧
      (xgpuCheckResultA (exactArith Real.sqrt) modeFixed geom2
          (xgpuCheckResultA (exactArith Real.sqrt) modeFixed geom2
            (fun _ => (⟨2 / 5, 0⟩ : Complex ℝ)) (fun _ => (⟨0, 0⟩ : Complex ℝ)) 0 none).gpu
          (fun _ => (⟨0, 0⟩ : Complex ℝ)) 0 none).maxError
        = (xgpuCheckResultA (exactArith Real.sqrt) modeFixed geom2
            (fun _ => (⟨2 / 5, 0⟩ : Complex ℝ)) (fun _ => (⟨0, 0⟩ : Complex ℝ)) 0
            none).maxError) :=
  check_rounding_idempotent (exactArith Real.sqrt) modeFixed geom2 (fun _ => ⟨2 / 5, 0⟩)
    (fun _ => ⟨0, 0⟩) 0 none ⟨rfl, rfl⟩ (by decide) (fun x => cround_cround x)

/-! ## The error over the reals and the error the code computes -/

/-- In the `DP4A` build the error the validator computes is not the error over
the reals. With 2 stations, 1 frequency, 1 polarization, every reference element
`65536+0i` and every computed element `0`: over the reals the error
`|computed - reference| / |reference|` is `1`, but the `int` product
`65536*65536` wraps to `0`, so `zabs` of the reference compares equal to `0`,
the error is `zabs` of the computed element, `0`, and `xgpuCheckResult` reports
`maxError = 0` and no deviation. -/
theorem check_dp4a_wraps :
    (xgpuCheckResultA (intArith Real.sqrt) modeDP4A geom2 (fun _ => ⟨0, 0⟩)
        (fun _ => ⟨65536, 0⟩) 0 none).maxError = 0 ∧
    (xgpuCheckResultA (intArith Real.sqrt) modeDP4A geom2 (fun _ => ⟨0, 0⟩)
        (fun _ => ⟨65536, 0⟩) 0 none).errorCount = 0 ∧
    elemError Real.sqrt (⟨0, 0⟩ : Complex ℝ) ⟨65536, 0⟩ = 1 := by
  have hw : wrap32 (wrap32 4294967296 + wrap32 0) = 0 := by decide
  have hw0 : wrap32 (wrap32 0 + wrap32 0) = 0 := by decide
  have herr : ∀ t, tupleErrorA (intArith Real.sqrt) modeDP4A geom2 (fun _ => ⟨0, 0⟩)
      (fun _ => ⟨65536, 0⟩) t = 0 := by
    intro t
    simp [tupleErrorA, elemErrorA, preRoundA, zabsA, intArith, modeDP4A, hw, hw0]
  obtain ⟨⟨hc, hmx⟩, _, _⟩ := checkResultA_spec (intArith Real.sqrt) modeDP4A geom2 (by decide)
    (fun _ => ⟨0, 0⟩) (fun _ => ⟨65536, 0⟩) 0 none
  obtain ⟨kc, kor, _⟩ := tallyLoops_result (intArith Real.sqrt) modeDP4A geom2 0 none
    (tupleErrorA (intArith Real.sqrt) modeDP4A geom2 (fun _ => ⟨0, 0⟩) (fun _ => ⟨65536, 0⟩))
  refine ⟨?_, ?_, ?_⟩
  · rw [hmx]
    rcases kor with h | ⟨t, _, h⟩
    · rw [h]
      simp [intArith]
    · rw [h, herr]
  · rw [hc, kc, Finset.card_eq_zero, Finset.filter_eq_empty_iff]
    intro t _
    rw [herr]
    simp [intArith, TOLA, modeDP4A]
  · have h1 : Real.sqrt (65536 * 65536) = 65536 := Real.sqrt_mul_self (by norm_num)
    have h2 : Real.sqrt ((0 - 65536) * (0 - 65536)) = 65536 := by
      rw [show ((0 - 65536) * (0 - 65536) : ℝ) = 65536 * 65536 by norm_num]
      exact h1
    simp [elemError, zabs, h1, h2]

/-! ## The exact arithmetic as an instance -/

theorem checkStepA_exact {R : Type} [LinearOrderedField R] [FloorRing R] (m : Mode)
    (g : Geometry) (sqrt : R → R) (cpu : Nat → Complex R) (verbose : Int)
    (array_h : Option (Nat → ComplexInput)) (i j pol1 pol2 f : Nat) (a : CheckState R)
    (b : CheckStateA R R) (hab : a = ⟨b.gpu, b.errorCount, b.maxError, b.printed⟩) :
    checkStep m g sqrt cpu verbose array_h i j pol1 pol2 f a
      = ⟨(checkStepA (exactArith sqrt) m g cpu verbose array_h i j pol1 pol2 f b).gpu,
          (checkStepA (exactArith sqrt) m g cpu verbose array_h i j pol1 pol2 f b).errorCount,
          (checkStepA (exactArith sqrt) m g cpu verbose array_h i j pol1 pol2 f b).maxError,
          (checkStepA (exactArith sqrt) m g cpu verbose array_h i j pol1 pol2 f b).printed⟩ := by
  have hT : TOLA (exactArith sqrt) m = (TOL m : R) := by
    unfold TOLA TOL exactArith
    split <;> simp
  subst hab
  unfold checkStepA checkStep
  simp only [hT]
  simp only [zabsA, zabs, exactArith, Rat.cast_zero, decide_eq_true_eq]
  split_ifs <;> rfl

/-- The validator over an ordered field (`xgpuCheckResult`) is the validator in
the arithmetic of the code (`xgpuCheckResultA`) taken at the exact arithmetic of
that field. -/
theorem checkResultA_exact {R : Type} [LinearOrderedField R] [FloorRing R] (m : Mode)
    (g : Geometry) (sqrt : R → R) (gpu cpu : Nat → Complex R) (verbose : Int)
    (array_h : Option (Nat → ComplexInput)) :
    xgpuCheckResult m g sqrt gpu cpu verbose array_h
      = ⟨(xgpuCheckResultA (exactArith sqrt) m g gpu cpu verbose array_h).gpu,
          (xgpuCheckResultA (exactArith sqrt) m g gpu cpu verbose array_h).errorCount,
          (xgpuCheckResultA (exactArith sqrt) m g gpu cpu verbose array_h).maxError,
          (xgpuCheckResultA (exactArith sqrt) m g gpu cpu verbose array_h).printed⟩ := by
  have hsim := forLoop_sim
    (fun (a : CheckState R) (b : CheckStateA R R) =>
      a = ⟨b.gpu, b.errorCount, b.maxError, b.printed⟩) g.NSTATION
    (fun i => forLoop (i + 1) (fun j => forLoop g.NPOL (fun pol1 => forLoop g.NPOL (fun pol2 =>
      forLoop g.NFREQUENCY (fun f =>
        checkStep m g sqrt cpu verbose array_h i j pol1 pol2 f)))))
    (fun i => forLoop (i + 1) (fun j => forLoop g.NPOL (fun pol1 => forLoop g.NPOL (fun pol2 =>
      forLoop g.NFREQUENCY (fun f =>
        checkStepA (exactArith sqrt) m g cpu verbose array_h i j pol1 pol2 f)))))
    (fun i _ a b hab => forLoop_sim _ _ _ _
      (fun j _ a b hab => forLoop_sim _ _ _ _
        (fun p1 _ a b hab => forLoop_sim _ _ _ _
          (fun p2 _ a b hab => forLoop_sim _ _ _ _
            (fun f _ a b hab => checkStepA_exact m g sqrt cpu verbose array_h i j p1 p2 f a b hab)
            a b hab) a b hab) a b hab) a b hab)
    (⟨gpu, 0, 0, 1⟩ : CheckState R) (⟨gpu, 0, (exactArith sqrt).literal 0, 1⟩ : CheckStateA R R)
    (by simp [exactArith])
  unfold xgpuCheckResult xgpuCheckResultA
  simp only at hsim ⊢
  rw [hsim]

end XGPU
